import Mathlib

/-!
# MPD playback engine: output controller

A shallow embedding of `src/output/Control.cxx` (the client side of
`AudioOutputControl`) and `src/output/Thread.cxx` (its worker thread).

* The fields of `AudioOutputControl` are a record, every method is a function
  on that record.
* Calls into collaborators that are outside these two files (the device
  plugin, the filter source, the mixer, the client) are recorded in a ghost
  event log `log`; what such a call returns or throws is an input of the
  function (the records `Env`, `PauseScript`, `PlayScript`, `DrainScript`).
* `assert(...)` does not stop the model: a failed assertion is recorded in the
  log as `Event.AssertionFailed` and execution continues as in a release build.
* Times read from the steady clock and the durations compared with them are
  natural numbers of milliseconds.
-/

namespace MPD

/-! ## Data model -/

/-- The command mailbox of the output thread (`AudioOutputControl::Command`). -/
inductive Command where
  | NONE | ENABLE | DISABLE | OPEN | CLOSE | PAUSE | RELEASE | DRAIN | CANCEL | KILL
  deriving DecidableEq, Repr

/-- State of the per-output filter source (`AudioOutputControl::SourceState`). -/
inductive SourceState where
  | CLOSED | OPEN | FLUSHED
  deriving DecidableEq, Repr

/-- Modelled from the spec: `AudioFormat` is declared outside src/. An audio
format is a sample rate, a sample format and a channel count; the controller
compares formats for equality. -/
structure AudioFormat where
  sample_rate : Nat
  format : Nat
  channels : Nat
  deriving DecidableEq, Repr

/-- What a collaborator call can throw: `AudioOutputInterrupted`, some other
error, or an error wrapped by `std::throw_with_nested`. -/
inductive Exception where
  | AudioOutputInterrupted
  | failure (code : Nat)
  | nested (inner : Exception)
  deriving DecidableEq, Repr

/-- Assertion sites of the two source files. -/
inductive Assertion where
  | CommandFinished_command_not_NONE
  | CommandAsync_IsCommandFinished
  | StartThread_command_NONE
  | StopThread_IsCommandFinished
  | Steal_not_dummy
  | Open_allow_play
  | Open_request_pipe
  | CloseWait_allow_play
  | CloseWait_open_implies_no_fail_timer
  | LockRelease_open_implies_no_fail_timer
  | LockRelease_allow_play
  | LockCloseWait_open_implies_no_fail_timer
  | LockPlay_allow_play
  | LockPauseAsync_allow_play
  | LockDrainAsync_allow_play
  | DisableAsync_not_really_enabled
  | InternalCloseOutput_IsOpen
  | InternalClose_IsOpen
  | FillSourceOrClose_source_OPEN
  | PlayChunk_source_OPEN
  | PlayChunk_nbytes_positive
  | PlayChunk_nbytes_le_size
  | PlayChunk_frame_aligned
  | InternalPlay_source_OPEN
  | InternalPlay_not_in_playback_loop
  | InternalPlay_in_playback_loop
  | PlayFull_nbytes_positive
  | InternalDrain_source_OPEN
  deriving DecidableEq, Repr

/-- Functions whose invocation is recorded in the log. -/
inductive Fn where
  | Open | InternalPlay | InternalPause | InternalDrain
  deriving DecidableEq, Repr

/-- Ghost events: calls into collaborators, waits on `wake_cond`, acknowledged
commands, recorded function entries (`PlayChunk` is an entry of the method
`PlayChunk`, `Call fn` an entry of one of the functions `Fn`) and failed
assertions. -/
inductive Event where
  | Enable | Disable
  | OpenOutputAndConvert (f : AudioFormat)
  | ConfigureConvertFilter
  | OpenSoftwareMixer
  | CloseOutput (drain : Bool)
  | Close (drain : Bool)
  | BeginPause | IteratePause | EndPause
  | SendTag (tag : Nat)
  | Play (data : List Nat)
  | Drain | Cancel | Interrupt
  | SourceOpen (f : AudioFormat) (pipe : Nat)
  | SourceClose | SourceCancel | SourceFill | SourceFlush
  | SourceConsumeData (nbytes : Nat)
  | MixerLockOpen | MixerLockAutoClose
  | ChunksConsumed
  | PlayChunk
  | ThreadStart | ThreadJoin
  | WakeCondWait
  | WakeCondWaitFor (delay : Int)
  | CommandFinished (cmd : Command)
  | Call (fn : Fn)
  | AssertionFailed (site : Assertion)
  deriving DecidableEq, Repr

/-- Modelled from the spec: `PeriodClock` (the type of `fail_timer`) is declared
outside src/. The spec calls it a monotonic timer that is armed on a failure and
guards the automatic reopen: an armed timer remembers when it was armed, and
`Check(d)` holds once `d` has elapsed since then. -/
structure PeriodClock where
  last : Option Nat
  deriving DecidableEq, Repr

/-- Modelled from the spec: `fail_timer.IsDefined()`, the timer is armed. -/
def PeriodClock.IsDefined (c : PeriodClock) : Bool := c.last.isSome

/-- Modelled from the spec: `fail_timer.Reset()` disarms the timer. -/
def PeriodClock.Reset (_c : PeriodClock) : PeriodClock := { last := none }

/-- Modelled from the spec: `fail_timer.Update()` arms the timer at the current
time `now`. -/
def PeriodClock.Update (_c : PeriodClock) (now : Nat) : PeriodClock := { last := some now }

/-- Modelled from the spec: `fail_timer.Check(duration)` at time `now`: the
duration has elapsed since the timer was armed. -/
def PeriodClock.Check (c : PeriodClock) (now duration : Nat) : Bool :=
  match c.last with
  | none => true
  | some t => decide (t + duration ≤ now)

/-- The duration `std::chrono::seconds(n)`, in milliseconds. -/
def seconds (n : Nat) : Nat := 1000 * n

/-- After a failure, wait this duration before automatically reopening the
device: `REOPEN_AFTER = std::chrono::seconds(10)` (Control.cxx line 17). -/
def REOPEN_AFTER : Nat := seconds 10

/-- Modelled from the spec: `FilteredAudioOutput` is declared outside src/. The
device behind a controller: the capabilities of the output plugin
(`SupportsEnableDisable`, `SupportsPause`), whether a mixer is attached, and the
audio formats that the controller reads and writes. -/
structure FilteredAudioOutput where
  supports_enable_disable : Bool
  supports_pause : Bool
  has_mixer : Bool
  config_audio_format : AudioFormat
  filter_audio_format : AudioFormat
  out_audio_format : AudioFormat
  deriving DecidableEq, Repr

/-- Modelled from the spec: `AudioOutputSource` is declared outside src/. The
model keeps what `PeekData()` returns (the payload not yet consumed) and the tag
`ReadTag()` returns. -/
structure AudioOutputSource where
  pending : List Nat
  tag : Option Nat
  deriving DecidableEq, Repr

/-- The fields of `AudioOutputControl` that the two source files read or write,
and the ghost log. `output = none` is the dummy controller (`output == nullptr`);
`thread` is `thread.IsDefined()`. -/
structure AudioOutputControl where
  output : Option FilteredAudioOutput
  thread : Bool
  tags : Bool
  always_on : Bool
  always_off : Bool
  enabled : Bool
  really_enabled : Bool
  open_ : Bool
  pause : Bool
  allow_play : Bool
  in_playback_loop : Bool
  woken_for_play : Bool
  skip_delay : Bool
  should_reopen : Bool
  caught_interrupted : Bool
  playing : Bool
  killed : Bool
  command : Command
  source_state : SourceState
  fail_timer : PeriodClock
  last_error : Option Exception
  request_audio_format : AudioFormat
  request_pipe : Nat
  source : AudioOutputSource
  log : List Event
  deriving DecidableEq, Repr

/-- The device read through `output->`; on a dummy controller (where the source
would dereference a null pointer) a device without capabilities. -/
def AudioOutputControl.device (s : AudioOutputControl) : FilteredAudioOutput :=
  s.output.getD
    { supports_enable_disable := false, supports_pause := false, has_mixer := false,
      config_audio_format := ⟨0, 0, 0⟩, filter_audio_format := ⟨0, 0, 0⟩,
      out_audio_format := ⟨0, 0, 0⟩ }

/-- Append an event to the log. -/
def emit (e : Event) (s : AudioOutputControl) : AudioOutputControl :=
  { s with log := s.log ++ [e] }

/-- The model of `assert(cond)`: record the site when the condition is false. -/
def check (cond : Bool) (site : Assertion) (s : AudioOutputControl) : AudioOutputControl :=
  { s with log := if cond then s.log else s.log ++ [Event.AssertionFailed site] }

/-- Modelled from the spec: `AudioOutputControl::IsOpen()` is defined in
Control.hxx, outside src/; it reads the flag `open`. -/
def IsOpen (s : AudioOutputControl) : Bool := s.open_

/-- Modelled from the spec: `AudioOutputControl::IsDummy()` is defined in
Control.hxx, outside src/; a dummy controller has no device bound. -/
def IsDummy (s : AudioOutputControl) : Bool := s.output.isNone

/-- Modelled from the spec: `AudioOutputControl::IsCommandFinished()` is defined
in Control.hxx, outside src/; the mailbox is NONE exactly when the previous
command has been acknowledged. -/
def IsCommandFinished (s : AudioOutputControl) : Bool := decide (s.command = Command.NONE)

/-- A client posts a command while the worker has released the mutex or waits:
the mailbox takes it if it is free. -/
def arrive (a : Option Command) (s : AudioOutputControl) : AudioOutputControl :=
  { s with command := if s.command = Command.NONE then a.getD Command.NONE else s.command }

/-- Results and parameters that the worker gets from outside the two source
files while it dispatches one command. -/
structure Env where
  /-- the steady clock when `Failure()` arms the fail timer or `Check` reads it -/
  now : Nat
  /-- the function `AudioFormat::WithMask` (declared outside src/) -/
  with_mask : AudioFormat → AudioFormat → AudioFormat
  /-- the function `AudioFormat::GetFrameSize` (declared outside src/) -/
  frame_size : AudioFormat → Nat
  /-- what `output->Enable()` throws -/
  enable : Option Exception
  /-- what `source.Open(...)` returns or throws -/
  source_open : Except Exception AudioFormat
  /-- what `output->OpenOutputAndConvert(...)` does: the resulting `out_audio_format`,
  or a throw -/
  open_output : Except Exception AudioFormat
  /-- what `output->ConfigureConvertFilter()` throws -/
  configure_convert : Option Exception
  /-- what `output->OpenSoftwareMixer()` throws -/
  software_mixer : Option Exception
  /-- what `thread.Start()` throws -/
  thread_start : Option Exception

/-! ## The worker thread (`src/output/Thread.cxx`) -/

/-- Method `AudioOutputControl::CommandFinished` (Thread.cxx lines 23-30). -/
def CommandFinished (s : AudioOutputControl) : AudioOutputControl :=
  let s := check (decide (s.command ≠ Command.NONE))
    Assertion.CommandFinished_command_not_NONE s
  { emit (Event.CommandFinished s.command) s with command := Command.NONE }

/-- Modelled from the spec: `AudioOutputControl::Failure` is defined outside
src/. On failure the error is stored in `last_error` and `fail_timer` is
armed. -/
def Failure (e : Exception) (now : Nat) (s : AudioOutputControl) : AudioOutputControl :=
  { s with last_error := some e, fail_timer := s.fail_timer.Update now }

/-- Method `AudioOutputControl::InternalEnable` (Thread.cxx lines 72-94). -/
def InternalEnable (env : Env) (s : AudioOutputControl) : Bool × AudioOutputControl :=
  if s.really_enabled then
    (true, s)
  else
    let s := { s with last_error := none }
    let s := emit Event.Enable s
    match env.enable with
    | none => (true, { s with really_enabled := true })
    | some e => (false, Failure e env.now s)

/-- Method `AudioOutputControl::InternalCloseOutput` (Thread.cxx lines 158-167). -/
def InternalCloseOutput (drain : Bool) (s : AudioOutputControl) : AudioOutputControl :=
  let s := check (IsOpen s) Assertion.InternalCloseOutput_IsOpen s
  let s := { s with open_ := false }
  emit (Event.CloseOutput drain) s

/-- Method `AudioOutputControl::InternalClose` (Thread.cxx lines 169-183). -/
def InternalClose (drain : Bool) (s : AudioOutputControl) : AudioOutputControl :=
  let s := check (IsOpen s) Assertion.InternalClose_IsOpen s
  let s := { s with open_ := false }
  let s := emit (Event.Close drain) s
  let s := { s with source_state := SourceState.CLOSED }
  { emit Event.SourceClose s with source := { pending := [], tag := none } }

/-- Method `AudioOutputControl::InternalCheckClose` (Thread.cxx lines 185-190). -/
def InternalCheckClose (drain : Bool) (s : AudioOutputControl) : AudioOutputControl :=
  if IsOpen s then InternalClose drain s else s

/-- Modelled from the spec: `AudioOutputControl::InternalCloseError` is defined
outside src/. The error is recorded, the failure timer is started and the
output is closed. -/
def InternalCloseError (e : Exception) (now : Nat) (s : AudioOutputControl) :
    AudioOutputControl :=
  InternalClose false (Failure e now s)

/-- Method `AudioOutputControl::InternalDisable` (Thread.cxx lines 96-108). -/
def InternalDisable (s : AudioOutputControl) : AudioOutputControl :=
  if !s.really_enabled then
    s
  else
    let s := InternalCheckClose false s
    let s := { s with really_enabled := false }
    emit Event.Disable s

/-- Assign `output->filter_audio_format`. -/
def setFilterAudioFormat (f : AudioFormat) (s : AudioOutputControl) : AudioOutputControl :=
  { s with output := s.output.map fun o => { o with filter_audio_format := f } }

/-- Assign `output->out_audio_format` (done by `OpenOutputAndConvert`). -/
def setOutAudioFormat (f : AudioFormat) (s : AudioOutputControl) : AudioOutputControl :=
  { s with output := s.output.map fun o => { o with out_audio_format := f } }

/-- The tail of `InternalOpen2`: `output->OpenSoftwareMixer()` (lines 66-69). -/
def InternalOpen2_mixer (env : Env) (s : AudioOutputControl) :
    AudioOutputControl × Option Exception :=
  (emit Event.OpenSoftwareMixer s, env.software_mixer)

/-- The head of `InternalOpen2` (Thread.cxx lines 37-44): the output is closed
when the format of the filter output changes, and that format is stored. -/
def InternalOpen2_format (cf : AudioFormat) (s : AudioOutputControl) : AudioOutputControl :=
  let s :=
    if s.open_ && decide (cf ≠ s.device.filter_audio_format) then
      InternalCloseOutput s.playing s
    else s
  setFilterAudioFormat cf s

/-- The branch `if (!open)` of `InternalOpen2` (Thread.cxx lines 46-53) and what
follows it. -/
def InternalOpen2_open (env : Env) (s : AudioOutputControl) :
    AudioOutputControl × Option Exception :=
  let s := emit (Event.OpenOutputAndConvert s.device.filter_audio_format) s
  match env.open_output with
  | Except.error e => (s, some e)
  | Except.ok out_f =>
    let s := setOutAudioFormat out_f s
    let s := { s with open_ := true, playing := false }
    InternalOpen2_mixer env s

/-- The branch `else if (in_audio_format != output->out_audio_format)` of
`InternalOpen2` (Thread.cxx lines 54-64) and what follows it. -/
def InternalOpen2_configure (env : Env) (s : AudioOutputControl) :
    AudioOutputControl × Option Exception :=
  let s := emit Event.ConfigureConvertFilter s
  match env.configure_convert with
  | some e => (InternalCloseOutput false s, some e)
  | none => InternalOpen2_mixer env s

/-- Method `AudioOutputControl::InternalOpen2` (Thread.cxx lines 32-70); the
second component is the exception it throws, if any. The assertion
`in_audio_format.IsValid()` is about a function declared outside src/ and is
left out. -/
def InternalOpen2 (env : Env) (in_audio_format : AudioFormat) (s : AudioOutputControl) :
    AudioOutputControl × Option Exception :=
  let cf := env.with_mask in_audio_format s.device.config_audio_format
  let s := InternalOpen2_format cf s
  if !s.open_ then
    InternalOpen2_open env s
  else if in_audio_format ≠ s.device.out_audio_format then
    InternalOpen2_configure env s
  else
    InternalOpen2_mixer env s

/-- The body of `InternalOpen` after a successful `InternalEnable` (Thread.cxx
lines 120-151). -/
def InternalOpen_enabled (env : Env) (in_audio_format : AudioFormat) (pipe : Nat)
    (s : AudioOutputControl) : AudioOutputControl :=
  let s := { s with last_error := none, fail_timer := s.fail_timer.Reset,
                    caught_interrupted := false, skip_delay := true }
  let s := emit (Event.SourceOpen in_audio_format pipe) s
  match env.source_open with
  | Except.error e => Failure (Exception.nested e) env.now s
  | Except.ok f =>
    let s := { s with source_state := SourceState.OPEN }
    match InternalOpen2 env f s with
    | (s, some e) =>
      let s := { s with source_state := SourceState.CLOSED }
      let s := { emit Event.SourceClose s with source := { pending := [], tag := none } }
      Failure e env.now s
    | (s, none) => s

/-- Method `AudioOutputControl::InternalOpen` (Thread.cxx lines 110-156). -/
def InternalOpen (env : Env) (in_audio_format : AudioFormat) (pipe : Nat)
    (s : AudioOutputControl) : AudioOutputControl :=
  let s := { s with should_reopen := false }
  match InternalEnable env s with
  | (false, s) => s
  | (true, s) => InternalOpen_enabled env in_audio_format pipe s

/-! ### Scripts: what the worker observes while it runs a loop

A loop of the worker consumes a finite script of observations. When the script
ends while the loop would go on, the function returns the state reached so far
and reports that the worker is still inside the loop (`none`, or
`Outcome.running`). -/

/-- The largest `std::chrono::steady_clock::duration` (64 bit nanosecond count),
in the unit of `WaitStep.delay`. -/
def DURATION_MAX : Int := 2 ^ 63 - 1

/-- One round of `WaitForDelay`: the delay the device reports, and the command a
client posts while the worker waits on `wake_cond`. -/
structure WaitStep where
  delay : Int
  arrival : Option Command

/-- Method `AudioOutputControl::WaitForDelay` (Thread.cxx lines 198-214): `some true`
when playback should continue, `some false` when a command was issued, `none`
when the worker is still waiting at the end of the script. -/
def WaitForDelay : List WaitStep → AudioOutputControl → AudioOutputControl × Option Bool
  | [], s => (s, none)
  | w :: ws, s =>
    if w.delay ≤ 0 then
      (s, some true)
    else
      let s :=
        if w.delay ≥ DURATION_MAX then emit Event.WakeCondWait s
        else emit (Event.WakeCondWaitFor w.delay) s
      let s := arrive w.arrival s
      if s.command ≠ Command.NONE then (s, some false)
      else WaitForDelay ws s

/-- One call of `source.Fill(mutex)`: it throws, or returns a flag and leaves the
source with the given content; a client may post a command while `Fill` has
released the mutex. -/
structure FillOutcome where
  result : Except Exception (Bool × AudioOutputSource)
  arrival : Option Command

/-- Method `AudioOutputControl::FillSourceOrClose` (Thread.cxx lines 216-228). -/
def FillSourceOrClose (now : Nat) (o : FillOutcome) (s : AudioOutputControl) :
    Bool × AudioOutputControl :=
  let s := check (decide (s.source_state = SourceState.OPEN))
    Assertion.FillSourceOrClose_source_OPEN s
  let s := arrive o.arrival (emit Event.SourceFill s)
  match o.result with
  | Except.ok (b, src) => (b, { s with source := src })
  | Except.error e => (false, InternalCloseError e now s)

/-- One round of the loop of `PlayChunk`. -/
structure PlayIter where
  /-- the script of `WaitForDelay`, used unless `skip_delay` is set -/
  wait : List WaitStep
  /-- what `output->Play(data)` returns or throws -/
  play : Except Exception Nat
  /-- the command a client posts while the mutex is released around `Play` -/
  arrival : Option Command

/-- What one call of `PlayChunk` observes. -/
structure ChunkScript where
  /-- what `output->SendTag(*tag)` throws -/
  send_tag : Option Exception
  /-- the command a client posts while the mutex is released around `SendTag` -/
  tag_arrival : Option Command
  iters : List PlayIter

/-- The `while (command == Command::NONE)` loop of `PlayChunk` (Thread.cxx lines
251-287). -/
def PlayChunk_loop (now : Nat) (frame_size : AudioFormat → Nat) :
    List PlayIter → AudioOutputControl → AudioOutputControl × Option Bool
  | iters, s =>
    if s.command ≠ Command.NONE then (s, some true)
    else
      let data := s.source.pending
      if data.isEmpty then (s, some true)
      else
        match iters with
        | [] => (s, none)
        | it :: rest =>
          let waited : AudioOutputControl × Option Bool :=
            if s.skip_delay then ({ s with skip_delay := false }, some true)
            else WaitForDelay it.wait s
          match waited with
          | (s, none) => (s, none)
          | (s, some false) => (s, some true)
          | (s, some true) =>
            let s := arrive it.arrival (emit (Event.Play data) s)
            match it.play with
            | Except.error Exception.AudioOutputInterrupted =>
              ({ s with caught_interrupted := true }, some false)
            | Except.error e => (InternalCloseError e now s, some false)
            | Except.ok nbytes =>
              let s := check (decide (nbytes > 0)) Assertion.PlayChunk_nbytes_positive s
              let s := check (decide (nbytes ≤ data.length))
                Assertion.PlayChunk_nbytes_le_size s
              let s := check (decide (nbytes % frame_size s.device.out_audio_format = 0))
                Assertion.PlayChunk_frame_aligned s
              let s := { emit (Event.SourceConsumeData nbytes) s with
                         source := { s.source with pending := s.source.pending.drop nbytes } }
              let s := { s with playing := true }
              PlayChunk_loop now frame_size rest s

/-- Method `AudioOutputControl::PlayChunk` (Thread.cxx lines 230-288). -/
def PlayChunk (now : Nat) (frame_size : AudioFormat → Nat) (c : ChunkScript)
    (s : AudioOutputControl) : AudioOutputControl × Option Bool :=
  let s := emit Event.PlayChunk s
  let s := check (decide (s.source_state = SourceState.OPEN))
    Assertion.PlayChunk_source_OPEN s
  let tag := s.source.tag
  let s := { s with source := { s.source with tag := none } }
  match (if s.tags then tag else none) with
  | some t =>
    let s := arrive c.tag_arrival (emit (Event.SendTag t) s)
    match c.send_tag with
    | some Exception.AudioOutputInterrupted =>
      ({ s with caught_interrupted := true }, some false)
    | _ => PlayChunk_loop now frame_size c.iters s
  | none => PlayChunk_loop now frame_size c.iters s

/-- One round of the drive loop of `InternalPlay`. -/
structure PlayStep where
  /-- the command a client posts during the in-loop `client.ChunksConsumed()` -/
  consumed_arrival : Option Command
  chunk : ChunkScript
  /-- the `FillSourceOrClose()` of the loop condition -/
  fill : FillOutcome

/-- What one call of `InternalPlay` observes. -/
structure PlayScript where
  first_fill : FillOutcome
  steps : List PlayStep
  /-- the command a client posts during the final `client.ChunksConsumed()` -/
  final_arrival : Option Command

/-- The end of `InternalPlay` after its loop (Thread.cxx lines 326-329), followed
by the `AtScopeExit` block. -/
def InternalPlay_finish (final_arrival : Option Command) (s : AudioOutputControl) :
    AudioOutputControl × Option Bool :=
  let s := arrive final_arrival (emit Event.ChunksConsumed s)
  let s := check s.in_playback_loop Assertion.InternalPlay_in_playback_loop s
  ({ s with in_playback_loop := false }, some true)

/-- The `do ... while (FillSourceOrClose())` loop of `InternalPlay` (Thread.cxx
lines 309-324); `n` is the chunk counter. -/
def InternalPlay_loop (now : Nat) (frame_size : AudioFormat → Nat)
    (final_arrival : Option Command) :
    List PlayStep → Nat → AudioOutputControl → AudioOutputControl × Option Bool
  | steps, n, s =>
    if s.command ≠ Command.NONE then
      let s := check s.in_playback_loop Assertion.InternalPlay_in_playback_loop s
      ({ s with in_playback_loop := false }, some true)
    else
      match steps with
      | [] => (s, none)
      | st :: rest =>
        let n := n + 1
        let (n, s) :=
          if n ≥ 64 then (0, arrive st.consumed_arrival (emit Event.ChunksConsumed s))
          else (n, s)
        match PlayChunk now frame_size st.chunk s with
        | (s, none) => (s, none)
        | (s, some false) => InternalPlay_finish final_arrival s
        | (s, some true) =>
          match FillSourceOrClose now st.fill s with
          | (true, s) => InternalPlay_loop now frame_size final_arrival rest n s
          | (false, s) => InternalPlay_finish final_arrival s

/-- Method `AudioOutputControl::InternalPlay` (Thread.cxx lines 290-330). -/
def InternalPlay (now : Nat) (frame_size : AudioFormat → Nat) (p : PlayScript)
    (s : AudioOutputControl) : AudioOutputControl × Option Bool :=
  let s := emit (Event.Call Fn.InternalPlay) s
  let s := check (decide (s.source_state = SourceState.OPEN))
    Assertion.InternalPlay_source_OPEN s
  match FillSourceOrClose now p.first_fill s with
  | (false, s) => (s, some false)
  | (true, s) =>
    let s := check (!s.in_playback_loop) Assertion.InternalPlay_not_in_playback_loop s
    let s := { s with in_playback_loop := true }
    InternalPlay_loop now frame_size p.final_arrival p.steps 0 s

/-- One round of the loop of `InternalPause`. -/
structure PauseIter where
  /-- the script of `WaitForDelay` -/
  wait : List WaitStep
  /-- what `output->IteratePause()` returns or throws -/
  iterate : Except Exception Bool
  /-- the command a client posts while the mutex is released around `IteratePause` -/
  arrival : Option Command

/-- What the worker observes inside `InternalPause` after it has acknowledged the
command. -/
structure PauseScript where
  iters : List PauseIter
  /-- the command a client posts while the mutex is released around `EndPause` -/
  end_arrival : Option Command

/-- The head of `InternalPause` (Thread.cxx lines 335-342): `BeginPause`,
`pause = true` and the acknowledgement of the command. -/
def InternalPause_begin (s : AudioOutputControl) : AudioOutputControl :=
  let s := emit (Event.Call Fn.InternalPause) s
  let s := emit Event.BeginPause s
  let s := { s with pause := true }
  CommandFinished s

/-- The state in which `InternalPause`, entered in the state `s`, calls
`CommandFinished` (Thread.cxx lines 335-340): `BeginPause` has been called and
`pause` is set. -/
def InternalPause_entered (s : AudioOutputControl) : AudioOutputControl :=
  { emit Event.BeginPause (emit (Event.Call Fn.InternalPause) s) with pause := true }

/-- The `do ... while (command == Command::NONE)` loop of `InternalPause`
(Thread.cxx lines 344-363); the flag tells whether the loop was left (`true`) or
the worker is still inside at the end of the script (`false`). -/
def InternalPause_loop : List PauseIter → AudioOutputControl → AudioOutputControl × Bool
  | [], s => (s, false)
  | it :: rest, s =>
    match WaitForDelay it.wait s with
    | (s, none) => (s, false)
    | (s, some false) => (s, true)
    | (s, some true) =>
      let s := arrive it.arrival (emit Event.IteratePause s)
      let success :=
        match it.iterate with
        | Except.ok b => b
        | Except.error _ => false
      if !success then (InternalClose false s, true)
      else if s.command = Command.NONE then InternalPause_loop rest s
      else (s, true)

/-- The tail of `InternalPause` (Thread.cxx lines 365-375). -/
def InternalPause_end (end_arrival : Option Command) (s : AudioOutputControl) :
    AudioOutputControl :=
  let s := { s with pause := false }
  let s := arrive end_arrival (emit Event.EndPause s)
  let s := { s with skip_delay := true }
  { s with playing := false }

/-- Method `AudioOutputControl::InternalPause` (Thread.cxx lines 332-376); the flag
tells whether the function has returned. -/
def InternalPause (p : PauseScript) (s : AudioOutputControl) : AudioOutputControl × Bool :=
  match InternalPause_loop p.iters (InternalPause_begin s) with
  | (s, false) => (s, false)
  | (s, true) => (InternalPause_end p.end_arrival s, true)

/-- How a sequence of device calls ends: it is still running at the end of the
script, it has completed, or it has thrown. -/
inductive Progress where
  | running
  | completed
  | threw (e : Exception)
  deriving DecidableEq, Repr

/-- Function `PlayFull` (Thread.cxx lines 378-388); `plays` are the results of the
successive `output.Play` calls. -/
def PlayFull : List (Except Exception Nat) → List Nat → AudioOutputControl →
    AudioOutputControl × Progress
  | plays, buffer, s =>
    if buffer.isEmpty then (s, Progress.completed)
    else
      match plays with
      | [] => (s, Progress.running)
      | r :: rest =>
        let s := emit (Event.Play buffer) s
        match r with
        | Except.error e => (s, Progress.threw e)
        | Except.ok nbytes =>
          let s := check (decide (nbytes > 0)) Assertion.PlayFull_nbytes_positive s
          PlayFull rest (buffer.drop nbytes) s

/-- One round of the flush loop of `InternalDrain`. -/
structure FlushStep where
  /-- what `source.Flush()` returns or throws -/
  flush : Except Exception (List Nat)
  /-- the results of the `output.Play` calls `PlayFull` makes on that buffer -/
  plays : List (Except Exception Nat)

/-- What one call of `InternalDrain` observes. -/
structure DrainScript where
  steps : List FlushStep
  /-- what `output->Drain()` throws -/
  drain : Option Exception

/-- The `while (true)` flush loop of `InternalDrain` (Thread.cxx lines 410-416). -/
def InternalDrain_flush : List FlushStep → AudioOutputControl → AudioOutputControl × Progress
  | [], s => (s, Progress.running)
  | st :: rest, s =>
    let s := emit Event.SourceFlush s
    match st.flush with
    | Except.error e => (s, Progress.threw e)
    | Except.ok buffer =>
      if buffer.isEmpty then (s, Progress.completed)
      else
        match PlayFull st.plays buffer s with
        | (s, Progress.completed) => InternalDrain_flush rest s
        | (s, other) => (s, other)

/-- The head of `InternalDrain` (Thread.cxx lines 393-403). -/
def InternalDrain_begin (s : AudioOutputControl) : AudioOutputControl :=
  let s := emit (Event.Call Fn.InternalDrain) s
  let s := check (decide (s.source_state = SourceState.OPEN))
    Assertion.InternalDrain_source_OPEN s
  let s := { s with source_state := SourceState.FLUSHED }
  let s := { s with should_reopen := true }
  { s with playing := false }

/-- Method `AudioOutputControl::InternalDrain` (Thread.cxx lines 390-426); the flag tells
whether the function has returned. -/
def InternalDrain (now : Nat) (d : DrainScript) (s : AudioOutputControl) :
    AudioOutputControl × Bool :=
  match InternalDrain_flush d.steps (InternalDrain_begin s) with
  | (s, Progress.running) => (s, false)
  | (s, Progress.threw e) => (InternalCloseError e now s, true)
  | (s, Progress.completed) =>
    let s := emit Event.Drain s
    match d.drain with
    | some e => (InternalCloseError e now s, true)
    | none => (s, true)

/-- Modelled from the spec: `AudioOutputSource::Cancel` is outside src/; CANCEL
drops the queued chunks at the source. -/
def SourceCancel (s : AudioOutputControl) : AudioOutputControl :=
  { emit Event.SourceCancel s with source := { pending := [], tag := none } }

/-- What the worker observes during one round of the loop of `Task`. -/
structure WorkerScript where
  env : Env
  /-- inside `InternalPause`, for a PAUSE or RELEASE command -/
  pause : PauseScript
  /-- inside `InternalDrain` -/
  drain : DrainScript
  /-- inside `InternalPlay` -/
  play : PlayScript
  /-- the rest of an `InternalPause` that the worker was inside of before this round -/
  resume : PauseScript

/-- How one round of the `while (true)` loop of `Task` ends. -/
inductive Outcome where
  /-- the loop goes round again at once (`continue`, or `break` out of the switch) -/
  | looped
  /-- the worker has waited on `wake_cond` before going round again -/
  | waited
  /-- the function `Task` has returned (KILL) -/
  | exited
  /-- the worker is still inside a loop at the end of its script -/
  | running
  deriving DecidableEq, Repr

/-- Handler `case Command::NONE` of `Task` (Thread.cxx lines 447-460). -/
def Task_NONE (w : WorkerScript) (s : AudioOutputControl) : AudioOutputControl × Outcome :=
  if s.open_ && decide (s.source_state = SourceState.OPEN) && s.allow_play
      && !s.caught_interrupted then
    match InternalPlay w.env.now w.env.frame_size w.play s with
    | (s, none) => (s, Outcome.running)
    | (s, some true) => (s, Outcome.looped)
    | (s, some false) =>
      (emit Event.WakeCondWait { s with woken_for_play := false }, Outcome.waited)
  else
    (emit Event.WakeCondWait { s with woken_for_play := false }, Outcome.waited)

/-- Handler `case Command::PAUSE` of `Task` (Thread.cxx lines 482-494). -/
def Task_PAUSE (w : WorkerScript) (s : AudioOutputControl) : AudioOutputControl × Outcome :=
  if !s.open_ then
    (CommandFinished s, Outcome.looped)
  else
    let s := { s with caught_interrupted := false }
    match InternalPause w.pause s with
    | (s, true) => (s, Outcome.looped)
    | (s, false) => (s, Outcome.running)

/-- Handler `case Command::RELEASE` of `Task` (Thread.cxx lines 496-522). -/
def Task_RELEASE (w : WorkerScript) (s : AudioOutputControl) : AudioOutputControl × Outcome :=
  if !s.open_ then
    (CommandFinished s, Outcome.looped)
  else
    let s := { s with caught_interrupted := false }
    if s.always_on then
      let s := if s.source_state = SourceState.OPEN then SourceCancel s else s
      match InternalPause w.pause s with
      | (s, true) => (s, Outcome.looped)
      | (s, false) => (s, Outcome.running)
    else
      (CommandFinished (InternalClose false s), Outcome.looped)

/-- The state in which `Task` calls `InternalPause` on an open output, for PAUSE
(Thread.cxx lines 490-492) and for RELEASE on an always-on output (lines
507-514): `caught_interrupted` is cleared, and RELEASE cancels a source that is
OPEN. -/
def pauseEntry (s : AudioOutputControl) : AudioOutputControl :=
  if s.command = Command.RELEASE ∧ s.source_state = SourceState.OPEN then
    SourceCancel { s with caught_interrupted := false }
  else { s with caught_interrupted := false }

/-- Handler `case Command::DRAIN` of `Task` (Thread.cxx lines 524-529). -/
def Task_DRAIN (w : WorkerScript) (s : AudioOutputControl) : AudioOutputControl × Outcome :=
  if s.open_ then
    match InternalDrain w.env.now w.drain s with
    | (s, true) => (CommandFinished s, Outcome.looped)
    | (s, false) => (s, Outcome.running)
  else
    (CommandFinished s, Outcome.looped)

/-- Handler `case Command::CANCEL` of `Task` (Thread.cxx lines 531-544). -/
def Task_CANCEL (s : AudioOutputControl) : AudioOutputControl × Outcome :=
  let s := { s with caught_interrupted := false }
  let s := if s.source_state = SourceState.OPEN then SourceCancel s else s
  let s := if s.open_ then emit Event.Cancel { s with playing := false } else s
  (CommandFinished s, Outcome.looped)

/-- Handler `case Command::KILL` of `Task` (Thread.cxx lines 546-551). -/
def Task_KILL (s : AudioOutputControl) : AudioOutputControl × Outcome :=
  let s := InternalDisable s
  let s := if s.source_state = SourceState.OPEN then SourceCancel s else s
  (CommandFinished s, Outcome.exited)

/-- One round of the `while (true)` loop of `AudioOutputControl::Task` (Thread.cxx
lines 445-553): the `switch (command)`. -/
def Task_step (w : WorkerScript) (s : AudioOutputControl) : AudioOutputControl × Outcome :=
  match s.command with
  | Command.NONE => Task_NONE w s
  | Command.ENABLE =>
    (CommandFinished (InternalEnable w.env s).2, Outcome.looped)
  | Command.DISABLE =>
    (CommandFinished (InternalDisable s), Outcome.looped)
  | Command.OPEN =>
    (CommandFinished (InternalOpen w.env s.request_audio_format s.request_pipe s),
      Outcome.looped)
  | Command.CLOSE =>
    (CommandFinished (InternalCheckClose false s), Outcome.looped)
  | Command.PAUSE => Task_PAUSE w s
  | Command.RELEASE => Task_RELEASE w s
  | Command.DRAIN => Task_DRAIN w s
  | Command.CANCEL => Task_CANCEL s
  | Command.KILL => Task_KILL s

/-! ## The client side (`src/output/Control.cxx`) -/

/-- Method `AudioOutputControl::LockSetEnabled` (Control.cxx lines 126-136). -/
def LockSetEnabled (new_value : Bool) (s : AudioOutputControl) : Bool × AudioOutputControl :=
  if new_value = s.enabled then (false, s)
  else (true, { s with enabled := new_value })

/-- Method `AudioOutputControl::LockToggleEnabled` (Control.cxx lines 138-143). -/
def LockToggleEnabled (s : AudioOutputControl) : Bool × AudioOutputControl :=
  (!s.enabled, { s with enabled := !s.enabled })

/-- Method `AudioOutputControl::CommandAsync` (Control.cxx lines 151-158). -/
def CommandAsync (cmd : Command) (s : AudioOutputControl) : AudioOutputControl :=
  let s := check (IsCommandFinished s) Assertion.CommandAsync_IsCommandFinished s
  { s with command := cmd }

/-- The worker goes once round the loop of `Task`; a worker that was left inside
`InternalPause` (`pause` is set exactly there) first runs the rest of it. -/
def Worker_step (w : WorkerScript) (s : AudioOutputControl) : AudioOutputControl × Outcome :=
  if s.pause then
    match InternalPause_loop w.resume.iters s with
    | (s, false) => (s, Outcome.running)
    | (s, true) => Task_step w (InternalPause_end w.resume.end_arrival s)
  else
    Task_step w s

/-- What the client observes of the worker while it waits for a command: the
worker is seen up to the acknowledgement, not further into `InternalPause`. -/
def WorkerScript.untilFinished (w : WorkerScript) : WorkerScript :=
  { w with pause := { iters := [], end_arrival := none } }

/-- Method `AudioOutputControl::CommandWait` (Control.cxx lines 160-166): the command is
posted and the caller waits until the worker has acknowledged it. The result is
`none` when that never happens: there is no live worker thread, or the worker
does not get to the acknowledgement within its script. -/
def CommandWait (w : WorkerScript) (cmd : Command) (s : AudioOutputControl) :
    Option AudioOutputControl :=
  let s := CommandAsync cmd s
  if s.thread && !s.killed then
    match Worker_step w.untilFinished s with
    | (s, out) =>
      if out ≠ Outcome.running ∨ s.command = Command.NONE then some s else none
  else
    none

/-- Method `AudioOutputControl::StartThread` (Thread.cxx lines 556-565); the second
component is the exception `thread.Start()` throws, if any. -/
def StartThread (env : Env) (s : AudioOutputControl) : AudioOutputControl × Option Exception :=
  let s := check (decide (s.command = Command.NONE)) Assertion.StartThread_command_NONE s
  let s := { s with killed := false }
  let s := emit Event.ThreadStart s
  match env.thread_start with
  | none => ({ s with thread := true }, none)
  | some e => (s, some e)

/-- Method `AudioOutputControl::EnableAsync` (Control.cxx lines 175-197). -/
def EnableAsync (env : Env) (s : AudioOutputControl) : AudioOutputControl × Option Exception :=
  if s.output.isNone then (s, none)
  else if s.always_off then (s, none)
  else if !s.thread then
    if !s.device.supports_enable_disable then
      ({ s with really_enabled := true }, none)
    else
      match StartThread env s with
      | (s, some e) => (s, some e)
      | (s, none) => (CommandAsync Command.ENABLE s, none)
  else
    (CommandAsync Command.ENABLE s, none)

/-- Method `AudioOutputControl::DisableAsync` (Control.cxx lines 199-217). -/
def DisableAsync (s : AudioOutputControl) : AudioOutputControl :=
  if s.output.isNone then s
  else if !s.thread then
    if !s.device.supports_enable_disable then
      { s with really_enabled := false }
    else
      check (!s.really_enabled) Assertion.DisableAsync_not_really_enabled s
  else
    CommandAsync Command.DISABLE s

/-- Method `AudioOutputControl::EnableDisableAsync` (Control.cxx lines 219-229). -/
def EnableDisableAsync (env : Env) (s : AudioOutputControl) :
    AudioOutputControl × Option Exception :=
  if s.enabled = s.really_enabled then (s, none)
  else if s.enabled then EnableAsync env s
  else (DisableAsync s, none)

/-- The head of `Open` (Control.cxx lines 236-243); the assertion
`audio_format.IsValid()` is about a function declared outside src/ and is left
out. -/
def Open_begin (audio_format : AudioFormat) (mp : Nat) (s : AudioOutputControl) :
    AudioOutputControl :=
  let s := emit (Event.Call Fn.Open) s
  let s := check s.allow_play Assertion.Open_allow_play s
  let s := { s with fail_timer := s.fail_timer.Reset }
  if s.open_ && decide (audio_format = s.request_audio_format) then
    check (decide (s.request_pipe = mp) || (s.always_on && s.pause))
      Assertion.Open_request_pipe s
  else s

/-- What the worker does while `Open` has released the mutex around
`mixer->LockOpen()` (Control.cxx lines 265-274): it goes round the loop of `Task`,
once for each script, until it has left `Task` or is still inside a round when
the client returns. -/
def Open_unlocked : List WorkerScript → AudioOutputControl → AudioOutputControl
  | [], s => s
  | w :: rest, s =>
    match Worker_step w s with
    | (s, Outcome.looped) => Open_unlocked rest s
    | (s, Outcome.waited) => Open_unlocked rest s
    | (s, Outcome.exited) => s
    | (s, Outcome.running) => s

/-- The end of `Open` (Control.cxx lines 262-277): OPEN is posted and waited for,
and `open2` is read. For an open device with a mixer the mutex is then released
and the mixer is opened, while the worker runs the rounds `unlocked` (none, when
the argument is left out); an exception of `mixer->LockOpen()` is only logged. The
result is `open2`. -/
def Open_wait (w : WorkerScript) (s : AudioOutputControl)
    (unlocked : List WorkerScript := []) : Option (Bool × AudioOutputControl) :=
  match CommandWait w Command.OPEN s with
  | none => none
  | some s =>
    let open2 := s.open_
    let s := if open2 && s.device.has_mixer then
        emit Event.MixerLockOpen (Open_unlocked unlocked s)
      else s
    some (open2, s)

/-- The part of `Open` behind the "already open" shortcut (Control.cxx lines
250-277). -/
def Open_request (w : WorkerScript) (audio_format : AudioFormat) (mp : Nat)
    (s : AudioOutputControl) (unlocked : List WorkerScript := []) :
    Option (Bool × AudioOutputControl) :=
  let s := { s with request_audio_format := audio_format, request_pipe := mp }
  if !s.thread then
    match StartThread w.env s with
    | (s, some _) => some (false, s)
    | (s, none) => Open_wait w s unlocked
  else
    Open_wait w s unlocked

/-- Method `AudioOutputControl::Open` (Control.cxx lines 231-278). The result is `none`
when the call never returns (see `CommandWait`); `unlocked` are the rounds of the
worker while the mutex is released around `mixer->LockOpen()` (see `Open_wait`). -/
def Open (w : WorkerScript) (audio_format : AudioFormat) (mp : Nat) (s : AudioOutputControl)
    (unlocked : List WorkerScript := []) : Option (Bool × AudioOutputControl) :=
  let s := Open_begin audio_format mp s
  if s.open_ && decide (audio_format = s.request_audio_format)
      && (!s.pause && !s.should_reopen) then
    some (true, s)
  else
    Open_request w audio_format mp s unlocked

/-- The middle of `CloseWait` (Control.cxx lines 288-291): the mixer is closed
and the assertion `!open || !fail_timer.IsDefined()` is checked. -/
def CloseWait_mixer (s : AudioOutputControl) : AudioOutputControl :=
  let s := if s.device.has_mixer then emit Event.MixerLockAutoClose s else s
  check (!s.open_ || !s.fail_timer.IsDefined)
    Assertion.CloseWait_open_implies_no_fail_timer s

/-- Method `AudioOutputControl::CloseWait` (Control.cxx lines 280-297). -/
def CloseWait (w : WorkerScript) (s : AudioOutputControl) : Option AudioOutputControl :=
  let s := check s.allow_play Assertion.CloseWait_allow_play s
  if IsDummy s then some s
  else
    let s := CloseWait_mixer s
    if s.open_ then CommandWait w Command.CLOSE s
    else some { s with fail_timer := s.fail_timer.Reset }

/-- Method `AudioOutputControl::LockUpdate` (Control.cxx lines 299-315); `w.env.now` is
the time at which `fail_timer.Check` reads the clock, and `unlocked` are the
rounds of the worker while `Open` has released the mutex around
`mixer->LockOpen()` (see `Open_wait`). -/
def LockUpdate (w : WorkerScript) (audio_format : AudioFormat) (mp : Nat) (force : Bool)
    (s : AudioOutputControl) (unlocked : List WorkerScript := []) :
    Option (Bool × AudioOutputControl) :=
  if s.enabled && s.really_enabled then
    if force || !s.fail_timer.IsDefined || s.fail_timer.Check w.env.now (REOPEN_AFTER * 1000) then
      Open w audio_format mp s unlocked
    else
      some (false, s)
  else if IsOpen s then
    match CloseWait w s with
    | none => none
    | some s => some (false, s)
  else
    some (false, s)

/-- Method `AudioOutputControl::LockPlay` (Control.cxx lines 333-344). -/
def LockPlay (s : AudioOutputControl) : AudioOutputControl :=
  let s := check s.allow_play Assertion.LockPlay_allow_play s
  if IsOpen s && !s.in_playback_loop && !s.woken_for_play then
    { s with woken_for_play := true }
  else s

/-- Method `AudioOutputControl::LockPauseAsync` (Control.cxx lines 346-363). -/
def LockPauseAsync (s : AudioOutputControl) : AudioOutputControl :=
  let s :=
    if s.output.isSome && s.device.has_mixer && !s.device.supports_pause then
      emit Event.MixerLockAutoClose s
    else s
  let s := if s.output.isSome then emit Event.Interrupt s else s
  let s := check s.allow_play Assertion.LockPauseAsync_allow_play s
  if IsOpen s then CommandAsync Command.PAUSE s else s

/-- Method `AudioOutputControl::LockDrainAsync` (Control.cxx lines 365-373). -/
def LockDrainAsync (s : AudioOutputControl) : AudioOutputControl :=
  let s := check s.allow_play Assertion.LockDrainAsync_allow_play s
  if IsOpen s then CommandAsync Command.DRAIN s else s

/-- Method `AudioOutputControl::LockCancelAsync` (Control.cxx lines 375-387). -/
def LockCancelAsync (s : AudioOutputControl) : AudioOutputControl :=
  let s := if s.output.isSome then emit Event.Interrupt s else s
  if IsOpen s then
    let s := { s with allow_play := false }
    CommandAsync Command.CANCEL s
  else s

/-- Method `AudioOutputControl::LockAllowPlay` (Control.cxx lines 389-397); the
`wake_cond.notify_one()` has no effect on the fields. -/
def LockAllowPlay (s : AudioOutputControl) : AudioOutputControl :=
  { s with allow_play := true }

/-- Method `AudioOutputControl::LockRelease` (Control.cxx lines 399-423). -/
def LockRelease (w : WorkerScript) (s : AudioOutputControl) : Option AudioOutputControl :=
  if s.output.isNone then some s
  else
    let s := emit Event.Interrupt s
    let s :=
      if s.device.has_mixer && (!s.always_on || !s.device.supports_pause) then
        emit Event.MixerLockAutoClose s
      else s
    let s := check (!s.open_ || !s.fail_timer.IsDefined)
      Assertion.LockRelease_open_implies_no_fail_timer s
    let s := check s.allow_play Assertion.LockRelease_allow_play s
    if IsOpen s then CommandWait w Command.RELEASE s
    else some { s with fail_timer := s.fail_timer.Reset }

/-- Method `AudioOutputControl::LockCloseWait` (Control.cxx lines 425-435). -/
def LockCloseWait (w : WorkerScript) (s : AudioOutputControl) : Option AudioOutputControl :=
  let s := check (!s.open_ || !s.fail_timer.IsDefined)
    Assertion.LockCloseWait_open_implies_no_fail_timer s
  let s := if s.output.isSome then emit Event.Interrupt s else s
  CloseWait w s

/-- Method `AudioOutputControl::BeginDestroy` (Control.cxx lines 437-450). -/
def BeginDestroy (s : AudioOutputControl) : AudioOutputControl :=
  if s.thread then
    let s := if s.output.isSome then emit Event.Interrupt s else s
    if !s.killed then
      let s := { s with killed := true }
      CommandAsync Command.KILL s
    else s
  else s

/-- The call `thread.Join()`: the caller waits until `Task` has returned. A worker that
still finds KILL in the mailbox dispatches it first; the result is `none` when
the worker does not get to its exit. -/
def ThreadJoin (w : WorkerScript) (s : AudioOutputControl) : Option AudioOutputControl :=
  if s.command = Command.KILL then
    match Worker_step w.untilFinished s with
    | (s, Outcome.exited) => some { emit Event.ThreadJoin s with thread := false }
    | _ => none
  else
    some { emit Event.ThreadJoin s with thread := false }

/-- Method `AudioOutputControl::StopThread` (Control.cxx lines 452-461). -/
def StopThread (w : WorkerScript) (s : AudioOutputControl) : Option AudioOutputControl :=
  let s := BeginDestroy s
  let joined : Option AudioOutputControl :=
    if s.thread then ThreadJoin w s else some s
  match joined with
  | none => none
  | some s => some (check (IsCommandFinished s) Assertion.StopThread_IsCommandFinished s)

/-- Method `AudioOutputControl::Steal` (Control.cxx lines 50-70): the device that is
handed out and the controller that is left behind. -/
def Steal (w : WorkerScript) (s : AudioOutputControl) :
    Option (Option FilteredAudioOutput × AudioOutputControl) :=
  let s := check (!IsDummy s) Assertion.Steal_not_dummy s
  let disabled : Option AudioOutputControl :=
    if s.really_enabled && s.device.supports_enable_disable then
      CommandWait w Command.DISABLE s
    else some s
  match disabled with
  | none => none
  | some s =>
    let s := { s with enabled := false, really_enabled := false }
    match StopThread w s with
    | none => none
    | some s => some (s.output, { s with output := none })

/-- Modelled from the spec: `PlayerState` is declared outside src/
(`{STOP, PLAY, PAUSE}`). -/
inductive PlayerState where
  | STOP | PAUSE | PLAY
  deriving DecidableEq, Repr

/-- Modelled from the spec: `PlayerCommand` is declared outside src/; the mailbox
of the player thread, `NONE` when it is free. -/
inductive PlayerCommand where
  | NONE | EXIT | STOP | PAUSE | SEEK | CLOSE_AUDIO | UPDATE_AUDIO | QUEUE | CANCEL | REFRESH
  deriving DecidableEq, Repr

/-- Modelled from the spec: `PlayerError` is declared outside src/; the kind of the
stored error, `NONE` when there is none. -/
inductive PlayerError where
  | NONE | DECODER | OUTPUT
  deriving DecidableEq, Repr

/-- Assertion sites of `src/player/Control.cxx`. -/
inductive PlayerAssertion where
  | SetError_type_not_NONE
  | SeekLocked_next_song_null_after_CANCEL
  | SeekLocked_next_song_null_after_SEEK
  | SeekLocked_error
  | SeekLocked_not_error
  deriving DecidableEq, Repr

/-- Ghost events of the player control: calls into collaborators (`outputs`,
`listener`, `thread`), waits on the condition variables, commands stored in the
mailbox, and failed assertions. -/
inductive PlayerEvent where
  | CheckPipe (result : Nat)
  | Wait
  | ClientWait
  | Issued (cmd : PlayerCommand)
  | OnPlayerStateChanged
  | OnPlayerError
  | ThreadStart
  | AssertionFailed (site : PlayerAssertion)
  deriving DecidableEq, Repr

/-- The fields of `PlayerControl` that the embedded methods read or write, and the
ghost log. `thread` is `thread.IsDefined()`; a song is known by a number, and
`next_song = none` is the null pointer. -/
structure PlayerControl where
  thread : Bool
  command : PlayerCommand
  state : PlayerState
  error_type : PlayerError
  error : Option Exception
  next_song : Option Nat
  seek_time : Nat
  seeking : Bool
  log : List PlayerEvent
  deriving DecidableEq, Repr

/-- Append an event to the log of the player control. -/
def PlayerControl.emit (e : PlayerEvent) (s : PlayerControl) : PlayerControl :=
  { s with log := s.log ++ [e] }

/-- The model of `assert(cond)` in the player control: record the site when the
condition is false. -/
def PlayerControl.check (cond : Bool) (site : PlayerAssertion) (s : PlayerControl) :
    PlayerControl :=
  { s with log := if cond then s.log else s.log ++ [PlayerEvent.AssertionFailed site] }

/-- A client posts a command while the player thread waits: the mailbox takes it
if it is free. -/
def PlayerControl.arrive (a : Option PlayerCommand) (s : PlayerControl) : PlayerControl :=
  { s with command := if s.command = PlayerCommand.NONE then a.getD PlayerCommand.NONE
                      else s.command }

/-- Method `PlayerControl::SetError` (player/Control.cxx lines 169-180); the
argument is a non-null `std::exception_ptr`, so the assertion `_error` holds. -/
def PlayerControl.SetError (type : PlayerError) (e : Exception) (s : PlayerControl) :
    PlayerControl :=
  let s := s.check (decide (type ≠ PlayerError.NONE)) PlayerAssertion.SetError_type_not_NONE
  let s := { s with error_type := type }
  let s := { s with error := some e }
  s.emit PlayerEvent.OnPlayerError

/-- Modelled from the spec: `PlayerControl::ClearError` is defined in Control.hxx,
outside src/; both `error_type` and `error` are cleared. -/
def PlayerControl.ClearError (s : PlayerControl) : PlayerControl :=
  { s with error_type := PlayerError.NONE, error := none }

/-- Modelled from the spec: the player thread is outside src/. One thing the
player thread does to the player control while it holds the mutex: it changes
`state` or `seeking`, it picks up or discards `next_song`, or it calls
`SetError` or `ClearError`. -/
inductive PlayerThreadAction where
  | SetState (st : PlayerState)
  | SetSeeking (b : Bool)
  | TakeNextSong
  | SetError (type : PlayerError) (e : Exception)
  | ClearError
  deriving DecidableEq, Repr

/-- The effect of one action of the player thread. -/
def PlayerThreadAction.apply (a : PlayerThreadAction) (s : PlayerControl) : PlayerControl :=
  match a with
  | PlayerThreadAction.SetState st => { s with state := st }
  | PlayerThreadAction.SetSeeking b => { s with seeking := b }
  | PlayerThreadAction.TakeNextSong => { s with next_song := none }
  | PlayerThreadAction.SetError type e => s.SetError type e
  | PlayerThreadAction.ClearError => s.ClearError

/-- The player thread does these actions, in order, while the caller waits. -/
def playerThread (acts : List PlayerThreadAction) (s : PlayerControl) : PlayerControl :=
  acts.foldl (fun s a => a.apply s) s

/-- Modelled from the spec: `PlayerControl::SynchronousCommand` is defined in
Control.hxx, outside src/: it sets `command`, notifies the player thread and
waits while `command != NONE`. `reply` is what the player thread does before it
sets the mailbox back to `NONE`, or `none` when it never does; the flag tells
whether the call has returned. -/
def PlayerControl.SynchronousCommand (reply : Option (List PlayerThreadAction))
    (cmd : PlayerCommand) (s : PlayerControl) : PlayerControl × Bool :=
  let s := { s with command := cmd }
  let s := s.emit (PlayerEvent.Issued cmd)
  match reply with
  | none => (s.emit PlayerEvent.ClientWait, false)
  | some acts =>
    ({ playerThread acts (s.emit PlayerEvent.ClientWait) with command := PlayerCommand.NONE },
      true)

/-- What `WaitOutputConsumed` observes: the result of the first
`outputs.CheckPipe()`, and, when the player thread is woken from `Wait(lock)`, the
command a client has posted meanwhile and the result of the second
`outputs.CheckPipe()`. -/
structure PipeScript where
  first : Nat
  wake : Option (Option PlayerCommand × Nat)

/-- Method `PlayerControl::WaitOutputConsumed` (player/Control.cxx lines 29-40); the
result is `none` while the player thread is still inside `Wait(lock)`. -/
def PlayerControl.WaitOutputConsumed (p : PipeScript) (threshold : Nat) (s : PlayerControl) :
    PlayerControl × Option Bool :=
  let s := s.emit (PlayerEvent.CheckPipe p.first)
  let result := decide (p.first < threshold)
  if !result && decide (s.command = PlayerCommand.NONE) then
    let s := s.emit PlayerEvent.Wait
    match p.wake with
    | none => (s, none)
    | some (arrival, second) =>
      let s := s.arrive arrival
      let s := s.emit (PlayerEvent.CheckPipe second)
      (s, some (decide (second < threshold)))
  else
    (s, some result)

/-- Method `PlayerControl::PauseLocked` (player/Control.cxx lines 101-108); the flag
tells whether the call has returned. -/
def PlayerControl.PauseLocked (reply : Option (List PlayerThreadAction)) (s : PlayerControl) :
    PlayerControl × Bool :=
  if s.state ≠ PlayerState.STOP then
    match s.SynchronousCommand reply PlayerCommand.PAUSE with
    | (s, false) => (s, false)
    | (s, true) => (s.emit PlayerEvent.OnPlayerStateChanged, true)
  else
    (s, true)

/-- Method `PlayerControl::LockSetPause` (player/Control.cxx lines 117-139); the flag
tells whether the call has returned. -/
def PlayerControl.LockSetPause (reply : Option (List PlayerThreadAction)) (pause_flag : Bool)
    (s : PlayerControl) : PlayerControl × Bool :=
  if !s.thread then
    (s, true)
  else
    match s.state with
    | PlayerState.STOP => (s, true)
    | PlayerState.PLAY => if pause_flag then s.PauseLocked reply else (s, true)
    | PlayerState.PAUSE => if !pause_flag then s.PauseLocked reply else (s, true)

/-- What one call of `SeekLocked` observes of the player thread: its reply to
CANCEL and to SEEK (see `SynchronousCommand`), and what it does before each
wake-up of the caller from `ClientWait(lock)`. -/
structure SeekScript where
  cancel : Option (List PlayerThreadAction)
  seek : Option (List PlayerThreadAction)
  wakes : List (List PlayerThreadAction)

/-- How a call of `SeekLocked` ends: the caller is still waiting at the end of the
script, the call has returned, or it has rethrown the `std::exception_ptr` stored
in `error` (`none` is the null pointer, which the assertion `error` excludes). -/
inductive SeekOutcome where
  | waiting
  | returned
  | rethrown (error : Option Exception)
  deriving DecidableEq, Repr

/-- The loop `while (seeking) ClientWait(lock)` of `SeekLocked` (player/Control.cxx
lines 262-263); the flag tells whether the loop was left. -/
def PlayerControl.SeekLocked_wait : List (List PlayerThreadAction) → PlayerControl →
    PlayerControl × Bool
  | wakes, s =>
    if s.seeking then
      match wakes with
      | [] => (s.emit PlayerEvent.ClientWait, false)
      | w :: rest =>
        PlayerControl.SeekLocked_wait rest (playerThread w (s.emit PlayerEvent.ClientWait))
    else
      (s, true)

/-- The end of `SeekLocked` (player/Control.cxx lines 265-270). -/
def PlayerControl.SeekLocked_finish (s : PlayerControl) : PlayerControl × SeekOutcome :=
  if s.error_type ≠ PlayerError.NONE then
    let s := s.check s.error.isSome PlayerAssertion.SeekLocked_error
    (s, SeekOutcome.rethrown s.error)
  else
    (s.check s.error.isNone PlayerAssertion.SeekLocked_not_error, SeekOutcome.returned)

/-- The part of `SeekLocked` after the CANCEL (player/Control.cxx lines 251-270). -/
def PlayerControl.SeekLocked_seek (sc : SeekScript) (song : Nat) (t : Nat) (s : PlayerControl) :
    PlayerControl × SeekOutcome :=
  let s := s.check s.next_song.isNone PlayerAssertion.SeekLocked_next_song_null_after_CANCEL
  let s := s.ClearError
  let s := { s with next_song := some song }
  let s := { s with seek_time := t }
  match s.SynchronousCommand sc.seek PlayerCommand.SEEK with
  | (s, false) => (s, SeekOutcome.waiting)
  | (s, true) =>
    let s := s.check s.next_song.isNone PlayerAssertion.SeekLocked_next_song_null_after_SEEK
    match PlayerControl.SeekLocked_wait sc.wakes s with
    | (s, false) => (s, SeekOutcome.waiting)
    | (s, true) => s.SeekLocked_finish

/-- Method `PlayerControl::SeekLocked` (player/Control.cxx lines 238-271); the song
is a non-null pointer, so the assertion `song != nullptr` holds. -/
def PlayerControl.SeekLocked (sc : SeekScript) (song : Nat) (t : Nat) (s : PlayerControl) :
    PlayerControl × SeekOutcome :=
  if s.next_song.isSome then
    match s.SynchronousCommand sc.cancel PlayerCommand.CANCEL with
    | (s, false) => (s, SeekOutcome.waiting)
    | (s, true) => s.SeekLocked_seek sc song t
  else
    s.SeekLocked_seek sc song t

/-- The part of `Play` under the mutex (player/Control.cxx lines 50-56): a seek to
the start of the song, and a PAUSE command if the player was paused. -/
def PlayerControl.Play_locked (sc : SeekScript) (unpause : Option (List PlayerThreadAction))
    (song : Nat) (s : PlayerControl) : PlayerControl × SeekOutcome :=
  match s.SeekLocked sc song 0 with
  | (s, SeekOutcome.returned) =>
    if s.state = PlayerState.PAUSE then
      match s.PauseLocked unpause with
      | (s, false) => (s, SeekOutcome.waiting)
      | (s, true) => (s, SeekOutcome.returned)
    else
      (s, SeekOutcome.returned)
  | (s, other) => (s, other)

/-- Method `PlayerControl::Play` (player/Control.cxx lines 42-57); `thread_start` is
what `thread.Start()` throws. -/
def PlayerControl.Play (thread_start : Option Exception) (sc : SeekScript)
    (unpause : Option (List PlayerThreadAction)) (song : Nat) (s : PlayerControl) :
    PlayerControl × SeekOutcome :=
  if !s.thread then
    let s := s.emit PlayerEvent.ThreadStart
    match thread_start with
    | some e => (s, SeekOutcome.rethrown (some e))
    | none => PlayerControl.Play_locked sc unpause song { s with thread := true }
  else
    s.Play_locked sc unpause song

/-! ## Sample data -/

/-- A CD quality audio format. -/
def cdFormat : AudioFormat := { sample_rate := 44100, format := 16, channels := 2 }

/-- A device with `Enable`/`Disable` and pause support and no mixer. -/
def plainDevice : FilteredAudioOutput :=
  { supports_enable_disable := true, supports_pause := true, has_mixer := false,
    config_audio_format := ⟨0, 0, 0⟩, filter_audio_format := ⟨0, 0, 0⟩,
    out_audio_format := ⟨0, 0, 0⟩ }

/-- A device without `Enable`/`Disable` methods. -/
def simpleDevice : FilteredAudioOutput :=
  { plainDevice with supports_enable_disable := false }

/-- Modelled from the spec: the member initialisers of `AudioOutputControl` are
in Control.hxx, outside src/. A new controller is not open, not really enabled,
has no thread, no pending command and an unarmed fail timer, and may play; the
constructor (Control.cxx lines 19-31) binds the device and reads `enabled`. -/
def initial (o : FilteredAudioOutput) (enabled : Bool) : AudioOutputControl :=
  { output := some o, thread := false, tags := true, always_on := false, always_off := false,
    enabled := enabled, really_enabled := false, open_ := false, pause := false,
    allow_play := true, in_playback_loop := false, woken_for_play := false,
    skip_delay := false, should_reopen := false, caught_interrupted := false,
    playing := false, killed := true, command := Command.NONE,
    source_state := SourceState.CLOSED, fail_timer := { last := none }, last_error := none,
    request_audio_format := ⟨0, 0, 0⟩, request_pipe := 0,
    source := { pending := [], tag := none }, log := [] }

/-- An environment in which every collaborator call succeeds, read at time `now`. -/
def quietEnv (now : Nat) : Env :=
  { now := now, with_mask := fun f _ => f, frame_size := fun _ => 1, enable := none,
    source_open := Except.ok cdFormat, open_output := Except.ok cdFormat,
    configure_convert := none, software_mixer := none, thread_start := none }

/-- A worker script in which every collaborator call succeeds, nothing is left to
flush or play, and no client posts a command. -/
def quietScript (now : Nat) : WorkerScript :=
  { env := quietEnv now,
    pause := { iters := [], end_arrival := none },
    drain := { steps := [{ flush := Except.ok [], plays := [] }], drain := none },
    play := { first_fill := { result := Except.ok (false, { pending := [], tag := none }),
                              arrival := none },
              steps := [], final_arrival := none },
    resume := { iters := [], end_arrival := none } }

/-- The worker dispatches a command that a client has posted: `CommandAsync`
followed by one round of the loop of `Task`. -/
def dispatch (w : WorkerScript) (cmd : Command) (s : AudioOutputControl) : AudioOutputControl :=
  (Task_step w (CommandAsync cmd s)).1

/-- The state after the worker has dispatched ENABLE and then, if `opened`, OPEN. -/
def enabledThenOpened (w1 w2 : WorkerScript) (opened : Bool) (s : AudioOutputControl) :
    AudioOutputControl :=
  if opened then dispatch w2 Command.OPEN (dispatch w1 Command.ENABLE s)
  else dispatch w1 Command.ENABLE s

/-- A script like `quietScript`, except that `source.Open` throws. -/
def sourceOpenFails (now : Nat) : WorkerScript :=
  { quietScript now with
    env := { quietEnv now with source_open := Except.error (Exception.failure 2) } }

/-- A script like `quietScript`, except that `output->OpenSoftwareMixer()` throws. -/
def softwareMixerFails (now : Nat) : WorkerScript :=
  { quietScript now with
    env := { quietEnv now with software_mixer := some (Exception.failure 3) } }

/-- A script like `quietScript`, except that `output->OpenOutputAndConvert` throws. -/
def openOutputFails (now : Nat) : WorkerScript :=
  { quietScript now with
    env := { quietEnv now with open_output := Except.error (Exception.failure 1) } }

/-- A controller for `o`, enabled in the configuration, after
`EnableDisableAsync` and the worker's dispatch of ENABLE, if one was posted. -/
def enabledController (o : FilteredAudioOutput) : AudioOutputControl :=
  let s := (EnableDisableAsync (quietEnv 0) (initial o true)).1
  if s.command = Command.ENABLE then (Task_step (quietScript 0) s).1 else s

/-- The controller `enabledController o` after a first successful `LockUpdate`
with the CD format: the device is open. -/
def openedController (o : FilteredAudioOutput) : Option (Bool × AudioOutputControl) :=
  LockUpdate (quietScript 0) cdFormat 0 false (enabledController o)

/-- The controller `enabledController plainDevice` after a `LockUpdate` at time
5000 in which the device could not be opened: the failure has armed the fail
timer. -/
def failedAt5000 : AudioOutputControl :=
  ((LockUpdate (openOutputFails 5000) cdFormat 0 false (enabledController plainDevice)).getD
    (false, initial plainDevice true)).2

/-- The controller for `plainDevice` after a first successful `LockUpdate`: the
device is open and plays the CD format. -/
def openState : AudioOutputControl :=
  ((openedController plainDevice).getD (false, initial plainDevice true)).2

/-- The open controller `openState` after `LockSetEnabled(false)`. -/
def disabledOpenState : AudioOutputControl := (LockSetEnabled false openState).2

/-- A script like `quietScript`, except that `output->Drain()` throws. -/
def drainFails (now : Nat) : WorkerScript :=
  { quietScript now with
    drain := { steps := [{ flush := Except.ok [], plays := [] }],
               drain := some (Exception.failure 4) } }

/-- An open always-on output whose source was flushed by a DRAIN, with RELEASE posted. -/
def flushedAlwaysOn : AudioOutputControl :=
  CommandAsync Command.RELEASE
    (Task_step (quietScript 1) (LockDrainAsync { openState with always_on := true })).1

/-- A format other than `cdFormat`. -/
def dvdFormat : AudioFormat := { sample_rate := 48000, format := 24, channels := 2 }

/-- The open controller `openState` after a `source.Fill` that has delivered a
chunk of six bytes with a tag. -/
def taggedState : AudioOutputControl :=
  (FillSourceOrClose 1
    { result := Except.ok (true, { pending := [1, 2, 3, 4, 5, 6], tag := some 7 }),
      arrival := none } openState).2

/-- A script of `PlayChunk` in which `SendTag` throws an exception other than
`AudioOutputInterrupted` and `Play` accepts six bytes. -/
def sendTagFails : ChunkScript :=
  { send_tag := some (Exception.failure 5), tag_arrival := none,
    iters := [{ wait := [], play := Except.ok 6, arrival := none }] }

/-- A script of `PlayChunk` in which `SendTag` throws `AudioOutputInterrupted`. -/
def sendTagInterrupted : ChunkScript :=
  { sendTagFails with send_tag := some Exception.AudioOutputInterrupted }

/-- A script of `WaitForDelay`: the device reports an infinite delay twice, and a
client posts PAUSE during the second wait. -/
def untimedWaits : List WaitStep :=
  [{ delay := DURATION_MAX, arrival := none },
   { delay := DURATION_MAX, arrival := some Command.PAUSE }]

/-! ## Scripts that reach the end of a loop -/

/-- The results of `output.Play` suffice for `PlayFull` to get to its end on a
buffer: each call accepts at least one byte and there are as many results as
bytes. -/
def playsSuffice (plays : List (Except Exception Nat)) (buffer : List Nat) : Bool :=
  decide (buffer.length ≤ plays.length)
    && plays.all fun r =>
      match r with
      | Except.ok n => decide (0 < n)
      | Except.error _ => true

/-- The script of the flush loop of `InternalDrain` reaches the end of the loop:
`source.Flush()` throws or returns an empty buffer after finitely many buffers,
each of which `PlayFull` gets through. -/
def flushEnds : List FlushStep → Bool
  | [] => false
  | st :: rest =>
    match st.flush with
    | Except.error _ => true
    | Except.ok buffer => buffer.isEmpty || (playsSuffice st.plays buffer && flushEnds rest)

/-- A client posts a command during this round of `WaitForDelay`. -/
def WaitStep.commandArrives (w : WaitStep) : Bool :=
  match w.arrival with
  | some c => decide (c ≠ Command.NONE)
  | none => false

/-- The script of `WaitForDelay` tells how the wait ends: in some round the device
reports a delay that is not positive, or a client posts a command. -/
def waitEnds (ws : List WaitStep) : Bool :=
  ws.any fun w => decide (w.delay ≤ 0) || w.commandArrives

/-- A script of `WaitForDelay` without a command: the device reports a delay that
is not positive after finitely many waits during which no client posts a
command. -/
def calmWait : List WaitStep → Bool
  | [] => false
  | w :: ws => decide (w.delay ≤ 0) || (w.arrival.isNone && calmWait ws)

/-- A script of the loop of `PlayChunk` without a command and without an
exception, for source data of `len` bytes: as long as data is left, the wait (if
it is not skipped) ends without a command, no command arrives during `Play`, and
`Play` returns a number of bytes that is positive and at most the size of the
data it was given. -/
def calmIters : Bool → List PlayIter → Nat → Bool
  | _, _, 0 => true
  | _, [], _ + 1 => false
  | skip, it :: rest, len + 1 =>
    (skip || calmWait it.wait) && it.arrival.isNone &&
      match it.play with
      | Except.ok n => decide (0 < n) && decide (n ≤ len + 1) && calmIters false rest (len + 1 - n)
      | Except.error _ => false

/-- A script of `PlayChunk` without a command and without an exception. -/
def ChunkScript.calm (c : ChunkScript) (skip : Bool) (len : Nat) : Bool :=
  c.send_tag.isNone && c.tag_arrival.isNone && calmIters skip c.iters len

/-- The data transfers of a log, in order: the calls of `output->Play` and of
`source.ConsumeData`. -/
def transfers (l : List Event) : List Event :=
  l.filter fun e =>
    match e with
    | Event.Play _ => true
    | Event.SourceConsumeData _ => true
    | _ => false

/-- Short writes as the specification describes them: `Play` is given the
data, `n` bytes of it are consumed, and `Play` is called again on what remains. -/
def shortWrites : List Nat → List Nat → List Event
  | [], _ => []
  | n :: ns, data => Event.Play data :: Event.SourceConsumeData n :: shortWrites ns (data.drop n)

/-- The bytes that the successive `Play` calls accept from the data when they
return the lengths `ns`. -/
def pieces : List Nat → List Nat → List (List Nat)
  | [], _ => []
  | n :: ns, data => data.take n :: pieces ns (data.drop n)

/-- The results of `output.Play` that `PlayFull` gets on a buffer of `len` bytes
are, as long as bytes are left, lengths that are positive and at most the length
of the buffer the call was given. -/
def playsWithin : List (Except Exception Nat) → Nat → Bool
  | _, 0 => true
  | [], _ + 1 => false
  | Except.ok n :: rest, len + 1 =>
    decide (0 < n) && decide (n ≤ len + 1) && playsWithin rest (len + 1 - n)
  | Except.error _ :: _, _ + 1 => false

/-- The calls of `output.Play` as the specification describes them for
`PlayFull`: each call receives the suffix of the buffer not yet accepted. -/
def fullWrites : List Nat → List Nat → List Event
  | [], _ => []
  | n :: ns, buffer => Event.Play buffer :: fullWrites ns (buffer.drop n)

/-- The calls of `PlayChunk` and the notifications `client.ChunksConsumed()` of a
log, in order. -/
def beats (l : List Event) : List Event :=
  l.filter fun e =>
    match e with
    | Event.PlayChunk => true
    | Event.ChunksConsumed => true
    | _ => false

/-- What iteration number `k` (counted from 1) of the drive loop of
`InternalPlay` adds to `beats`: the call of `PlayChunk`, preceded by a
notification in every 64th iteration. -/
def beat (k : Nat) : List Event :=
  (if k % 64 = 0 then [Event.ChunksConsumed] else []) ++ [Event.PlayChunk]

/-- The `beats` of `k` iterations of the drive loop that follow iteration
number `n`. -/
def rhythm (n k : Nat) : List Event :=
  (List.range k).flatMap fun i => beat (n + i + 1)

/-- A call of one of the public methods that reconcile the `enabled` flag with
the device. -/
inductive ClientCall where
  | LockSetEnabled (new_value : Bool)
  | LockToggleEnabled
  | EnableDisableAsync (env : Env)
  | LockUpdate (w : WorkerScript) (audio_format : AudioFormat) (mp : Nat) (force : Bool)

/-- The controller after the call, and what a `LockUpdate` has returned; `none`
when the call never returns. An exception of `EnableDisableAsync` goes to the
caller and leaves the controller as it is then. -/
def ClientCall.run (c : ClientCall) (s : AudioOutputControl) :
    Option (AudioOutputControl × Option Bool) :=
  match c with
  | ClientCall.LockSetEnabled b => some ((MPD.LockSetEnabled b s).2, none)
  | ClientCall.LockToggleEnabled => some ((MPD.LockToggleEnabled s).2, none)
  | ClientCall.EnableDisableAsync env => some ((MPD.EnableDisableAsync env s).1, none)
  | ClientCall.LockUpdate w f mp force =>
    match MPD.LockUpdate w f mp force s with
    | none => none
    | some (b, s) => some (s, some b)

/-- A sequence of calls, one after the other: the controller at the end and the
results of the `LockUpdate` calls. -/
def runCalls : List ClientCall → AudioOutputControl → Option (AudioOutputControl × List Bool)
  | [], s => some (s, [])
  | c :: cs, s =>
    match c.run s with
    | none => none
    | some (s, r) =>
      match runCalls cs s with
      | none => none
      | some (s, rs) => some (s, r.toList ++ rs)

/-- The last result of `outputs.CheckPipe()` in a log of the player control. -/
def lastCheckPipe (l : List PlayerEvent) : Option Nat :=
  (l.filterMap fun e =>
    match e with
    | PlayerEvent.CheckPipe n => some n
    | _ => none).getLast?

/-- The commands stored in the mailbox of the player thread, in order. -/
def issued (l : List PlayerEvent) : List PlayerCommand :=
  l.filterMap fun e =>
    match e with
    | PlayerEvent.Issued cmd => some cmd
    | _ => none

/-- A script of the drive loop of `InternalPlay` without a command and without a
failure, entered with `len` bytes of source data: in every round no command
arrives and `PlayChunk` plays the data without an exception; `source.Fill` then
delivers the next chunk, except in the last round, where it returns false. -/
def calmSteps : Bool → Nat → List PlayStep → Bool
  | _, _, [] => false
  | skip, len, st :: rest =>
    st.consumed_arrival.isNone && st.chunk.calm skip len && st.fill.arrival.isNone &&
      match st.fill.result with
      | Except.ok (true, src) => calmSteps (skip && decide (len = 0)) src.pending.length rest
      | Except.ok (false, _) => rest.isEmpty
      | Except.error _ => false

/-- A script of `InternalPlay` without a command and without a failure: the first
`source.Fill` delivers a chunk, and the drive loop runs as `calmSteps` says. -/
def PlayScript.calm (p : PlayScript) (skip : Bool) : Bool :=
  p.first_fill.arrival.isNone &&
    match p.first_fill.result with
    | Except.ok (true, src) => calmSteps skip src.pending.length p.steps
    | _ => false

/-! ## Sample scripts -/

/-- Results of three calls of `output.Play`: two bytes, one byte and three bytes
are accepted. -/
def threeWrites : List (Except Exception Nat) := [Except.ok 2, Except.ok 1, Except.ok 3]

/-- A buffer of six bytes. -/
def sixBytes : List Nat := [1, 2, 3, 4, 5, 6]

/-- A round of the drive loop in which `PlayChunk` plays two bytes at once and
`source.Fill` delivers the next two bytes. -/
def calmStep : PlayStep :=
  { consumed_arrival := none,
    chunk := { send_tag := none, tag_arrival := none,
               iters := [{ wait := [⟨0, none⟩], play := Except.ok 2, arrival := none }] },
    fill := { result := Except.ok (true, { pending := [1, 2], tag := none }), arrival := none } }

/-- A round like `calmStep` after which the source has no further chunk. -/
def lastStep : PlayStep :=
  { calmStep with
    fill := { result := Except.ok (false, { pending := [], tag := none }), arrival := none } }

/-- A script of `InternalPlay` with two rounds of the drive loop, without a command
and without a failure. -/
def shortPlay : PlayScript :=
  { first_fill := { result := Except.ok (true, { pending := [1, 2], tag := none }),
                    arrival := none },
    steps := [calmStep, lastStep],
    final_arrival := none }

/-- A script of `InternalPlay` with 64 rounds of the drive loop, without a command
and without a failure. -/
def longPlay : PlayScript :=
  { first_fill := { result := Except.ok (true, { pending := [1, 2], tag := none }),
                    arrival := none },
    steps := List.replicate 63 calmStep ++ [lastStep],
    final_arrival := none }

/-- A controller for `plainDevice` that is configured with `always_off`, as
constructed. -/
def alwaysOffController : AudioOutputControl :=
  { initial plainDevice true with always_off := true }

/-- A sequence of calls of the public methods that reconcile `enabled`. -/
def reconcileCalls : List ClientCall :=
  [ClientCall.EnableDisableAsync (quietEnv 0),
   ClientCall.LockUpdate (quietScript 1) cdFormat 0 false,
   ClientCall.LockToggleEnabled,
   ClientCall.EnableDisableAsync (quietEnv 2),
   ClientCall.LockSetEnabled true,
   ClientCall.LockUpdate (quietScript 3) cdFormat 0 true]

/-- A player control whose thread runs and is paused, with no pending command. -/
def pausedPlayer : PlayerControl :=
  { thread := true, command := PlayerCommand.NONE, state := PlayerState.PAUSE,
    error_type := PlayerError.NONE, error := none, next_song := none, seek_time := 0,
    seeking := false, log := [] }

/-- A player control whose thread runs and plays, with no pending command. -/
def playingPlayer : PlayerControl :=
  { thread := true, command := PlayerCommand.NONE, state := PlayerState.PLAY,
    error_type := PlayerError.NONE, error := none, next_song := none, seek_time := 0,
    seeking := false, log := [] }

/-- The largest `unsigned long` and `std::size_t`: `ULONG_MAX`, `SIZE_MAX`. -/
def SIZE_MAX : Nat := 2 ^ 64 - 1

/-- The largest `long`: `LONG_MAX`. -/
def LONG_MAX : Int := 2 ^ 63 - 1

/-- The smallest `long`: `LONG_MIN`. -/
def LONG_MIN : Int := -2 ^ 63

/-- The character `*s` of a C string. -/
def peek (s : List Char) : Char := s.headD (Char.ofNat 0)

/-- Modelled from the spec: the C library predicate `isspace` is outside src/:
space, and the control characters from tab to carriage return. -/
def isspace (c : Char) : Bool := c.toNat = 32 || (9 ≤ c.toNat && c.toNat ≤ 13)

/-- A decimal digit. -/
def isdigit (c : Char) : Bool := 48 ≤ c.toNat && c.toNat ≤ 57

/-- The number that a sequence of decimal digits denotes. -/
def digitsValue (ds : List Char) : Nat :=
  ds.foldl (fun n c => 10 * n + (c.toNat - 48)) 0

/-- The subject sequence of `strtol` and `strtoul` in base 10: after leading
white space, an optional sign and the longest sequence of digits. The result is
whether the sign is a minus, the digits, and the rest of the string. -/
def subjectSequence (s : List Char) : Bool × List Char × List Char :=
  let t := s.dropWhile isspace
  let neg := decide (peek t = '-')
  let t := if peek t = '-' ∨ peek t = '+' then t.drop 1 else t
  (neg, t.takeWhile isdigit, t.dropWhile isdigit)

/-- Modelled from the spec: the C library function `strtoul(s, &endptr, 10)` is
outside src/. The result is `none` when no conversion is done (`endptr == s`),
else the value and the rest of the string at `endptr`; a value out of range is
`ULONG_MAX`, and a minus sign negates the value in the type `unsigned long`. -/
def strtoul (s : List Char) : Option (Nat × List Char) :=
  match subjectSequence s with
  | (neg, ds, rest) =>
    if ds.isEmpty then none
    else
      let n := digitsValue ds
      let v := if n > SIZE_MAX then SIZE_MAX else if neg then (2 ^ 64 - n) % 2 ^ 64 else n
      some (v, rest)

/-- Modelled from the spec: the C library function `strtol(s, &endptr, 10)` is
outside src/. The result is `none` when no conversion is done (`endptr == s`),
else the value and the rest of the string at `endptr`; a value out of range is
`LONG_MAX` or `LONG_MIN`. -/
def strtol (s : List Char) : Option (Int × List Char) :=
  match subjectSequence s with
  | (neg, ds, rest) =>
    if ds.isEmpty then none
    else
      let n : Int := if neg then -(digitsValue ds : Int) else (digitsValue ds : Int)
      let v := if n > LONG_MAX then LONG_MAX else if n < LONG_MIN then LONG_MIN else n
      some (v, rest)

/-- Modelled from the spec: `StripLeft` is declared outside src/
(util/StringStrip.hxx); it skips the leading white space of a string, the
characters up to the space character other than NUL. -/
def StripLeft (s : List Char) : List Char :=
  s.dropWhile fun c => decide (0 < c.toNat) && decide (c.toNat ≤ 32)

/-- Function `ParseLong` (config/Parser.cxx lines 26-35). -/
def ParseLong (s : List Char) : Except String Int :=
  match strtol s with
  | none => Except.error "Failed to parse number"
  | some (value, endptr) =>
    if peek endptr ≠ Char.ofNat 0 then Except.error "Failed to parse number"
    else Except.ok value

/-- The conversion `(unsigned)value` of a `long` to the 32 bit type `unsigned`. -/
def toUnsigned (value : Int) : Nat := (value % 2 ^ 32).toNat

/-- Function `ParseUnsigned` (config/Parser.cxx lines 37-45). -/
def ParseUnsigned (s : List Char) : Except String Nat :=
  match ParseLong s with
  | Except.error e => Except.error e
  | Except.ok value =>
    if value < 0 then Except.error "Value must not be negative"
    else Except.ok (toUnsigned value)

/-- Function `ParsePositive` (config/Parser.cxx lines 47-55). -/
def ParsePositive (s : List Char) : Except String Nat :=
  match ParseLong s with
  | Except.error e => Except.error e
  | Except.ok value =>
    if value ≤ 0 then Except.error "Value must be positive"
    else Except.ok (toUnsigned value)

/-- Function template `Multiply<OPERAND>` (config/Parser.cxx lines 68-77). -/
def Multiply (OPERAND : Nat) (value : Nat) : Except String Nat :=
  let MAX_VALUE := SIZE_MAX / OPERAND
  if value > MAX_VALUE then Except.error "Value too large"
  else Except.ok (value * OPERAND)

/-- The constant `KILO` of `ParseSize`. -/
def KILO : Nat := 1024

/-- The constant `MEGA` of `ParseSize`. -/
def MEGA : Nat := 1024 * KILO

/-- The constant `GIGA` of `ParseSize`. -/
def GIGA : Nat := 1024 * MEGA

/-- The `switch (*s)` of `ParseSize` (config/Parser.cxx lines 95-117): the value,
the rest of the string and `apply_factor` after it. -/
def ParseSize_suffix (value : Nat) (s : List Char) : Except String (Nat × List Char × Bool) :=
  if peek s = 'k' then
    match Multiply KILO value with
    | Except.error e => Except.error e
    | Except.ok v => Except.ok (v, s.drop 1, false)
  else if peek s = 'M' then
    match Multiply MEGA value with
    | Except.error e => Except.error e
    | Except.ok v => Except.ok (v, s.drop 1, false)
  else if peek s = 'G' then
    match Multiply GIGA value with
    | Except.error e => Except.error e
    | Except.ok v => Except.ok (v, s.drop 1, false)
  else if peek s = Char.ofNat 0 then
    Except.ok (value, s, true)
  else
    Except.error "Unknown size suffix"

/-- The end of `ParseSize` (config/Parser.cxx lines 119-131). -/
def ParseSize_finish (default_factor : Nat) (value : Nat) (s : List Char) (apply_factor : Bool) :
    Except String Nat :=
  let (s, apply_factor) := if peek s = 'B' then (s.drop 1, false) else (s, apply_factor)
  if peek s ≠ Char.ofNat 0 then Except.error "Unknown size suffix"
  else if apply_factor then Except.ok ((value * default_factor) % 2 ^ 64)
  else Except.ok value

/-- Function `ParseSize` (config/Parser.cxx lines 79-132). -/
def ParseSize (s : List Char) (default_factor : Nat) : Except String Nat :=
  match strtoul s with
  | none => Except.error "Failed to parse integer"
  | some (value, endptr) =>
    match ParseSize_suffix value (StripLeft endptr) with
    | Except.error e => Except.error e
    | Except.ok (value, s, apply_factor) => ParseSize_finish default_factor value s apply_factor

/-! ## The database statistics (`src/Stats.cxx`) -/

/-- Modelled from the spec: `DatabaseStats` is declared outside src/; the
counters that `db_stats_print` prints. -/
structure DatabaseStats where
  artist_count : Nat
  album_count : Nat
  song_count : Nat
  total_duration : Nat
  deriving DecidableEq, Repr

/-- The type `StatsValidity` (Stats.cxx lines 42-44). -/
inductive StatsValidity where
  | INVALID | VALID | FAILED
  deriving DecidableEq, Repr

/-- Ghost events of the statistics: the calls of `GetStats` and `LogError`, and
the lines printed to the client. -/
inductive StatsEvent where
  | GetStats
  | LogError
  | PrintStats (stats : DatabaseStats)
  | PrintUpdateStamp (stamp : Nat)
  deriving DecidableEq, Repr

/-- The static variables `stats` and `stats_validity` of Stats.cxx, and the ghost
log. -/
structure StatsState where
  stats : DatabaseStats
  stats_validity : StatsValidity
  log : List StatsEvent
  deriving DecidableEq, Repr

/-- Function `stats_invalidate` (Stats.cxx lines 55-61); the assertion is about
`GetDatabase()`, a function outside src/, and is left out. -/
def stats_invalidate (s : StatsState) : StatsState :=
  { s with stats_validity := StatsValidity.INVALID }

/-- Function `stats_update` (Stats.cxx lines 63-89); `get_stats` is what
`GetDatabase()->GetStats(...)` delivers, `none` when it fails. -/
def stats_update (get_stats : Option DatabaseStats) (s : StatsState) : Bool × StatsState :=
  match s.stats_validity with
  | StatsValidity.VALID => (true, s)
  | StatsValidity.FAILED => (false, s)
  | StatsValidity.INVALID =>
    let s := { s with log := s.log ++ [StatsEvent.GetStats] }
    match get_stats with
    | some st =>
      let s := { s with stats := st }
      (true, { s with stats_validity := StatsValidity.VALID })
    | none =>
      let s := { s with log := s.log ++ [StatsEvent.LogError] }
      (true, { s with stats_validity := StatsValidity.FAILED })

/-- Function `db_stats_print` (Stats.cxx lines 91-121); `simple` is
`db_is_simple()` and `update_stamp` is `GetDatabase()->GetUpdateStamp()`. -/
def db_stats_print (simple : Bool) (get_stats : Option DatabaseStats) (update_stamp : Int)
    (s : StatsState) : StatsState :=
  let s := if !simple then stats_invalidate s else s
  match stats_update get_stats s with
  | (false, s) => s
  | (true, s) =>
    let s := { s with log := s.log ++ [StatsEvent.PrintStats s.stats] }
    if update_stamp > 0 then
      { s with log := s.log ++ [StatsEvent.PrintUpdateStamp update_stamp.toNat] }
    else s

/-- The statistics before the first query of the database. -/
def noStats : StatsState :=
  { stats := { artist_count := 0, album_count := 0, song_count := 0, total_duration := 0 },
    stats_validity := StatsValidity.INVALID, log := [] }

/-- The open controller `openState` after `LockDrainAsync` and the worker's
dispatch of DRAIN, in which nothing throws. -/
def drainedOnce : AudioOutputControl :=
  (Task_step (quietScript 1) (LockDrainAsync openState)).1

/-- The controller `drainedOnce` after a second `LockDrainAsync` and the worker's
dispatch of the command. -/
def drainedTwice : AudioOutputControl :=
  (Task_step (quietScript 2) (LockDrainAsync drainedOnce)).1

/-! ## Frame conditions -/

/-- The events that tell how a command was handled: acknowledgements, a failure
of the assertion inside `CommandFinished`, and recorded function entries. -/
def Event.landmark : Event → Bool
  | Event.CommandFinished _ => true
  | Event.AssertionFailed Assertion.CommandFinished_command_not_NONE => true
  | Event.Call _ => true
  | _ => false

/-- The landmark events of a log, in order. -/
def marks (l : List Event) : List Event := l.filter Event.landmark

/-- The step from `s` to `s'` adds no landmark event to the log and leaves a
pending command in the mailbox. -/
def Quiet (s s' : AudioOutputControl) : Prop :=
  marks s'.log = marks s.log ∧ (s.command ≠ Command.NONE → s'.command = s.command)

/-- The acknowledgement events of a log, in order: the calls of
`CommandFinished` and the failures of its assertion `command != Command::NONE`. -/
def acknowledgements (l : List Event) : List Event :=
  l.filter fun e =>
    match e with
    | Event.CommandFinished _ => true
    | Event.AssertionFailed Assertion.CommandFinished_command_not_NONE => true
    | _ => false

/-- The controller without its ghost log. -/
def withoutLog (s : AudioOutputControl) : AudioOutputControl := { s with log := [] }

/-! ## Theorems -/

/-- The log never changes when a field other than `log` is updated by `emit`. -/
@[simp]
theorem emit_log (e : Event) (s : AudioOutputControl) :
    (emit e s).log = s.log ++ [e] := rfl

/-! ### Frame lemmas: the worker functions other than `CommandFinished` add no
landmark event and keep a pending command -/

@[simp]
theorem marks_nil : marks [] = [] := rfl

@[simp]
theorem marks_cons (e : Event) (l : List Event) :
    marks (e :: l) = if e.landmark = true then e :: marks l else marks l := by
  simp [marks, List.filter_cons]

@[simp]
theorem marks_append (l l' : List Event) : marks (l ++ l') = marks l ++ marks l' := by
  simp [marks]

@[simp]
theorem marks_check (c : Bool) (a : Assertion) (s : AudioOutputControl)
    (ha : a ≠ Assertion.CommandFinished_command_not_NONE) :
    marks (check c a s).log = marks s.log := by
  cases c
  · have : (Event.AssertionFailed a).landmark = false := by
      cases a <;> first | rfl | exact absurd rfl ha
    simp [check, this]
  · simp [check]

@[simp]
theorem emit_command (e : Event) (s : AudioOutputControl) : (emit e s).command = s.command := rfl

@[simp]
theorem check_command (c : Bool) (a : Assertion) (s : AudioOutputControl) :
    (check c a s).command = s.command := rfl

/-- The empty step is quiet. -/
theorem Quiet.refl (s : AudioOutputControl) : Quiet s s := ⟨rfl, fun _ => rfl⟩

/-- Quiet steps compose. -/
theorem Quiet.trans {a b c : AudioOutputControl} (h1 : Quiet a b) (h2 : Quiet b c) : Quiet a c :=
  ⟨h2.1.trans h1.1, fun h => by
    have hb := h1.2 h
    rw [← hb] at h
    exact (h2.2 h).trans hb⟩

theorem Quiet_arrive (a : Option Command) (s : AudioOutputControl) : Quiet s (arrive a s) := by
  refine ⟨rfl, fun h => ?_⟩
  simp [arrive, h]

theorem Quiet_Failure (e : Exception) (now : Nat) (s : AudioOutputControl) :
    Quiet s (Failure e now s) := ⟨rfl, fun _ => rfl⟩

theorem Quiet_InternalClose (d : Bool) (s : AudioOutputControl) : Quiet s (InternalClose d s) :=
  ⟨by simp [InternalClose, Event.landmark], fun _ => rfl⟩

theorem Quiet_InternalCloseOutput (d : Bool) (s : AudioOutputControl) :
    Quiet s (InternalCloseOutput d s) :=
  ⟨by simp [InternalCloseOutput, Event.landmark], fun _ => rfl⟩

theorem Quiet_InternalCheckClose (d : Bool) (s : AudioOutputControl) :
    Quiet s (InternalCheckClose d s) := by
  unfold InternalCheckClose
  split
  · exact Quiet_InternalClose d s
  · exact Quiet.refl s

theorem Quiet_InternalCloseError (e : Exception) (now : Nat) (s : AudioOutputControl) :
    Quiet s (InternalCloseError e now s) :=
  Quiet.trans (Quiet_Failure e now s) (Quiet_InternalClose false _)

theorem Quiet_InternalEnable (env : Env) (s : AudioOutputControl) :
    Quiet s (InternalEnable env s).2 := by
  unfold InternalEnable
  split
  · exact Quiet.refl s
  · split
    · exact ⟨by simp [Event.landmark], fun _ => rfl⟩
    · exact ⟨by simp [Failure, Event.landmark], fun _ => rfl⟩

theorem Quiet_InternalDisable (s : AudioOutputControl) : Quiet s (InternalDisable s) := by
  unfold InternalDisable
  split
  · exact Quiet.refl s
  · refine Quiet.trans (Quiet_InternalCheckClose false s) ?_
    exact ⟨by simp [Event.landmark], fun _ => rfl⟩

theorem Quiet_InternalOpen2_mixer (env : Env) (s : AudioOutputControl) :
    Quiet s (InternalOpen2_mixer env s).1 :=
  ⟨by simp [InternalOpen2_mixer, Event.landmark], fun _ => rfl⟩

theorem Quiet_InternalOpen2_format (cf : AudioFormat) (s : AudioOutputControl) :
    Quiet s (InternalOpen2_format cf s) := by
  unfold InternalOpen2_format
  dsimp only
  split
  · exact Quiet.trans (Quiet_InternalCloseOutput s.playing s) ⟨rfl, fun _ => rfl⟩
  · exact ⟨rfl, fun _ => rfl⟩

theorem Quiet_InternalOpen2_open (env : Env) (s : AudioOutputControl) :
    Quiet s (InternalOpen2_open env s).1 := by
  unfold InternalOpen2_open
  dsimp only
  split
  · exact ⟨by simp [Event.landmark], fun _ => rfl⟩
  · refine Quiet.trans ?_ (Quiet_InternalOpen2_mixer env _)
    exact ⟨by simp [setOutAudioFormat, Event.landmark], fun _ => rfl⟩

theorem Quiet_InternalOpen2_configure (env : Env) (s : AudioOutputControl) :
    Quiet s (InternalOpen2_configure env s).1 := by
  unfold InternalOpen2_configure
  dsimp only
  have h0 : Quiet s (emit Event.ConfigureConvertFilter s) :=
    ⟨by simp [Event.landmark], fun _ => rfl⟩
  split
  · exact Quiet.trans h0 (Quiet_InternalCloseOutput false _)
  · exact Quiet.trans h0 (Quiet_InternalOpen2_mixer env _)

theorem Quiet_InternalOpen2 (env : Env) (f : AudioFormat) (s : AudioOutputControl) :
    Quiet s (InternalOpen2 env f s).1 := by
  unfold InternalOpen2
  dsimp only
  have h0 := Quiet_InternalOpen2_format (env.with_mask f s.device.config_audio_format) s
  split
  · exact Quiet.trans h0 (Quiet_InternalOpen2_open env _)
  · split
    · exact Quiet.trans h0 (Quiet_InternalOpen2_configure env _)
    · exact Quiet.trans h0 (Quiet_InternalOpen2_mixer env _)

theorem Quiet_InternalOpen_enabled (env : Env) (f : AudioFormat) (p : Nat)
    (s : AudioOutputControl) : Quiet s (InternalOpen_enabled env f p s) := by
  unfold InternalOpen_enabled
  dsimp only
  split
  · exact ⟨by simp [Failure, Event.landmark], fun _ => rfl⟩
  · rename_i f1 _
    have h2 := Quiet_InternalOpen2 env f1 { emit (Event.SourceOpen f p)
        { s with last_error := none, fail_timer := s.fail_timer.Reset,
                 caught_interrupted := false, skip_delay := true } with
        source_state := SourceState.OPEN }
    have h3 : Quiet s { emit (Event.SourceOpen f p)
        { s with last_error := none, fail_timer := s.fail_timer.Reset,
                 caught_interrupted := false, skip_delay := true } with
        source_state := SourceState.OPEN } := ⟨by simp [Event.landmark], fun _ => rfl⟩
    have h4 := Quiet.trans h3 h2
    split
    · rename_i s2 e heq
      rw [heq] at h4
      exact Quiet.trans h4 ⟨by simp [Failure, Event.landmark], fun _ => rfl⟩
    · rename_i s2 heq
      rw [heq] at h4
      exact h4

/-- The function `InternalOpen` records no landmark and keeps the pending command. -/
theorem Quiet_InternalOpen (env : Env) (f : AudioFormat) (p : Nat) (s : AudioOutputControl) :
    Quiet s (InternalOpen env f p s) := by
  unfold InternalOpen
  dsimp only
  have h1 : Quiet s (InternalEnable env { s with should_reopen := false }).2 :=
    Quiet.trans ⟨rfl, fun _ => rfl⟩ (Quiet_InternalEnable env _)
  split
  · rename_i s1 heq
    rw [heq] at h1
    exact h1
  · rename_i s1 heq
    rw [heq] at h1
    exact Quiet.trans h1 (Quiet_InternalOpen_enabled env f p s1)

theorem Quiet_emit (e : Event) (s : AudioOutputControl) (he : e.landmark = false) :
    Quiet s (emit e s) := ⟨by simp [he], fun _ => rfl⟩

theorem Quiet_of_eq {s s' : AudioOutputControl} (hl : s'.log = s.log)
    (hc : s'.command = s.command) : Quiet s s' := ⟨by rw [hl], fun _ => hc⟩

theorem Quiet_check (c : Bool) (a : Assertion) (s : AudioOutputControl)
    (ha : a ≠ Assertion.CommandFinished_command_not_NONE) : Quiet s (check c a s) :=
  ⟨marks_check c a s ha, fun _ => rfl⟩

/-- A wait in `WaitForDelay` records no landmark; a command that is pending stays. -/
theorem Quiet_WaitForDelay (ws : List WaitStep) (s : AudioOutputControl) :
    Quiet s (WaitForDelay ws s).1 := by
  induction ws generalizing s with
  | nil => exact Quiet.refl s
  | cons w ws ih =>
    unfold WaitForDelay
    split
    · exact Quiet.refl s
    · dsimp only
      split
      · have h1 : Quiet s (arrive w.arrival (emit Event.WakeCondWait s)) :=
          Quiet.trans (Quiet_emit _ _ (by rfl)) (Quiet_arrive _ _)
        split
        · exact h1
        · exact Quiet.trans h1 (ih _)
      · have h1 : Quiet s (arrive w.arrival (emit (Event.WakeCondWaitFor w.delay) s)) :=
          Quiet.trans (Quiet_emit _ _ (by rfl)) (Quiet_arrive _ _)
        split
        · exact h1
        · exact Quiet.trans h1 (ih _)

/-- The pause loop records no landmark and keeps a pending command. -/
theorem Quiet_InternalPause_loop (its : List PauseIter) (s : AudioOutputControl) :
    Quiet s (InternalPause_loop its s).1 := by
  induction its generalizing s with
  | nil => exact Quiet.refl s
  | cons it rest ih =>
    unfold InternalPause_loop
    have h1 := Quiet_WaitForDelay it.wait s
    split
    · rename_i s1 heq; rw [heq] at h1; exact h1
    · rename_i s1 heq; rw [heq] at h1; exact h1
    · rename_i s1 heq
      rw [heq] at h1
      have h2 : Quiet s (arrive it.arrival (emit Event.IteratePause s1)) :=
        Quiet.trans h1 (Quiet.trans (Quiet_emit _ _ (by rfl)) (Quiet_arrive _ _))
      dsimp only
      split
      · exact Quiet.trans h2 (Quiet_InternalClose false _)
      · split
        · exact Quiet.trans h2 (ih _)
        · exact h2

theorem Quiet_InternalPause_end (a : Option Command) (s : AudioOutputControl) :
    Quiet s (InternalPause_end a s) := by
  unfold InternalPause_end
  have h : Quiet s (arrive a (emit Event.EndPause { s with pause := false })) :=
    Quiet.trans (Quiet.trans (Quiet_of_eq rfl rfl) (Quiet_emit _ _ (by rfl))) (Quiet_arrive _ _)
  exact Quiet.trans h (Quiet_of_eq rfl rfl)

theorem Quiet_SourceCancel (s : AudioOutputControl) : Quiet s (SourceCancel s) :=
  ⟨by simp [SourceCancel, Event.landmark], fun _ => rfl⟩

theorem Quiet_FillSourceOrClose (now : Nat) (o : FillOutcome) (s : AudioOutputControl) :
    Quiet s (FillSourceOrClose now o s).2 := by
  unfold FillSourceOrClose
  dsimp only
  have h : Quiet s (arrive o.arrival (emit Event.SourceFill
      (check (decide (s.source_state = SourceState.OPEN))
        Assertion.FillSourceOrClose_source_OPEN s))) :=
    Quiet.trans (Quiet.trans (Quiet_check _ _ _ (by decide)) (Quiet_emit Event.SourceFill _ rfl))
      (Quiet_arrive _ _)
  split
  · exact Quiet.trans h (Quiet_of_eq rfl rfl)
  · exact Quiet.trans h (Quiet_InternalCloseError _ _ _)

theorem Quiet_PlayChunk_loop (now : Nat) (fs : AudioFormat → Nat) (its : List PlayIter)
    (s : AudioOutputControl) : Quiet s (PlayChunk_loop now fs its s).1 := by
  induction its generalizing s with
  | nil =>
    unfold PlayChunk_loop
    split
    · exact Quiet.refl s
    · dsimp only
      split <;> exact Quiet.refl s
  | cons it rest ih =>
    unfold PlayChunk_loop
    split
    · exact Quiet.refl s
    · dsimp only
      split
      · exact Quiet.refl s
      · have hw : Quiet s (if s.skip_delay = true then
            (({ s with skip_delay := false }, some true) : AudioOutputControl × Option Bool)
            else WaitForDelay it.wait s).1 := by
          split
          · exact Quiet_of_eq rfl rfl
          · exact Quiet_WaitForDelay _ _
        generalize (if s.skip_delay = true then
            (({ s with skip_delay := false }, some true) : AudioOutputControl × Option Bool)
            else WaitForDelay it.wait s) = r at hw ⊢
        obtain ⟨s1, o⟩ := r
        replace hw : Quiet s s1 := hw
        rcases o with _ | _ | _
        · exact hw
        · exact hw
        · dsimp only
          have hp : Quiet s (arrive it.arrival (emit (Event.Play s.source.pending) s1)) :=
            Quiet.trans hw (Quiet.trans (Quiet_emit _ _ (by rfl)) (Quiet_arrive _ _))
          split
          · exact Quiet.trans hp (Quiet_of_eq rfl rfl)
          · exact Quiet.trans hp (Quiet_InternalCloseError _ _ _)
          · refine Quiet.trans hp (Quiet.trans ?_ (ih _))
            exact ⟨by simp [Event.landmark], fun _ => rfl⟩


/-- The function `PlayChunk` records no landmark and keeps a pending command. -/
theorem Quiet_PlayChunk (now : Nat) (fs : AudioFormat → Nat) (c : ChunkScript)
    (s : AudioOutputControl) : Quiet s (PlayChunk now fs c s).1 := by
  unfold PlayChunk
  dsimp only
  have h0 : Quiet s { check (decide ((emit Event.PlayChunk s).source_state = SourceState.OPEN))
      Assertion.PlayChunk_source_OPEN (emit Event.PlayChunk s) with
      source := { (check (decide ((emit Event.PlayChunk s).source_state = SourceState.OPEN))
        Assertion.PlayChunk_source_OPEN (emit Event.PlayChunk s)).source with tag := none } } :=
    Quiet.trans (Quiet_emit Event.PlayChunk s (by rfl))
      (Quiet.trans (Quiet_check _ _ _ (by decide)) (Quiet_of_eq rfl rfl))
  split
  · have h1 := Quiet.trans h0 (Quiet.trans (Quiet_emit (Event.SendTag ‹Nat›) _ rfl)
      (Quiet_arrive c.tag_arrival _))
    split
    · exact Quiet.trans h1 (Quiet_of_eq rfl rfl)
    · exact Quiet.trans h1 (Quiet_PlayChunk_loop _ _ _ _)
  · exact Quiet.trans h0 (Quiet_PlayChunk_loop _ _ _ _)

theorem Quiet_InternalPlay_finish (a : Option Command) (s : AudioOutputControl) :
    Quiet s (InternalPlay_finish a s).1 := by
  unfold InternalPlay_finish
  exact Quiet.trans (Quiet.trans (Quiet.trans (Quiet_emit Event.ChunksConsumed _ rfl)
    (Quiet_arrive a _)) (Quiet_check _ _ _ (by decide))) (Quiet_of_eq rfl rfl)

/-- The drive loop of `InternalPlay` records no landmark and keeps a pending command. -/
theorem Quiet_InternalPlay_loop (now : Nat) (fs : AudioFormat → Nat) (fa : Option Command)
    (steps : List PlayStep) (n : Nat) (s : AudioOutputControl) :
    Quiet s (InternalPlay_loop now fs fa steps n s).1 := by
  induction steps generalizing n s with
  | nil =>
    unfold InternalPlay_loop
    split
    · exact Quiet.trans (Quiet_check _ _ _ (by decide)) (Quiet_of_eq rfl rfl)
    · exact Quiet.refl s
  | cons st rest ih =>
    unfold InternalPlay_loop
    split
    · exact Quiet.trans (Quiet_check _ _ _ (by decide)) (Quiet_of_eq rfl rfl)
    · dsimp only
      have hn : Quiet s (if n + 1 ≥ 64 then
          ((0, arrive st.consumed_arrival (emit Event.ChunksConsumed s)) : Nat × AudioOutputControl)
          else (n + 1, s)).2 := by
        split
        · exact Quiet.trans (Quiet_emit Event.ChunksConsumed _ rfl) (Quiet_arrive _ _)
        · exact Quiet.refl s
      generalize (if n + 1 ≥ 64 then
          ((0, arrive st.consumed_arrival (emit Event.ChunksConsumed s)) : Nat × AudioOutputControl)
          else (n + 1, s)) = r at hn ⊢
      obtain ⟨n1, s1⟩ := r
      replace hn : Quiet s s1 := hn
      dsimp only
      have hc := Quiet_PlayChunk now fs st.chunk s1
      generalize PlayChunk now fs st.chunk s1 = r at hc ⊢
      obtain ⟨s2, o⟩ := r
      replace hc : Quiet s s2 := Quiet.trans hn hc
      rcases o with _ | _ | _
      · exact hc
      · exact Quiet.trans hc (Quiet_InternalPlay_finish _ _)
      · dsimp only
        have hf := Quiet_FillSourceOrClose now st.fill s2
        generalize FillSourceOrClose now st.fill s2 = r at hf ⊢
        obtain ⟨b, s3⟩ := r
        replace hf : Quiet s s3 := Quiet.trans hc hf
        cases b
        · exact Quiet.trans hf (Quiet_InternalPlay_finish _ _)
        · exact Quiet.trans hf (ih _ _)

theorem Quiet_PlayFull (plays : List (Except Exception Nat)) (buffer : List Nat)
    (s : AudioOutputControl) : Quiet s (PlayFull plays buffer s).1 := by
  induction plays generalizing buffer s with
  | nil =>
    unfold PlayFull
    split <;> exact Quiet.refl s
  | cons r rest ih =>
    unfold PlayFull
    split
    · exact Quiet.refl s
    · dsimp only
      split
      · exact Quiet_emit _ _ rfl
      · exact Quiet.trans (Quiet.trans (Quiet_emit (Event.Play buffer) _ rfl)
          (Quiet_check _ _ _ (by decide))) (ih _ _)

/-- The flush loop of `InternalDrain` records no landmark and keeps the command. -/
theorem Quiet_InternalDrain_flush (steps : List FlushStep) (s : AudioOutputControl) :
    Quiet s (InternalDrain_flush steps s).1 := by
  induction steps generalizing s with
  | nil => exact Quiet.refl s
  | cons st rest ih =>
    unfold InternalDrain_flush
    dsimp only
    have h0 : Quiet s (emit Event.SourceFlush s) := Quiet_emit _ _ rfl
    split
    · exact h0
    · split
      · exact h0
      · rename_i buffer _ _
        have hp := Quiet_PlayFull st.plays buffer (emit Event.SourceFlush s)
        generalize PlayFull st.plays buffer (emit Event.SourceFlush s) = r at hp ⊢
        obtain ⟨s1, pr⟩ := r
        replace hp : Quiet s s1 := Quiet.trans h0 hp
        cases pr
        · exact hp
        · exact Quiet.trans hp (ih _)
        · exact hp

/-! ### Termination of the drain loops -/

/-- With results that suffice, `PlayFull` gets to its end or throws. -/
theorem PlayFull_not_running (plays : List (Except Exception Nat)) (buffer : List Nat)
    (s : AudioOutputControl) (h : playsSuffice plays buffer = true) :
    (PlayFull plays buffer s).2 ≠ Progress.running := by
  induction plays generalizing buffer s with
  | nil =>
    unfold PlayFull
    have : buffer = [] := by
      simp [playsSuffice] at h
      exact h
    subst this
    simp
  | cons r rest ih =>
    unfold PlayFull
    split
    · simp
    · rename_i hne
      dsimp only
      simp only [playsSuffice, List.all_cons, Bool.and_eq_true, decide_eq_true_eq,
        List.length_cons] at h
      obtain ⟨hlen, hr, hrest⟩ := h
      split
      · simp
      · rename_i n
        have hn : 0 < n := by simpa using hr
        apply ih
        simp only [playsSuffice, Bool.and_eq_true, decide_eq_true_eq, List.length_drop]
        refine ⟨by omega, hrest⟩

/-- With a script that reaches the end of the flush loop, the loop completes or throws. -/
theorem InternalDrain_flush_not_running (steps : List FlushStep) (s : AudioOutputControl)
    (h : flushEnds steps = true) : (InternalDrain_flush steps s).2 ≠ Progress.running := by
  induction steps generalizing s with
  | nil => simp [flushEnds] at h
  | cons st rest ih =>
    unfold InternalDrain_flush
    dsimp only
    unfold flushEnds at h
    split
    · simp
    · rename_i buffer hfl
      rw [hfl] at h
      dsimp only at h
      split
      · simp
      · rename_i hne
        simp only [hne, Bool.false_or, Bool.and_eq_true] at h
        have hp := PlayFull_not_running st.plays buffer (emit Event.SourceFlush s) h.1
        generalize PlayFull st.plays buffer (emit Event.SourceFlush s) = r at hp ⊢
        obtain ⟨s1, pr⟩ := r
        cases pr
        · exact absurd rfl hp
        · exact ih s1 h.2
        · simp

/-! ### Acknowledgements -/

theorem acknowledgements_marks (l : List Event) :
    acknowledgements (marks l) = acknowledgements l := by
  unfold acknowledgements marks
  rw [List.filter_filter]
  congr 1
  funext e
  cases e <;> simp [Event.landmark]
  rename_i a
  cases a <;> simp [Event.landmark]

theorem acknowledgements_of_marks {l l' m : List Event} (h : marks l' = marks l ++ m) :
    acknowledgements l' = acknowledgements l ++ acknowledgements m := by
  rw [← acknowledgements_marks l', h, ← acknowledgements_marks l]
  simp [acknowledgements]

theorem marks_CommandFinished (s : AudioOutputControl) (h : s.command ≠ Command.NONE) :
    marks (CommandFinished s).log = marks s.log ++ [Event.CommandFinished s.command] := by
  simp [CommandFinished, check, h, Event.landmark]

theorem CommandFinished_command (s : AudioOutputControl) :
    (CommandFinished s).command = Command.NONE := rfl

theorem marks_finish {s s' : AudioOutputControl} (hq : Quiet s s') (h : s.command ≠ Command.NONE) :
    marks (CommandFinished s').log = marks s.log ++ [Event.CommandFinished s.command] := by
  have hc := hq.2 h
  rw [marks_CommandFinished s' (by rw [hc]; exact h), hq.1, hc]

theorem marks_InternalPause (p : PauseScript) (s : AudioOutputControl)
    (h : s.command ≠ Command.NONE) :
    marks (InternalPause p s).1.log
      = marks s.log ++ [Event.Call Fn.InternalPause, Event.CommandFinished s.command] := by
  have hb : marks (InternalPause_begin s).log
      = marks s.log ++ [Event.Call Fn.InternalPause, Event.CommandFinished s.command] := by
    simp [InternalPause_begin, CommandFinished, check, h, Event.landmark]
  unfold InternalPause
  have hl := Quiet_InternalPause_loop p.iters (InternalPause_begin s)
  generalize InternalPause_loop p.iters (InternalPause_begin s) = r at hl ⊢
  obtain ⟨s1, b⟩ := r
  cases b
  · exact hl.1.trans hb
  · exact ((Quiet_InternalPause_end _ _).1.trans hl.1).trans hb

theorem marks_InternalDrain_begin (s : AudioOutputControl) :
    marks (InternalDrain_begin s).log = marks s.log ++ [Event.Call Fn.InternalDrain]
    ∧ (InternalDrain_begin s).command = s.command := by
  constructor
  · simp [InternalDrain_begin, Event.landmark]
  · rfl

theorem Quiet_InternalDrain (now : Nat) (d : DrainScript) (s : AudioOutputControl) :
    Quiet (InternalDrain_begin s) (InternalDrain now d s).1 := by
  unfold InternalDrain
  have hf := Quiet_InternalDrain_flush d.steps (InternalDrain_begin s)
  generalize InternalDrain_flush d.steps (InternalDrain_begin s) = r at hf ⊢
  obtain ⟨s1, pr⟩ := r
  cases pr
  · exact hf
  · dsimp only
    split
    · exact Quiet.trans hf (Quiet.trans (Quiet_emit Event.Drain _ rfl) (Quiet_InternalCloseError _ _ _))
    · exact Quiet.trans hf (Quiet_emit Event.Drain _ rfl)
  · exact Quiet.trans hf (Quiet_InternalCloseError _ _ _)

theorem InternalDrain_returns (now : Nat) (d : DrainScript) (s : AudioOutputControl) :
    (InternalDrain now d s).2 = false ↔
      (InternalDrain_flush d.steps (InternalDrain_begin s)).2 = Progress.running := by
  unfold InternalDrain
  generalize InternalDrain_flush d.steps (InternalDrain_begin s) = r
  obtain ⟨s1, pr⟩ := r
  cases pr
  · simp
  · dsimp only
    split <;> simp
  · simp

theorem marks_finish' {s s' : AudioOutputControl} {c : Command} (hq : Quiet s s')
    (hc : s.command = c) (h : c ≠ Command.NONE) :
    marks (CommandFinished s').log = marks s.log ++ [Event.CommandFinished c] := by
  subst hc
  exact marks_finish hq h

theorem acks_step {l l' X : List Event} {e : Event} (hm : marks l' = marks l ++ X)
    (hX : acknowledgements X = [e]) : acknowledgements l' = acknowledgements l ++ [e] := by
  rw [acknowledgements_of_marks hm, hX]

theorem acks_InternalPause (p : PauseScript) (s : AudioOutputControl)
    (h : s.command ≠ Command.NONE) :
    acknowledgements (InternalPause p s).1.log
      = acknowledgements s.log ++ [Event.CommandFinished s.command] :=
  acks_step (marks_InternalPause p s h) rfl

theorem acks_Task_PAUSE (w : WorkerScript) (s : AudioOutputControl)
    (h : s.command ≠ Command.NONE) :
    acknowledgements (Task_PAUSE w s).1.log
      = acknowledgements s.log ++ [Event.CommandFinished s.command] := by
  unfold Task_PAUSE
  split
  · exact acks_step (marks_finish (Quiet.refl s) h) rfl
  · have := acks_InternalPause w.pause { s with caught_interrupted := false } h
    dsimp only
    generalize InternalPause w.pause { s with caught_interrupted := false } = r at this ⊢
    obtain ⟨s1, b⟩ := r
    cases b <;> exact this

theorem acks_Task_RELEASE (w : WorkerScript) (s : AudioOutputControl)
    (h : s.command ≠ Command.NONE) :
    acknowledgements (Task_RELEASE w s).1.log
      = acknowledgements s.log ++ [Event.CommandFinished s.command] := by
  unfold Task_RELEASE
  split
  · exact acks_step (marks_finish (Quiet.refl s) h) rfl
  · dsimp only
    split
    · have q : Quiet s (if s.source_state = SourceState.OPEN
          then SourceCancel { s with caught_interrupted := false }
          else { s with caught_interrupted := false }) := by
        split
        · exact Quiet.trans (Quiet_of_eq rfl rfl) (Quiet_SourceCancel _)
        · exact Quiet_of_eq rfl rfl
      generalize (if s.source_state = SourceState.OPEN
          then SourceCancel { s with caught_interrupted := false }
          else { s with caught_interrupted := false }) = s0 at q ⊢
      have hc0 := q.2 h
      have := marks_InternalPause w.pause s0 (by rw [hc0]; exact h)
      rw [q.1, hc0] at this
      generalize InternalPause w.pause s0 = r at this ⊢
      obtain ⟨s1, b⟩ := r
      cases b <;> exact acks_step this rfl
    · have q : Quiet s (InternalClose false { s with caught_interrupted := false }) :=
        Quiet.trans (Quiet_of_eq rfl rfl) (Quiet_InternalClose false _)
      exact acks_step (marks_finish q h) rfl

theorem acks_Task_CANCEL (s : AudioOutputControl) (h : s.command ≠ Command.NONE) :
    acknowledgements (Task_CANCEL s).1.log
      = acknowledgements s.log ++ [Event.CommandFinished s.command] := by
  unfold Task_CANCEL
  dsimp only
  have q1 : Quiet s (if s.source_state = SourceState.OPEN
      then SourceCancel { s with caught_interrupted := false }
      else { s with caught_interrupted := false }) := by
    split
    · exact Quiet.trans (Quiet_of_eq rfl rfl) (Quiet_SourceCancel _)
    · exact Quiet_of_eq rfl rfl
  generalize (if s.source_state = SourceState.OPEN
      then SourceCancel { s with caught_interrupted := false }
      else { s with caught_interrupted := false }) = s0 at q1 ⊢
  have q2 : Quiet s0 (if s0.open_ = true then emit Event.Cancel { s0 with playing := false }
      else s0) := by
    split
    · exact Quiet.trans (Quiet_of_eq rfl rfl) (Quiet_emit _ _ rfl)
    · exact Quiet.refl _
  exact acks_step (marks_finish (Quiet.trans q1 q2) h) rfl

theorem acks_Task_KILL (s : AudioOutputControl) (h : s.command ≠ Command.NONE) :
    acknowledgements (Task_KILL s).1.log
      = acknowledgements s.log ++ [Event.CommandFinished s.command] := by
  unfold Task_KILL
  dsimp only
  have q1 := Quiet_InternalDisable s
  generalize InternalDisable s = s0 at q1 ⊢
  have q2 : Quiet s0 (if s0.source_state = SourceState.OPEN then SourceCancel s0 else s0) := by
    split
    · exact Quiet_SourceCancel _
    · exact Quiet.refl _
  exact acks_step (marks_finish (Quiet.trans q1 q2) h) rfl

theorem acks_Task_DRAIN (w : WorkerScript) (s : AudioOutputControl)
    (h : s.command ≠ Command.NONE) :
    (acknowledgements (Task_DRAIN w s).1.log
        = acknowledgements s.log ++ [Event.CommandFinished s.command]
      ∧ (Task_DRAIN w s).1.command = Command.NONE)
    ∨ (s.open_ = true
      ∧ (InternalDrain_flush w.drain.steps (InternalDrain_begin s)).2 = Progress.running
      ∧ (Task_DRAIN w s).2 = Outcome.running
      ∧ acknowledgements (Task_DRAIN w s).1.log = acknowledgements s.log) := by
  unfold Task_DRAIN
  split
  · rename_i ho
    have q := Quiet_InternalDrain w.env.now w.drain s
    have hr := InternalDrain_returns w.env.now w.drain s
    have hb := marks_InternalDrain_begin s
    generalize InternalDrain w.env.now w.drain s = r at q hr ⊢
    obtain ⟨s1, b⟩ := r
    have hc1 : s1.command = s.command := (q.2 (by rw [hb.2]; exact h)).trans hb.2
    have hm1 : marks s1.log = marks s.log ++ [Event.Call Fn.InternalDrain] := by
      rw [q.1, hb.1]
    cases b
    · right
      exact ⟨ho, hr.1 rfl, rfl, by simpa [acknowledgements] using acknowledgements_of_marks hm1⟩
    · left
      have : marks (CommandFinished s1).log = marks s.log ++
          [Event.Call Fn.InternalDrain, Event.CommandFinished s.command] := by
        rw [marks_CommandFinished s1 (by rw [hc1]; exact h), hm1, hc1]; simp
      exact ⟨acks_step this rfl, rfl⟩
  · left
    exact ⟨acks_step (marks_finish (Quiet.refl s) h) rfl, rfl⟩

/-- One round on a pending command acknowledges it exactly once, unless a DRAIN is still
inside its flush loop. -/
theorem Task_step_acknowledges (w : WorkerScript) (s : AudioOutputControl) (h : s.command ≠ Command.NONE) :
    (acknowledgements (Task_step w s).1.log
        = acknowledgements s.log ++ [Event.CommandFinished s.command]
      ∧ (Task_step w.untilFinished s).1.command = Command.NONE)
    ∨ (s.command = Command.DRAIN ∧ s.open_ = true
      ∧ (InternalDrain_flush w.drain.steps (InternalDrain_begin s)).2 = Progress.running
      ∧ (Task_step w s).2 = Outcome.running
      ∧ acknowledgements (Task_step w s).1.log = acknowledgements s.log) := by
  unfold Task_step
  split
  · rename_i hc; exact absurd hc h
  · exact Or.inl ⟨acks_step (marks_finish (Quiet_InternalEnable _ _) h) rfl, rfl⟩
  · exact Or.inl ⟨acks_step (marks_finish (Quiet_InternalDisable _) h) rfl, rfl⟩
  · exact Or.inl ⟨acks_step (marks_finish (Quiet_InternalOpen _ _ _ _) h) rfl, rfl⟩
  · exact Or.inl ⟨acks_step (marks_finish (Quiet_InternalCheckClose _ _) h) rfl, rfl⟩
  · refine Or.inl ⟨acks_Task_PAUSE w s h, ?_⟩
    unfold Task_PAUSE
    split
    · rfl
    · rfl
  · refine Or.inl ⟨acks_Task_RELEASE w s h, ?_⟩
    unfold Task_RELEASE
    split
    · rfl
    · dsimp only
      split
      · rfl
      · rfl
  · rename_i hc
    rcases acks_Task_DRAIN w s h with h1 | h1
    · exact Or.inl ⟨h1.1, h1.2⟩
    · exact Or.inr ⟨hc, h1⟩
  · exact Or.inl ⟨acks_Task_CANCEL s h, rfl⟩
  · exact Or.inl ⟨acks_Task_KILL s h, rfl⟩

/-- The head of `InternalPause` ends with the acknowledgement. -/
theorem InternalPause_begin_eq (s : AudioOutputControl) :
    InternalPause_begin s = CommandFinished (InternalPause_entered s) := rfl

/-- A quiet step adds no acknowledgement. -/
theorem acks_of_Quiet {s t : AudioOutputControl} (q : Quiet s t) :
    acknowledgements t.log = acknowledgements s.log := by
  have := @acknowledgements_of_marks s.log t.log [] (by simpa using q.1)
  simpa [acknowledgements] using this

/-- What is left of `InternalPause` after the acknowledgement adds no
acknowledgement. -/
theorem InternalPause_rest_acks (p : PauseScript) (s : AudioOutputControl) :
    InternalPause p s
      = (match InternalPause_loop p.iters (CommandFinished (InternalPause_entered s)) with
        | (s1, false) => (s1, false)
        | (s1, true) => (InternalPause_end p.end_arrival s1, true))
    ∧ acknowledgements (InternalPause p s).1.log
        = acknowledgements (CommandFinished (InternalPause_entered s)).log := by
  refine ⟨rfl, ?_⟩
  unfold InternalPause
  rw [InternalPause_begin_eq]
  have hl := Quiet_InternalPause_loop p.iters (CommandFinished (InternalPause_entered s))
  generalize InternalPause_loop p.iters (CommandFinished (InternalPause_entered s)) = r at hl ⊢
  obtain ⟨s1, b⟩ := r
  cases b
  · exact acks_of_Quiet hl
  · exact acks_of_Quiet (Quiet.trans hl (Quiet_InternalPause_end _ _))

/-- The handlers that acknowledge at their end: the state after the round is
`CommandFinished t`, where nothing has been acknowledged in `t`. -/
theorem Task_step_acknowledges_last (w : WorkerScript) (s : AudioOutputControl)
    (h : s.command ≠ Command.NONE) (hP : s.command ≠ Command.PAUSE)
    (hR : ¬ (s.command = Command.RELEASE ∧ s.open_ = true ∧ s.always_on = true))
    (hrun : (Task_step w s).2 ≠ Outcome.running) :
    ∃ t, acknowledgements t.log = acknowledgements s.log ∧ t.command = s.command
      ∧ (Task_step w s).1 = CommandFinished t := by
  unfold Task_step at hrun ⊢
  split at hrun
  · rename_i hc; exact absurd hc h
  · have q := Quiet_InternalEnable w.env s
    exact ⟨_, acks_of_Quiet q, q.2 h, rfl⟩
  · have q := Quiet_InternalDisable s
    exact ⟨_, acks_of_Quiet q, q.2 h, rfl⟩
  · have q := Quiet_InternalOpen w.env s.request_audio_format s.request_pipe s
    exact ⟨_, acks_of_Quiet q, q.2 h, rfl⟩
  · have q := Quiet_InternalCheckClose false s
    exact ⟨_, acks_of_Quiet q, q.2 h, rfl⟩
  · rename_i hc; exact absurd hc hP
  · rename_i hc
    unfold Task_RELEASE
    by_cases ho : s.open_ = true
    · have ha : s.always_on = false := by
        cases hao : s.always_on
        · rfl
        · exact absurd ⟨hc, ho, hao⟩ hR
      have q : Quiet s (InternalClose false { s with caught_interrupted := false }) :=
        Quiet.trans (Quiet_of_eq rfl rfl) (Quiet_InternalClose false _)
      refine ⟨_, acks_of_Quiet q, q.2 h, ?_⟩
      simp [ho, ha]
    · have ho' : s.open_ = false := by simpa using ho
      exact ⟨s, rfl, rfl, by simp [ho']⟩
  · unfold Task_DRAIN at hrun ⊢
    split at hrun
    · rename_i ho
      rw [if_pos ho]
      have q := Quiet_InternalDrain w.env.now w.drain s
      have hb := marks_InternalDrain_begin s
      generalize InternalDrain w.env.now w.drain s = r at q hrun ⊢
      obtain ⟨s1, b⟩ := r
      cases b
      · exact absurd rfl hrun
      · have hc1 : s1.command = s.command := (q.2 (by rw [hb.2]; exact h)).trans hb.2
        have hm1 : marks s1.log = marks s.log ++ [Event.Call Fn.InternalDrain] := by
          rw [q.1, hb.1]
        refine ⟨s1, ?_, hc1, rfl⟩
        simpa [acknowledgements] using acknowledgements_of_marks hm1
    · rename_i ho
      rw [if_neg ho]
      exact ⟨s, rfl, rfl, rfl⟩
  · unfold Task_CANCEL
    dsimp only
    have q1 : Quiet s (if s.source_state = SourceState.OPEN
        then SourceCancel { s with caught_interrupted := false }
        else { s with caught_interrupted := false }) := by
      split
      · exact Quiet.trans (Quiet_of_eq rfl rfl) (Quiet_SourceCancel _)
      · exact Quiet_of_eq rfl rfl
    generalize (if s.source_state = SourceState.OPEN
        then SourceCancel { s with caught_interrupted := false }
        else { s with caught_interrupted := false }) = s0 at q1 ⊢
    have q2 : Quiet s0 (if s0.open_ = true then emit Event.Cancel { s0 with playing := false }
        else s0) := by
      split
      · exact Quiet.trans (Quiet_of_eq rfl rfl) (Quiet_emit _ _ rfl)
      · exact Quiet.refl _
    have q := Quiet.trans q1 q2
    exact ⟨_, acks_of_Quiet q, q.2 h, rfl⟩
  · unfold Task_KILL
    dsimp only
    have q1 := Quiet_InternalDisable s
    generalize InternalDisable s = s0 at q1 ⊢
    have q2 : Quiet s0 (if s0.source_state = SourceState.OPEN then SourceCancel s0 else s0) := by
      split
      · exact Quiet_SourceCancel _
      · exact Quiet.refl _
    have q := Quiet.trans q1 q2
    exact ⟨_, acks_of_Quiet q, q.2 h, rfl⟩

/-- PAUSE and RELEASE on an output that is not open are acknowledged at once. -/
theorem Task_step_acknowledges_at_once (w : WorkerScript) (s : AudioOutputControl)
    (hc : s.command = Command.PAUSE ∨ s.command = Command.RELEASE) (ho : s.open_ = false) :
    Task_step w s = (CommandFinished s, Outcome.looped) := by
  unfold Task_step
  rcases hc with hc | hc <;> rw [hc]
  · simp [Task_PAUSE, ho]
  · simp [Task_RELEASE, ho]

/-- PAUSE and always-on RELEASE on an open output are acknowledged inside
`InternalPause`: the round is the loop and the tail of `InternalPause` on the
state that `CommandFinished` leaves after `BeginPause`. -/
theorem Task_step_acknowledges_inside (w : WorkerScript) (s : AudioOutputControl)
    (hc : s.command = Command.PAUSE ∨ (s.command = Command.RELEASE ∧ s.always_on = true))
    (ho : s.open_ = true) :
    Task_step w s
      = (match InternalPause_loop w.pause.iters
            (CommandFinished (InternalPause_entered (pauseEntry s))) with
        | (s1, false) => (s1, Outcome.running)
        | (s1, true) => (InternalPause_end w.pause.end_arrival s1, Outcome.looped))
    ∧ Task_step w.untilFinished s
        = (CommandFinished (InternalPause_entered (pauseEntry s)), Outcome.running)
    ∧ acknowledgements (Task_step w s).1.log
        = acknowledgements (CommandFinished (InternalPause_entered (pauseEntry s))).log := by
  have key : ∀ w' : WorkerScript, Task_step w' s
      = (match InternalPause w'.pause (pauseEntry s) with
        | (s1, true) => (s1, Outcome.looped)
        | (s1, false) => (s1, Outcome.running)) := by
    intro w'
    unfold Task_step
    rcases hc with hc | ⟨hc, ha⟩
    · rw [hc]
      have hpe : pauseEntry s = { s with caught_interrupted := false } := by
        unfold pauseEntry
        rw [if_neg (fun hx => by rw [hc] at hx; exact absurd hx.1 (by decide))]
      rw [hpe]
      unfold Task_PAUSE
      rw [if_neg (by rw [ho]; decide)]
    · rw [hc]
      unfold Task_RELEASE
      rw [if_neg (by rw [ho]; decide)]
      dsimp only
      rw [if_pos ha]
      by_cases hs : s.source_state = SourceState.OPEN
      · have hpe : pauseEntry s = SourceCancel { s with caught_interrupted := false } := by
          unfold pauseEntry
          rw [if_pos ⟨hc, hs⟩]
        rw [hpe, if_pos hs]
      · have hpe : pauseEntry s = { s with caught_interrupted := false } := by
          unfold pauseEntry
          rw [if_neg (fun hx => hs hx.2)]
        rw [hpe, if_neg hs]
  have hr := InternalPause_rest_acks w.pause (pauseEntry s)
  refine ⟨?_, ?_, ?_⟩
  · rw [key w, hr.1]
    generalize InternalPause_loop w.pause.iters
      (CommandFinished (InternalPause_entered (pauseEntry s))) = r
    obtain ⟨s1, b⟩ := r
    cases b <;> rfl
  · rw [key w.untilFinished]
    rfl
  · rw [key w]
    have := hr.2
    generalize InternalPause w.pause (pauseEntry s) = r at this ⊢
    obtain ⟨s1, b⟩ := r
    cases b <;> exact this

/-- C5: one round of the worker loop on a pending command (any command other
than NONE, any controller state, any behaviour of the collaborators) calls
`CommandFinished` exactly once and for that command, and the assertion
`command != NONE` inside it does not fail: the acknowledgement events of the
round are exactly `[CommandFinished command]`, and the mailbox is NONE when the
worker is observed up to the acknowledgement. The only round that has not
acknowledged is a DRAIN on an open output whose flush loop in `InternalDrain` is
still running at the end of the script; it does not occur when the script
reaches the end of the flush loop. The acknowledgement is where the claim says.
For ENABLE, DISABLE, OPEN, CLOSE, DRAIN, CANCEL, KILL and RELEASE on an open
output that is not always on, it is the last thing the handler does: the state
after the round is `CommandFinished t`, and in `t` the command is still in the
mailbox and nothing has been acknowledged. PAUSE and RELEASE on an output that
is not open are acknowledged at once: the state after the round is
`CommandFinished s`. PAUSE and always-on RELEASE on an open output are
acknowledged inside `InternalPause`, right after `BeginPause` and `pause = true`;
the rest of the round is the loop and the tail of `InternalPause` on the state
that `CommandFinished` has left, and adds no acknowledgement. -/
theorem C5_Task_step_acknowledges_once (w : WorkerScript) (s : AudioOutputControl)
    (h : s.command ≠ Command.NONE) :
    ((acknowledgements (Task_step w s).1.log
          = acknowledgements s.log ++ [Event.CommandFinished s.command]
        ∧ (Task_step w.untilFinished s).1.command = Command.NONE)
      ∨ (s.command = Command.DRAIN ∧ s.open_ = true
        ∧ (InternalDrain_flush w.drain.steps (InternalDrain_begin s)).2 = Progress.running
        ∧ (Task_step w s).2 = Outcome.running
        ∧ acknowledgements (Task_step w s).1.log = acknowledgements s.log))
    ∧ (flushEnds w.drain.steps = true →
        acknowledgements (Task_step w s).1.log
          = acknowledgements s.log ++ [Event.CommandFinished s.command]
        ∧ (Task_step w.untilFinished s).1.command = Command.NONE)
    ∧ (s.command ≠ Command.PAUSE →
        ¬ (s.command = Command.RELEASE ∧ s.open_ = true ∧ s.always_on = true) →
        (Task_step w s).2 ≠ Outcome.running →
        ∃ t, acknowledgements t.log = acknowledgements s.log ∧ t.command = s.command
          ∧ (Task_step w s).1 = CommandFinished t
          ∧ (Task_step w s).1.log = t.log ++ [Event.CommandFinished s.command]
          ∧ (Task_step w s).1.command = Command.NONE)
    ∧ ((s.command = Command.PAUSE ∨ s.command = Command.RELEASE) → s.open_ = false →
        Task_step w s = (CommandFinished s, Outcome.looped)
        ∧ (Task_step w s).1.log = s.log ++ [Event.CommandFinished s.command])
    ∧ ((s.command = Command.PAUSE ∨ (s.command = Command.RELEASE ∧ s.always_on = true)) →
        s.open_ = true →
        (InternalPause_entered (pauseEntry s)).log
            = s.log
              ++ (if s.command = Command.RELEASE ∧ s.source_state = SourceState.OPEN
                  then [Event.SourceCancel] else [])
              ++ [Event.Call Fn.InternalPause, Event.BeginPause]
        ∧ (InternalPause_entered (pauseEntry s)).pause = true
        ∧ (InternalPause_entered (pauseEntry s)).command = s.command
        ∧ Task_step w.untilFinished s
            = (CommandFinished (InternalPause_entered (pauseEntry s)), Outcome.running)
        ∧ Task_step w s
            = (match InternalPause_loop w.pause.iters
                  (CommandFinished (InternalPause_entered (pauseEntry s))) with
              | (s1, false) => (s1, Outcome.running)
              | (s1, true) => (InternalPause_end w.pause.end_arrival s1, Outcome.looped))
        ∧ acknowledgements (Task_step w s).1.log
            = acknowledgements (CommandFinished (InternalPause_entered (pauseEntry s))).log) := by
  have main := Task_step_acknowledges w s h
  refine ⟨main, fun hf => ?_, fun hP hR hrun => ?_, fun hc ho => ?_, fun hc ho => ?_⟩
  · rcases main with h1 | h1
    · exact h1
    · exact absurd h1.2.2.1 (InternalDrain_flush_not_running _ _ hf)
  · obtain ⟨t, h1, h2, h3⟩ := Task_step_acknowledges_last w s h hP hR hrun
    refine ⟨t, h1, h2, h3, ?_, ?_⟩
    · rw [h3]
      simp [CommandFinished, check, emit, h2, h]
    · rw [h3]
      rfl
  · have h1 := Task_step_acknowledges_at_once w s hc ho
    refine ⟨h1, ?_⟩
    rw [h1]
    simp [CommandFinished, check, emit, h]
  · have hi := Task_step_acknowledges_inside w s hc ho
    refine ⟨?_, rfl, ?_, hi.2.1, hi.1, hi.2.2⟩
    · unfold pauseEntry
      split
      · simp [InternalPause_entered, SourceCancel, emit]
      · simp [InternalPause_entered, emit]
    · unfold pauseEntry
      split
      · simp [InternalPause_entered, SourceCancel, emit]
      · simp [InternalPause_entered, emit]

/-! ### Drain -/

/-- The function `PlayFull` changes nothing but the log. -/
theorem PlayFull_fields (plays : List (Except Exception Nat)) (buffer : List Nat)
    (s : AudioOutputControl) :
    withoutLog (PlayFull plays buffer s).1 = withoutLog s := by
  induction plays generalizing buffer s with
  | nil =>
    unfold PlayFull
    split <;> rfl
  | cons r rest ih =>
    unfold PlayFull
    split
    · rfl
    · dsimp only
      split
      · rfl
      · exact (ih _ _).trans rfl

/-- The flush loop of `InternalDrain` changes nothing but the log. -/
theorem InternalDrain_flush_fields (steps : List FlushStep) (s : AudioOutputControl) :
    withoutLog (InternalDrain_flush steps s).1 = withoutLog s := by
  induction steps generalizing s with
  | nil => rfl
  | cons st rest ih =>
    unfold InternalDrain_flush
    dsimp only
    split
    · rfl
    · split
      · rfl
      · rename_i buffer _ _
        have hp := PlayFull_fields st.plays buffer (emit Event.SourceFlush s)
        generalize PlayFull st.plays buffer (emit Event.SourceFlush s) = r at hp ⊢
        obtain ⟨s1, pr⟩ := r
        replace hp : withoutLog s1 = withoutLog s := hp.trans rfl
        cases pr
        · exact hp
        · exact (ih s1).trans hp
        · exact hp

/-- What `InternalDrain` leaves behind when it returns. -/
theorem InternalDrain_spec (now : Nat) (d : DrainScript) (s : AudioOutputControl)
    (hdone : (InternalDrain now d s).2 = true) :
    (InternalDrain now d s).1.should_reopen = true
    ∧ (InternalDrain now d s).1.playing = false
    ∧ (InternalDrain now d s).1.command = s.command
    ∧ (InternalDrain now d s).1.thread = s.thread
    ∧ (InternalDrain now d s).1.killed = s.killed
    ∧ (InternalDrain now d s).1.pause = s.pause
    ∧ ((InternalDrain_flush d.steps (InternalDrain_begin s)).2 = Progress.completed →
        d.drain = none →
        (InternalDrain now d s).1.open_ = s.open_
        ∧ (InternalDrain now d s).1.source_state = SourceState.FLUSHED
        ∧ (InternalDrain now d s).1.fail_timer = s.fail_timer)
    ∧ (∀ e, (InternalDrain_flush d.steps (InternalDrain_begin s)).2 = Progress.threw e
          ∨ ((InternalDrain_flush d.steps (InternalDrain_begin s)).2 = Progress.completed
            ∧ d.drain = some e) →
        (InternalDrain now d s).1.open_ = false
        ∧ (InternalDrain now d s).1.source_state = SourceState.CLOSED
        ∧ (InternalDrain now d s).1.fail_timer.last = some now
        ∧ (InternalDrain now d s).1.last_error = some e) := by
  have hf := InternalDrain_flush_fields d.steps (InternalDrain_begin s)
  unfold InternalDrain at hdone ⊢
  generalize InternalDrain_flush d.steps (InternalDrain_begin s) = r at hf hdone ⊢
  obtain ⟨s1, pr⟩ := r
  replace hf : withoutLog s1 = withoutLog (InternalDrain_begin s) := hf
  have f1 : s1.should_reopen = true := by
    simpa [withoutLog, InternalDrain_begin, check, emit] using congrArg AudioOutputControl.should_reopen hf
  have f2 : s1.playing = false := by
    simpa [withoutLog, InternalDrain_begin, check, emit] using congrArg AudioOutputControl.playing hf
  have f3 : s1.command = s.command := by
    simpa [withoutLog, InternalDrain_begin, check, emit] using congrArg AudioOutputControl.command hf
  have f4 : s1.thread = s.thread := by
    simpa [withoutLog, InternalDrain_begin, check, emit] using congrArg AudioOutputControl.thread hf
  have f5 : s1.killed = s.killed := by
    simpa [withoutLog, InternalDrain_begin, check, emit] using congrArg AudioOutputControl.killed hf
  have f6 : s1.pause = s.pause := by
    simpa [withoutLog, InternalDrain_begin, check, emit] using congrArg AudioOutputControl.pause hf
  have f7 : s1.open_ = s.open_ := by
    simpa [withoutLog, InternalDrain_begin, check, emit] using congrArg AudioOutputControl.open_ hf
  have f8 : s1.source_state = SourceState.FLUSHED := by
    simpa [withoutLog, InternalDrain_begin, check, emit] using congrArg AudioOutputControl.source_state hf
  have f9 : s1.fail_timer = s.fail_timer := by
    simpa [withoutLog, InternalDrain_begin, check, emit] using congrArg AudioOutputControl.fail_timer hf
  have hce : ∀ (e : Exception) (t : AudioOutputControl),
      (InternalCloseError e now t).should_reopen = t.should_reopen
      ∧ (InternalCloseError e now t).playing = t.playing
      ∧ (InternalCloseError e now t).command = t.command
      ∧ (InternalCloseError e now t).thread = t.thread
      ∧ (InternalCloseError e now t).killed = t.killed
      ∧ (InternalCloseError e now t).pause = t.pause
      ∧ (InternalCloseError e now t).open_ = false
      ∧ (InternalCloseError e now t).source_state = SourceState.CLOSED
      ∧ (InternalCloseError e now t).fail_timer.last = some now
      ∧ (InternalCloseError e now t).last_error = some e :=
    fun e t => by simp [InternalCloseError, InternalClose, Failure, check, emit, PeriodClock.Update]
  cases pr
  · simp at hdone
  · dsimp only
    cases hd : d.drain with
    | none =>
      exact ⟨f1, f2, f3, f4, f5, f6, fun _ _ => ⟨f7, f8, f9⟩, fun e he => by simp at he⟩
    | some e0 =>
      obtain ⟨g1, g2, g3, g4, g5, g6, g7, g8, g9, g10⟩ := hce e0 (emit Event.Drain s1)
      dsimp only
      refine ⟨g1.trans f1, g2.trans f2, g3.trans f3, g4.trans f4, g5.trans f5, g6.trans f6,
        fun _ h => by simp at h, fun e he => ?_⟩
      have : e0 = e := by simpa using he
      subst this
      exact ⟨g7, g8, g9, g10⟩
  · rename_i e0
    obtain ⟨g1, g2, g3, g4, g5, g6, g7, g8, g9, g10⟩ := hce e0 s1
    dsimp only
    refine ⟨g1.trans f1, g2.trans f2, g3.trans f3, g4.trans f4, g5.trans f5, g6.trans f6,
      fun h => by simp at h, fun e he => ?_⟩
    have : e0 = e := by simpa using he
    subst this
    exact ⟨g7, g8, g9, g10⟩

/-! ### Waiting for the worker -/

theorem InternalCheckClose_open_ (d : Bool) (s : AudioOutputControl) :
    (InternalCheckClose d s).open_ = false := by
  unfold InternalCheckClose
  split
  · rfl
  · rename_i h; simpa [IsOpen] using h

theorem Task_step_OPEN (w : WorkerScript) (s : AudioOutputControl)
    (hc : s.command = Command.OPEN) :
    marks (Task_step w s).1.log = marks s.log ++ [Event.CommandFinished Command.OPEN]
    ∧ (Task_step w s).2 = Outcome.looped := by
  unfold Task_step
  rw [hc]
  refine ⟨?_, rfl⟩
  dsimp only
  have q := Quiet_InternalOpen w.env s.request_audio_format s.request_pipe s
  exact marks_finish' q hc (by decide)


theorem Open_begin_fields (f : AudioFormat) (mp : Nat) (s : AudioOutputControl) :
    (Open_begin f mp s).open_ = s.open_ ∧ (Open_begin f mp s).thread = s.thread
    ∧ (Open_begin f mp s).killed = s.killed ∧ (Open_begin f mp s).pause = s.pause
    ∧ (Open_begin f mp s).should_reopen = s.should_reopen
    ∧ (Open_begin f mp s).command = s.command
    ∧ marks (Open_begin f mp s).log = marks s.log ++ [Event.Call Fn.Open] := by
  unfold Open_begin
  dsimp only
  split
  · exact ⟨by simp [check, emit], by simp [check, emit], by simp [check, emit],
      by simp [check, emit], by simp [check, emit], by simp [check, emit],
      by simp [Event.landmark]⟩
  · exact ⟨by simp [check, emit], by simp [check, emit], by simp [check, emit],
      by simp [check, emit], by simp [check, emit], by simp [check, emit],
      by simp [Event.landmark]⟩

theorem CommandWait_OPEN_posts (w : WorkerScript) (s : AudioOutputControl)
    (ht : s.thread = true) (hk : s.killed = false) (hp : s.pause = false) :
    ∃ s', CommandWait w Command.OPEN s = some s'
      ∧ marks s'.log = marks s.log ++ [Event.CommandFinished Command.OPEN] := by
  unfold CommandWait
  dsimp only
  have e1 : (CommandAsync Command.OPEN s).thread = true := ht
  have e2 : (CommandAsync Command.OPEN s).killed = false := hk
  have e3 : (CommandAsync Command.OPEN s).pause = false := hp
  have e4 : (CommandAsync Command.OPEN s).command = Command.OPEN := rfl
  have e5 : marks (CommandAsync Command.OPEN s).log = marks s.log := by
    simp [CommandAsync]
  rw [e1, e2]
  have hw : Worker_step w.untilFinished (CommandAsync Command.OPEN s)
      = Task_step w.untilFinished (CommandAsync Command.OPEN s) := by
    unfold Worker_step
    rw [e3]; rfl
  rw [hw]
  have h3 := Task_step_OPEN w.untilFinished (CommandAsync Command.OPEN s) e4
  generalize Task_step w.untilFinished (CommandAsync Command.OPEN s) = r at h3 ⊢
  obtain ⟨s1, o⟩ := r
  obtain ⟨h4, h5⟩ := h3
  dsimp only at h4 h5
  subst h5
  exact ⟨s1, by simp, by rw [h4, e5]⟩

theorem Open_request_posts (w : WorkerScript) (f : AudioFormat) (mp : Nat)
    (t : AudioOutputControl) (ht : t.thread = true) (hk : t.killed = false)
    (hp : t.pause = false) :
    ∃ r, Open_request w f mp t = some r
      ∧ marks r.2.log = marks t.log ++ [Event.CommandFinished Command.OPEN]
      ∧ r.1 = r.2.open_ := by
  unfold Open_request
  dsimp only
  split
  · rename_i hnt
    rw [ht] at hnt
    cases hnt
  · unfold Open_wait
    obtain ⟨s', h1, h2⟩ := CommandWait_OPEN_posts w
      { t with request_audio_format := f, request_pipe := mp } ht hk hp
    rw [h1]
    dsimp only
    refine ⟨_, rfl, ?_, ?_⟩
    · dsimp only
      split
      · simp [Open_unlocked, h2, Event.landmark]
      · exact h2
    · dsimp only
      split <;> rfl

/-- When `should_reopen` is set, `Open` does not take the shortcut: it returns after the
worker has acknowledged an OPEN command. -/
theorem Open_posts (w : WorkerScript) (f : AudioFormat) (mp : Nat) (s : AudioOutputControl)
    (hr : s.should_reopen = true) (ht : s.thread = true) (hk : s.killed = false)
    (hp : s.pause = false) :
    ∃ r, Open w f mp s = some r
      ∧ marks r.2.log = marks s.log ++ [Event.Call Fn.Open, Event.CommandFinished Command.OPEN]
      ∧ r.1 = r.2.open_ := by
  unfold Open
  dsimp only
  obtain ⟨b1, b2, b3, b4, b5, b6, b7⟩ := Open_begin_fields f mp s
  generalize Open_begin f mp s = t at b1 b2 b3 b4 b5 b6 b7 ⊢
  have hsc : (t.open_ && decide (f = t.request_audio_format)
      && (!t.pause && !t.should_reopen)) = false := by
    rw [b5, hr]; simp
  rw [hsc]
  simp only [Bool.false_eq_true, if_false]
  obtain ⟨r, h1, h2, h3⟩ := Open_request_posts w f mp t (b2.trans ht) (b3.trans hk)
    (b4.trans hp)
  exact ⟨r, h1, by rw [h2, b7]; simp, h3⟩

/-! ### Close, release, enable and disable -/

theorem InternalClose_fields (d : Bool) (s : AudioOutputControl) :
    (InternalClose d s).open_ = false ∧ (InternalClose d s).source_state = SourceState.CLOSED :=
  ⟨rfl, rfl⟩

theorem InternalEnable_spec (env : Env) (s : AudioOutputControl) :
    (InternalEnable env s).2.open_ = s.open_
    ∧ ((InternalEnable env s).1 = true → (InternalEnable env s).2.really_enabled = true)
    ∧ ((InternalEnable env s).1 = false → s.really_enabled = false) := by
  unfold InternalEnable
  split
  · rename_i h; exact ⟨rfl, fun _ => h, fun h' => by simp at h'⟩
  · rename_i h
    split
    · exact ⟨rfl, fun _ => rfl, fun h' => by simp at h'⟩
    · exact ⟨rfl, fun h' => by simp at h', fun _ => by simpa using h⟩

theorem InternalOpen2_really_enabled (env : Env) (f : AudioFormat) (s : AudioOutputControl) :
    (InternalOpen2 env f s).1.really_enabled = s.really_enabled := by
  have hm : ∀ t : AudioOutputControl, (InternalOpen2_mixer env t).1.really_enabled
      = t.really_enabled := fun t => rfl
  have hf : ∀ (cf : AudioFormat) (t : AudioOutputControl),
      (InternalOpen2_format cf t).really_enabled = t.really_enabled := by
    intro cf t
    unfold InternalOpen2_format
    dsimp only
    split <;> rfl
  unfold InternalOpen2
  dsimp only
  split
  · unfold InternalOpen2_open
    dsimp only
    split
    · exact hf _ _
    · exact (hm _).trans (hf _ _)
  · split
    · unfold InternalOpen2_configure
      dsimp only
      split
      · exact hf _ _
      · exact (hm _).trans (hf _ _)
    · exact (hm _).trans (hf _ _)

theorem InternalOpen_enabled_really_enabled (env : Env) (f : AudioFormat) (p : Nat)
    (s : AudioOutputControl) :
    (InternalOpen_enabled env f p s).really_enabled = s.really_enabled := by
  unfold InternalOpen_enabled
  dsimp only
  split
  · rfl
  · rename_i f1 _
    have h2 := InternalOpen2_really_enabled env f1 { emit (Event.SourceOpen f p)
        { s with last_error := none, fail_timer := s.fail_timer.Reset,
                 caught_interrupted := false, skip_delay := true } with
        source_state := SourceState.OPEN }
    split
    · rename_i s2 e heq
      rw [heq] at h2
      exact h2
    · rename_i s2 heq
      rw [heq] at h2
      exact h2

/-- The function `InternalOpen` keeps "open implies really enabled". -/
theorem InternalOpen_inv (env : Env) (f : AudioFormat) (p : Nat) (s : AudioOutputControl)
    (h : s.open_ = true → s.really_enabled = true) :
    (InternalOpen env f p s).open_ = true → (InternalOpen env f p s).really_enabled = true := by
  unfold InternalOpen
  dsimp only
  have h1 := InternalEnable_spec env { s with should_reopen := false }
  generalize InternalEnable env { s with should_reopen := false } = r at h1 ⊢
  obtain ⟨b, s1⟩ := r
  obtain ⟨e1, e2, e3⟩ := h1
  cases b
  · intro ho
    have : s.open_ = true := e1.symm.trans ho
    have h3 : s.really_enabled = false := e3 rfl
    rw [h this] at h3
    cases h3
  · intro _
    exact (InternalOpen_enabled_really_enabled env f p s1).trans (e2 rfl)

/-- After `InternalDisable` the output is neither really enabled nor open. -/
theorem InternalDisable_spec (s : AudioOutputControl)
    (h : s.open_ = true → s.really_enabled = true) :
    (InternalDisable s).really_enabled = false ∧ (InternalDisable s).open_ = false := by
  unfold InternalDisable
  split
  · rename_i hn
    have hr : s.really_enabled = false := by simpa using hn
    refine ⟨hr, ?_⟩
    cases ho : s.open_
    · rfl
    · rw [h ho] at hr; cases hr
  · exact ⟨rfl, InternalCheckClose_open_ false s⟩

theorem Task_step_ENABLE (w : WorkerScript) (s : AudioOutputControl)
    (hc : s.command = Command.ENABLE) :
    Task_step w s = (CommandFinished (InternalEnable w.env s).2, Outcome.looped) := by
  unfold Task_step; rw [hc]

theorem Task_step_DISABLE (w : WorkerScript) (s : AudioOutputControl)
    (hc : s.command = Command.DISABLE) :
    Task_step w s = (CommandFinished (InternalDisable s), Outcome.looped) := by
  unfold Task_step; rw [hc]

theorem Task_step_OPEN_eq (w : WorkerScript) (s : AudioOutputControl)
    (hc : s.command = Command.OPEN) :
    Task_step w s = (CommandFinished
      (InternalOpen w.env s.request_audio_format s.request_pipe s), Outcome.looped) := by
  unfold Task_step; rw [hc]

theorem CommandFinished_flags (s : AudioOutputControl) :
    (CommandFinished s).open_ = s.open_
    ∧ (CommandFinished s).really_enabled = s.really_enabled := by
  simp [CommandFinished, check, emit]

theorem CommandAsync_flags (c : Command) (s : AudioOutputControl) :
    (CommandAsync c s).open_ = s.open_
    ∧ (CommandAsync c s).really_enabled = s.really_enabled := by
  simp [CommandAsync, check]

theorem dispatch_ENABLE_inv (w : WorkerScript) (s : AudioOutputControl)
    (h : s.open_ = true → s.really_enabled = true) :
    (dispatch w Command.ENABLE s).open_ = true →
      (dispatch w Command.ENABLE s).really_enabled = true := by
  unfold dispatch
  rw [Task_step_ENABLE w _ rfl]
  obtain ⟨e1, e2, e3⟩ := InternalEnable_spec w.env (CommandAsync Command.ENABLE s)
  obtain ⟨a1, a2⟩ := CommandAsync_flags Command.ENABLE s
  generalize CommandAsync Command.ENABLE s = t at e1 e2 e3 a1 a2 ⊢
  generalize InternalEnable w.env t = r at e1 e2 e3 ⊢
  obtain ⟨b, s1⟩ := r
  obtain ⟨c1, c2⟩ := CommandFinished_flags s1
  dsimp only at e1 e2 e3 ⊢
  rw [c1, c2]
  intro ho
  have ho' : s.open_ = true := (e1.trans a1).symm.trans ho
  cases b
  · have h3 : t.really_enabled = false := e3 rfl
    rw [a2, h ho'] at h3; cases h3
  · exact e2 rfl

theorem dispatch_OPEN_inv (w : WorkerScript) (s : AudioOutputControl)
    (h : s.open_ = true → s.really_enabled = true) :
    (dispatch w Command.OPEN s).open_ = true →
      (dispatch w Command.OPEN s).really_enabled = true := by
  unfold dispatch
  rw [Task_step_OPEN_eq w _ rfl]
  obtain ⟨a1, a2⟩ := CommandAsync_flags Command.OPEN s
  generalize CommandAsync Command.OPEN s = t at a1 a2 ⊢
  have hi := InternalOpen_inv w.env t.request_audio_format t.request_pipe t
    (by rw [a1, a2]; exact h)
  generalize InternalOpen w.env t.request_audio_format t.request_pipe t = u at hi ⊢
  obtain ⟨c1, c2⟩ := CommandFinished_flags u
  dsimp only
  rw [c1, c2]
  exact hi

theorem dispatch_DISABLE_spec (w : WorkerScript) (s : AudioOutputControl)
    (h : s.open_ = true → s.really_enabled = true) :
    (dispatch w Command.DISABLE s).really_enabled = false
    ∧ (dispatch w Command.DISABLE s).open_ = false := by
  unfold dispatch
  rw [Task_step_DISABLE w _ rfl]
  obtain ⟨a1, a2⟩ := CommandAsync_flags Command.DISABLE s
  generalize CommandAsync Command.DISABLE s = t at a1 a2 ⊢
  have hi := InternalDisable_spec t (by rw [a1, a2]; exact h)
  generalize InternalDisable t = u at hi ⊢
  obtain ⟨c1, c2⟩ := CommandFinished_flags u
  dsimp only
  rw [c1, c2]
  exact hi

/-! ### The play loop -/

theorem Task_step_NONE (w : WorkerScript) (s : AudioOutputControl)
    (hc : s.command = Command.NONE) : Task_step w s = Task_NONE w s := by
  unfold Task_step; rw [hc]

/-- After its recorded entry, `InternalPlay` records no landmark. -/
theorem Quiet_InternalPlay (now : Nat) (fs : AudioFormat → Nat) (p : PlayScript)
    (s : AudioOutputControl) :
    Quiet (emit (Event.Call Fn.InternalPlay) s) (InternalPlay now fs p s).1 := by
  unfold InternalPlay
  dsimp only
  have h0 := Quiet_check (decide ((emit (Event.Call Fn.InternalPlay) s).source_state
    = SourceState.OPEN)) Assertion.InternalPlay_source_OPEN
    (emit (Event.Call Fn.InternalPlay) s) (by decide)
  have h1 := Quiet.trans h0 (Quiet_FillSourceOrClose now p.first_fill _)
  generalize FillSourceOrClose now p.first_fill _ = r at h1 ⊢
  obtain ⟨b, s1⟩ := r
  cases b
  · exact h1
  · dsimp only
    refine Quiet.trans h1 (Quiet.trans ?_ (Quiet_InternalPlay_loop _ _ _ _ _ _))
    exact Quiet.trans (Quiet_check _ _ _ (by decide)) (Quiet_of_eq rfl rfl)

/-- Backoff of `LockUpdate`, as the code computes it: on a controller that is
enabled and really enabled, `LockUpdate` is a call of `Open` exactly when `force`
is set, or the fail timer is not armed, or `REOPEN_AFTER * 1000`, that is 10000
seconds, have passed since the timer was armed; otherwise it returns false and
leaves the controller untouched. -/
theorem LockUpdate_backoff (w : WorkerScript) (f : AudioFormat) (mp : Nat) (force : Bool)
    (s : AudioOutputControl) (he : s.enabled = true) (hr : s.really_enabled = true) :
    LockUpdate w f mp force s =
      if force = true ∨ s.fail_timer.last = none ∨
          (∃ t, s.fail_timer.last = some t ∧ t + seconds 10000 ≤ w.env.now)
      then Open w f mp s else some (false, s) := by
  have hd : REOPEN_AFTER * 1000 = seconds 10000 := by decide
  unfold LockUpdate
  rw [hd]
  cases force <;> cases hl : s.fail_timer.last <;>
    simp [he, hr, PeriodClock.IsDefined, PeriodClock.Check, hl]

/-- C1 (the code at the failing input): an enabled controller fails to open its
device at time 5000 ms, which arms the fail timer. A `LockUpdate` with
`force = false` at 15000 ms, ten seconds after the failure, returns false
without calling `Open` and leaves the controller as it was, timer still armed;
so does one 9999 seconds after the failure; only 10000 seconds after the failure
does `LockUpdate` call `Open` again. -/
theorem C1_LockUpdate_not_reopened_after_10_seconds :
    (failedAt5000.enabled = true ∧ failedAt5000.really_enabled = true
      ∧ failedAt5000.open_ = false ∧ failedAt5000.fail_timer.last = some 5000)
    ∧ LockUpdate (quietScript (5000 + seconds 10)) cdFormat 0 false failedAt5000
        = some (false, failedAt5000)
    ∧ LockUpdate (quietScript (5000 + seconds 9999)) cdFormat 0 false failedAt5000
        = some (false, failedAt5000)
    ∧ (LockUpdate (quietScript (5000 + seconds 10000)) cdFormat 0 false failedAt5000).map
        (fun r => (r.1, r.2.open_,
          decide (r.2.log.count (Event.Call Fn.Open)
            = failedAt5000.log.count (Event.Call Fn.Open) + 1)))
        = some (true, true, true) := by
  refine ⟨by decide, by decide, by decide, by decide⟩

/-- C2 (the code at the failing input): from the initial state the worker
dispatches OPEN successfully (open, really enabled, fail timer unarmed) and then
OPEN again with `source.Open` throwing: `InternalOpen` calls `Failure`, which
arms the fail timer, and leaves the output open. The same happens in a single
OPEN from the initial state when `OpenSoftwareMixer` throws after `open` was
set. Through the client calls: after a successful `LockUpdate`, a second
`LockUpdate` for another format whose `source.Open` throws returns true and
leaves `open` set with the fail timer armed, and `LockCloseWait` then fails its
assertion `!open || !fail_timer.IsDefined()`. -/
theorem C2_open_with_fail_timer_armed :
    ((dispatch (quietScript 0) Command.OPEN (initial plainDevice true)).open_ = true
      ∧ (dispatch (quietScript 0) Command.OPEN (initial plainDevice true)).really_enabled = true
      ∧ (dispatch (quietScript 0) Command.OPEN (initial plainDevice true)).fail_timer.last
          = none)
    ∧ ((dispatch (sourceOpenFails 7000) Command.OPEN
          (dispatch (quietScript 0) Command.OPEN (initial plainDevice true))).open_ = true
      ∧ (dispatch (sourceOpenFails 7000) Command.OPEN
          (dispatch (quietScript 0) Command.OPEN (initial plainDevice true))).fail_timer.last
          = some 7000)
    ∧ ((dispatch (softwareMixerFails 7000) Command.OPEN (initial plainDevice true)).open_ = true
      ∧ (dispatch (softwareMixerFails 7000) Command.OPEN
          (initial plainDevice true)).fail_timer.last = some 7000)
    ∧ ((openedController plainDevice).bind fun r =>
          LockUpdate (sourceOpenFails 7000) dvdFormat 0 false r.2).map
        (fun r => (r.1, r.2.open_, r.2.really_enabled, r.2.fail_timer.last))
        = some (true, true, true, some 7000)
    ∧ (((openedController plainDevice).bind fun r =>
          LockUpdate (sourceOpenFails 7000) dvdFormat 0 false r.2).bind fun r =>
          LockCloseWait (quietScript 8000) r.2).map
        (fun s => decide (Event.AssertionFailed
          Assertion.LockCloseWait_open_implies_no_fail_timer ∈ s.log)) = some true :=
  ⟨by decide, by decide, by decide, rfl, rfl⟩

/-- C3 (the code at the failing input): a controller for a device without
`Enable`/`Disable` methods is enabled and opened through `EnableDisableAsync` and
`LockUpdate`. `Steal` then sends no DISABLE, clears `really_enabled`, and KILL
runs an `InternalDisable` that returns at once: the controller left behind is a
dummy without thread, not enabled, but its `open` flag is still set and the
device was never closed. On a device with `Enable`/`Disable` methods the same
calls close the device and clear `open`. -/
theorem C3_Steal_leaves_open_set :
    ((openedController simpleDevice).bind fun r => Steal (quietScript 1) r.2).map
        (fun r => (r.1.isSome, r.2.output.isNone, r.2.enabled, r.2.really_enabled, r.2.thread,
          r.2.open_, decide (Event.Close false ∈ r.2.log)))
      = some (true, true, false, false, false, true, false)
    ∧ ((openedController plainDevice).bind fun r => Steal (quietScript 1) r.2).map
        (fun r => (r.1.isSome, r.2.output.isNone, r.2.enabled, r.2.really_enabled, r.2.thread,
          r.2.open_, decide (Event.Close false ∈ r.2.log)))
      = some (true, true, false, false, false, false, true) :=
  ⟨rfl, rfl⟩

/-- C5, at a DRAIN posted by `LockDrainAsync` on an open output: it is
acknowledged once, as the last event of the round. -/
theorem C5_Task_step_acknowledges_once_witness :
    (LockDrainAsync openState).command ≠ Command.NONE
    ∧ flushEnds (quietScript 1).drain.steps = true
    ∧ (acknowledgements (Task_step (quietScript 1) (LockDrainAsync openState)).1.log
        = acknowledgements (LockDrainAsync openState).log
          ++ [Event.CommandFinished (LockDrainAsync openState).command]
      ∧ (Task_step (quietScript 1).untilFinished (LockDrainAsync openState)).1.command
        = Command.NONE)
    ∧ (Task_step (quietScript 1) (LockDrainAsync openState)).1.log
        = openState.log ++ [Event.Call Fn.InternalDrain, Event.SourceFlush, Event.Drain,
            Event.CommandFinished Command.DRAIN]
    ∧ ∃ t, acknowledgements t.log = acknowledgements (LockDrainAsync openState).log
        ∧ t.command = (LockDrainAsync openState).command
        ∧ (Task_step (quietScript 1) (LockDrainAsync openState)).1 = CommandFinished t
        ∧ (Task_step (quietScript 1) (LockDrainAsync openState)).1.log
            = t.log ++ [Event.CommandFinished (LockDrainAsync openState).command]
        ∧ (Task_step (quietScript 1) (LockDrainAsync openState)).1.command = Command.NONE :=
  ⟨by decide, by decide,
    (C5_Task_step_acknowledges_once (quietScript 1) (LockDrainAsync openState)
      (by decide)).2.1 (by decide),
    by decide,
    (C5_Task_step_acknowledges_once (quietScript 1) (LockDrainAsync openState)
      (by decide)).2.2.1 (by decide) (by decide) (by decide)⟩

/-- C6 (counterexample): DRAIN is dispatched on an open output whose source state
is OPEN, and `output->Drain()` throws. The command completes, but the source
state is then CLOSED, not FLUSHED. -/
theorem C6_drain_throws_source_closed :
    (LockDrainAsync openState).open_ = true
    ∧ (LockDrainAsync openState).source_state = SourceState.OPEN
    ∧ (LockDrainAsync openState).command = Command.DRAIN
    ∧ (Task_step (drainFails 9000) (LockDrainAsync openState)).2 = Outcome.looped
    ∧ (Task_step (drainFails 9000) (LockDrainAsync openState)).1.command = Command.NONE
    ∧ (Task_step (drainFails 9000) (LockDrainAsync openState)).1.source_state
        = SourceState.CLOSED
    ∧ (Task_step (drainFails 9000) (LockDrainAsync openState)).1.source_state
        ≠ SourceState.FLUSHED := by
  decide

/-- C6 (amended): when the worker dispatches DRAIN on an open output and the
command completes, `should_reopen` is true, `playing` is false and the mailbox is
NONE. If neither the flushing nor `output->Drain()` throws, the output is still
open and the source state is FLUSHED; if one of them throws `e`, the output has
been closed by `InternalCloseError`: `open` is false, the source state is CLOSED,
the fail timer is armed and `last_error` is `e`. In both cases a following `Open`
with any audio format does not take the "already open" shortcut: it returns after
the worker has acknowledged an OPEN command. -/
theorem C6_drain_completed (w w' : WorkerScript) (f : AudioFormat) (mp : Nat)
    (s : AudioOutputControl) (ho : s.open_ = true) (hc : s.command = Command.DRAIN)
    (ht : s.thread = true) (hk : s.killed = false) (hp : s.pause = false)
    (hdone : (Task_step w s).2 ≠ Outcome.running) :
    (Task_step w s).1.should_reopen = true
    ∧ (Task_step w s).1.playing = false
    ∧ (Task_step w s).1.command = Command.NONE
    ∧ ((InternalDrain_flush w.drain.steps (InternalDrain_begin s)).2 = Progress.completed →
        w.drain.drain = none →
        (Task_step w s).1.open_ = true
        ∧ (Task_step w s).1.source_state = SourceState.FLUSHED)
    ∧ (∀ e, (InternalDrain_flush w.drain.steps (InternalDrain_begin s)).2 = Progress.threw e
          ∨ ((InternalDrain_flush w.drain.steps (InternalDrain_begin s)).2 = Progress.completed
            ∧ w.drain.drain = some e) →
        (Task_step w s).1.open_ = false
        ∧ (Task_step w s).1.source_state = SourceState.CLOSED
        ∧ (Task_step w s).1.fail_timer.last = some w.env.now
        ∧ (Task_step w s).1.last_error = some e)
    ∧ ∃ r, Open w' f mp (Task_step w s).1 = some r
        ∧ marks r.2.log = marks (Task_step w s).1.log
            ++ [Event.Call Fn.Open, Event.CommandFinished Command.OPEN] := by
  have hT : Task_step w s = Task_DRAIN w s := by
    unfold Task_step; rw [hc]
  rw [hT] at hdone ⊢
  unfold Task_DRAIN at hdone ⊢
  rw [if_pos ho] at hdone ⊢
  have hs := InternalDrain_spec w.env.now w.drain s
  generalize InternalDrain w.env.now w.drain s = r at hs hdone ⊢
  obtain ⟨s1, b⟩ := r
  cases b
  · exact absurd rfl hdone
  · obtain ⟨g1, g2, g3, g4, g5, g6, g7, g8⟩ := hs rfl
    dsimp only at g1 g2 g3 g4 g5 g6 g7 g8 ⊢
    have k1 : (CommandFinished s1).should_reopen = true := by simpa [CommandFinished, check, emit] using g1
    have k2 : (CommandFinished s1).playing = false := by simpa [CommandFinished, check, emit] using g2
    have k4 : (CommandFinished s1).thread = true := by
      simpa [CommandFinished, check, emit] using g4.trans ht
    have k5 : (CommandFinished s1).killed = false := by
      simpa [CommandFinished, check, emit] using g5.trans hk
    have k6 : (CommandFinished s1).pause = false := by
      simpa [CommandFinished, check, emit] using g6.trans hp
    refine ⟨k1, k2, rfl, ?_, ?_, ?_⟩
    · intro h1 h2
      obtain ⟨a1, a2, _⟩ := g7 h1 h2
      exact ⟨by simpa [CommandFinished, check, emit] using a1.trans ho,
        by simpa [CommandFinished, check, emit] using a2⟩
    · intro e he
      obtain ⟨a1, a2, a3, a4⟩ := g8 e he
      exact ⟨by simpa [CommandFinished, check, emit] using a1,
        by simpa [CommandFinished, check, emit] using a2,
        by simpa [CommandFinished, check, emit] using a3,
        by simpa [CommandFinished, check, emit] using a4⟩
    · obtain ⟨r, h1, h2, _⟩ := Open_posts w' f mp (CommandFinished s1) k1 k4 k5 k6
      exact ⟨r, h1, h2⟩

/-- C6 (amended), at a DRAIN posted on an open output whose `Drain()` throws. -/
theorem C6_drain_completed_witness :
    (LockDrainAsync openState).open_ = true
    ∧ (LockDrainAsync openState).command = Command.DRAIN
    ∧ (Task_step (drainFails 9000) (LockDrainAsync openState)).1.should_reopen = true
    ∧ (Task_step (drainFails 9000) (LockDrainAsync openState)).1.playing = false
    ∧ (Task_step (drainFails 9000) (LockDrainAsync openState)).1.command = Command.NONE :=
  ⟨by decide, by decide,
    (C6_drain_completed (drainFails 9000) (quietScript 9001) cdFormat 0
      (LockDrainAsync openState) (by decide) (by decide) (by decide) (by decide) (by decide)
      (by decide)).1,
    (C6_drain_completed (drainFails 9000) (quietScript 9001) cdFormat 0
      (LockDrainAsync openState) (by decide) (by decide) (by decide) (by decide) (by decide)
      (by decide)).2.1,
    (C6_drain_completed (drainFails 9000) (quietScript 9001) cdFormat 0
      (LockDrainAsync openState) (by decide) (by decide) (by decide) (by decide) (by decide)
      (by decide)).2.2.1⟩

/-- C7 (counterexample): an always-on output is open, its source was flushed by a
DRAIN, and RELEASE is dispatched. The worker enters `InternalPause` with the
device open, but `source.Cancel()` is not performed. -/
theorem C7_release_without_source_cancel :
    flushedAlwaysOn.open_ = true ∧ flushedAlwaysOn.always_on = true
    ∧ flushedAlwaysOn.command = Command.RELEASE
    ∧ flushedAlwaysOn.source_state = SourceState.FLUSHED
    ∧ (Task_step (quietScript 2) flushedAlwaysOn).1.pause = true
    ∧ (Task_step (quietScript 2) flushedAlwaysOn).1.open_ = true
    ∧ Event.SourceCancel ∉ (Task_step (quietScript 2) flushedAlwaysOn).1.log := by
  decide

/-- C7 (amended): for every open output, CLOSE ends with `open` false and the
source state CLOSED; RELEASE with `always_on` false ends the same way; RELEASE
with `always_on` true does not close the device: it performs `source.Cancel()`
exactly when the source state is OPEN, then enters `InternalPause`, which calls
`BeginPause`, sets `pause` and acknowledges the command with the device still
open (the state is the one in which the worker enters the pause loop). -/
theorem C7_release_and_close (w : WorkerScript) (s : AudioOutputControl) (ho : s.open_ = true) :
    (s.command = Command.CLOSE →
      (Task_step w s).1.open_ = false ∧ (Task_step w s).1.source_state = SourceState.CLOSED
      ∧ (Task_step w s).2 = Outcome.looped)
    ∧ (s.command = Command.RELEASE → s.always_on = false →
      (Task_step w s).1.open_ = false ∧ (Task_step w s).1.source_state = SourceState.CLOSED
      ∧ (Task_step w s).2 = Outcome.looped)
    ∧ (s.command = Command.RELEASE → s.always_on = true →
      (Task_step w.untilFinished s).1.open_ = true
      ∧ (Task_step w.untilFinished s).1.pause = true
      ∧ (Task_step w.untilFinished s).1.command = Command.NONE
      ∧ (Task_step w.untilFinished s).1.source_state = s.source_state
      ∧ (Task_step w.untilFinished s).1.log = s.log
          ++ (if s.source_state = SourceState.OPEN then [Event.SourceCancel] else [])
          ++ [Event.Call Fn.InternalPause, Event.BeginPause,
              Event.CommandFinished Command.RELEASE]) := by
  refine ⟨fun hc => ?_, fun hc ha => ?_, fun hc ha => ?_⟩
  · have hT : Task_step w s = (CommandFinished (InternalCheckClose false s), Outcome.looped) := by
      unfold Task_step; rw [hc]
    rw [hT]
    have : InternalCheckClose false s = InternalClose false s := by
      unfold InternalCheckClose; rw [if_pos (by simpa [IsOpen] using ho)]
    rw [this]
    exact ⟨rfl, rfl, rfl⟩
  · have hT : Task_step w s = Task_RELEASE w s := by
      unfold Task_step; rw [hc]
    rw [hT]
    unfold Task_RELEASE
    rw [if_neg (by simp [ho])]
    dsimp only
    rw [if_neg (by simp [ha])]
    exact ⟨rfl, rfl, rfl⟩
  · have hT : Task_step w.untilFinished s = Task_RELEASE w.untilFinished s := by
      unfold Task_step; rw [hc]
    rw [hT]
    unfold Task_RELEASE
    rw [if_neg (by simp [ho])]
    dsimp only
    rw [if_pos (by simp [ha])]
    have hP : ∀ t : AudioOutputControl, InternalPause w.untilFinished.pause t
        = (InternalPause_begin t, false) := fun t => rfl
    rw [hP]
    dsimp only
    by_cases hs : s.source_state = SourceState.OPEN
    · rw [if_pos hs, if_pos hs]
      simp [InternalPause_begin, CommandFinished, check, emit, SourceCancel, ho, hc, hs]
    · rw [if_neg hs, if_neg hs]
      simp [InternalPause_begin, CommandFinished, check, emit, ho, hc]

/-- C7 (amended), at the always-on output whose source was flushed. -/
theorem C7_release_and_close_witness :
    flushedAlwaysOn.open_ = true
    ∧ flushedAlwaysOn.command = Command.RELEASE
    ∧ flushedAlwaysOn.always_on = true
    ∧ (Task_step (quietScript 2).untilFinished flushedAlwaysOn).1.open_ = true
    ∧ (Task_step (quietScript 2).untilFinished flushedAlwaysOn).1.pause = true :=
  ⟨by decide, by decide, by decide,
    ((C7_release_and_close (quietScript 2) flushedAlwaysOn (by decide)).2.2
      (by decide) (by decide)).1,
    ((C7_release_and_close (quietScript 2) flushedAlwaysOn (by decide)).2.2
      (by decide) (by decide)).2.1⟩

/-- After the dispatch of ENABLE, OPEN or DISABLE the mailbox is NONE. -/
theorem dispatch_command (w : WorkerScript) (c : Command) (s : AudioOutputControl)
    (hc : c = Command.ENABLE ∨ c = Command.OPEN ∨ c = Command.DISABLE) :
    (dispatch w c s).command = Command.NONE := by
  unfold dispatch Task_step
  rcases hc with hc | hc | hc <;> subst hc <;> rfl

/-- The log of a DISABLE dispatched with no command pending: the device is
closed if the output is open, disabled if it is really enabled, and the command
is acknowledged. -/
theorem dispatch_DISABLE_log (w : WorkerScript) (t : AudioOutputControl)
    (hc : t.command = Command.NONE) (h : t.open_ = true → t.really_enabled = true) :
    (dispatch w Command.DISABLE t).log
      = t.log ++ (if t.open_ then [Event.Close false, Event.SourceClose] else [])
          ++ (if t.really_enabled then [Event.Disable] else [])
          ++ [Event.CommandFinished Command.DISABLE]
    ∧ (t.open_ = true → (dispatch w Command.DISABLE t).source_state = SourceState.CLOSED) := by
  unfold dispatch
  rw [Task_step_DISABLE w _ rfl]
  cases hr : t.really_enabled
  · have ho : t.open_ = false := by
      cases ho : t.open_
      · rfl
      · rw [h ho] at hr; cases hr
    constructor
    · simp [CommandFinished, InternalDisable, CommandAsync, IsCommandFinished, check, emit,
        hc, hr, ho]
    · intro ho'; rw [ho] at ho'; cases ho'
  · cases ho : t.open_
    · constructor
      · simp [CommandFinished, InternalDisable, InternalCheckClose, IsOpen, CommandAsync,
          IsCommandFinished, check, emit, hc, hr, ho]
      · intro ho'; cases ho'
    · constructor
      · simp [CommandFinished, InternalDisable, InternalCheckClose, InternalClose, IsOpen,
          CommandAsync, IsCommandFinished, check, emit, hc, hr, ho]
      · intro _
        simp [CommandFinished, InternalDisable, InternalCheckClose, InternalClose, IsOpen,
          CommandAsync, IsCommandFinished, check, emit, hc, hr, ho]

/-- After ENABLE and possibly OPEN no command is pending, and an open output is
really enabled. -/
theorem enabledThenOpened_spec (w1 w2 : WorkerScript) (opened : Bool) (s : AudioOutputControl)
    (h : s.open_ = true → s.really_enabled = true) :
    (enabledThenOpened w1 w2 opened s).command = Command.NONE
    ∧ ((enabledThenOpened w1 w2 opened s).open_ = true →
        (enabledThenOpened w1 w2 opened s).really_enabled = true) := by
  unfold enabledThenOpened
  cases opened
  · exact ⟨dispatch_command w1 _ s (Or.inl rfl), dispatch_ENABLE_inv w1 s h⟩
  · exact ⟨dispatch_command w2 _ _ (Or.inr (Or.inl rfl)),
      dispatch_OPEN_inv w2 _ (dispatch_ENABLE_inv w1 s h)⟩

/-- C8: from every controller state in which open implies really enabled, after
the worker has dispatched ENABLE, then possibly OPEN (`opened`), then DISABLE,
`really_enabled` is false and `open` is false, whatever `output->Enable()` and
the calls made by OPEN return or throw. The dispatch of DISABLE has closed the
device and the source exactly when the output was open before it, has called
`output->Disable()` exactly when the output was really enabled, and has then
acknowledged the command: these calls, in this order, are what it adds to the
log. -/
theorem C8_enable_then_disable (w1 w2 w3 : WorkerScript) (opened : Bool)
    (s : AudioOutputControl) (h : s.open_ = true → s.really_enabled = true) :
    (dispatch w3 Command.DISABLE
      (if opened then dispatch w2 Command.OPEN (dispatch w1 Command.ENABLE s)
        else dispatch w1 Command.ENABLE s)).really_enabled = false
    ∧ (dispatch w3 Command.DISABLE
      (if opened then dispatch w2 Command.OPEN (dispatch w1 Command.ENABLE s)
        else dispatch w1 Command.ENABLE s)).open_ = false
    ∧ (dispatch w3 Command.DISABLE (enabledThenOpened w1 w2 opened s)).log
        = (enabledThenOpened w1 w2 opened s).log
          ++ (if (enabledThenOpened w1 w2 opened s).open_
              then [Event.Close false, Event.SourceClose] else [])
          ++ (if (enabledThenOpened w1 w2 opened s).really_enabled
              then [Event.Disable] else [])
          ++ [Event.CommandFinished Command.DISABLE]
    ∧ ((enabledThenOpened w1 w2 opened s).open_ = true →
        (dispatch w3 Command.DISABLE (enabledThenOpened w1 w2 opened s)).source_state
          = SourceState.CLOSED) := by
  obtain ⟨hc, hi⟩ := enabledThenOpened_spec w1 w2 opened s h
  obtain ⟨h1, h2⟩ := dispatch_DISABLE_spec w3 _ hi
  obtain ⟨h3, h4⟩ := dispatch_DISABLE_log w3 _ hc hi
  exact ⟨h1, h2, h3, h4⟩

/-- C8, at an open output, with an OPEN between ENABLE and DISABLE: the device
and the source are closed and the device is disabled. -/
theorem C8_enable_then_disable_witness :
    (openState.open_ = true → openState.really_enabled = true)
    ∧ openState.open_ = true
    ∧ (enabledThenOpened (quietScript 1) (quietScript 2) true openState).open_ = true
    ∧ (dispatch (quietScript 3) Command.DISABLE
        (if true then dispatch (quietScript 2) Command.OPEN
            (dispatch (quietScript 1) Command.ENABLE openState)
          else dispatch (quietScript 1) Command.ENABLE openState)).really_enabled = false
    ∧ (dispatch (quietScript 3) Command.DISABLE
        (if true then dispatch (quietScript 2) Command.OPEN
            (dispatch (quietScript 1) Command.ENABLE openState)
          else dispatch (quietScript 1) Command.ENABLE openState)).open_ = false
    ∧ (dispatch (quietScript 3) Command.DISABLE
          (enabledThenOpened (quietScript 1) (quietScript 2) true openState)).log
        = (enabledThenOpened (quietScript 1) (quietScript 2) true openState).log
          ++ [Event.Close false, Event.SourceClose, Event.Disable,
              Event.CommandFinished Command.DISABLE] :=
  ⟨by decide, by decide, by decide,
    (C8_enable_then_disable (quietScript 1) (quietScript 2) (quietScript 3) true openState
      (by decide)).1,
    (C8_enable_then_disable (quietScript 1) (quietScript 2) (quietScript 3) true openState
      (by decide)).2.1,
    by decide⟩

/-- C9 (counterexample): on a controller that is not open and has no pending
command, `LockCancelAsync` leaves `allow_play` true and posts nothing. -/
theorem C9_cancel_on_closed_output :
    (initial plainDevice true).command = Command.NONE
    ∧ (initial plainDevice true).open_ = false
    ∧ (LockCancelAsync (initial plainDevice true)).allow_play = true
    ∧ (LockCancelAsync (initial plainDevice true)).command = Command.NONE := by
  decide

/-- C9 (amended): with no command pending, `LockCancelAsync` on an open output
sets `allow_play` to false and posts CANCEL (no other field changes, and the
assertion of `CommandAsync` holds); on an output that is not open it changes no
field; `LockAllowPlay` afterwards sets `allow_play` to true and changes no other
field. -/
theorem C9_cancel_and_allow_play (s : AudioOutputControl) (hc : s.command = Command.NONE) :
    (s.open_ = true →
      (LockCancelAsync s).allow_play = false
      ∧ (LockCancelAsync s).command = Command.CANCEL
      ∧ withoutLog (LockCancelAsync s)
          = withoutLog { s with allow_play := false, command := Command.CANCEL }
      ∧ Event.AssertionFailed Assertion.CommandAsync_IsCommandFinished
          ∉ (LockCancelAsync s).log.drop s.log.length)
    ∧ (s.open_ = false → withoutLog (LockCancelAsync s) = withoutLog s)
    ∧ LockAllowPlay (LockCancelAsync s) = { LockCancelAsync s with allow_play := true } := by
  refine ⟨fun ho => ?_, fun ho => ?_, rfl⟩
  · unfold LockCancelAsync
    dsimp only
    have hio : ∀ t : AudioOutputControl, t.open_ = s.open_ → IsOpen t = true :=
      fun t ht => by rw [IsOpen, ht, ho]
    split
    · rw [if_pos (hio (emit Event.Interrupt s) rfl)]
      refine ⟨rfl, rfl, rfl, ?_⟩
      simp [CommandAsync, check, IsCommandFinished, emit, hc]
    · rw [if_pos (hio s rfl)]
      refine ⟨rfl, rfl, rfl, ?_⟩
      simp [CommandAsync, check, IsCommandFinished, hc]
  · unfold LockCancelAsync
    dsimp only
    have hio : ∀ t : AudioOutputControl, t.open_ = s.open_ → ¬ IsOpen t = true :=
      fun t ht => by rw [IsOpen, ht, ho]; simp
    split
    · rw [if_neg (hio (emit Event.Interrupt s) rfl)]; rfl
    · rw [if_neg (hio s rfl)]

/-- C9 (amended), at an open output. -/
theorem C9_cancel_and_allow_play_witness :
    openState.command = Command.NONE
    ∧ openState.open_ = true
    ∧ (LockCancelAsync openState).allow_play = false
    ∧ (LockCancelAsync openState).command = Command.CANCEL
    ∧ (LockAllowPlay (LockCancelAsync openState)).allow_play = true :=
  ⟨by decide, by decide,
    ((C9_cancel_and_allow_play openState (by decide)).1 (by decide)).1,
    ((C9_cancel_and_allow_play openState (by decide)).1 (by decide)).2.1,
    by decide⟩

/-- C10: with no pending command, one round of the worker loop runs
`InternalPlay` (once) if and only if `open`, `source_state == OPEN`, `allow_play`
and not `caught_interrupted`. If the condition is false, or `InternalPlay`
returns false, the worker clears `woken_for_play` and waits on `wake_cond`; if
`InternalPlay` returns true, the loop goes round again without waiting (and while
`InternalPlay` has not returned, the round is still running). -/
theorem C10_Task_NONE (w : WorkerScript) (s : AudioOutputControl)
    (hc : s.command = Command.NONE) :
    (marks (Task_step w s).1.log = marks s.log ++
      (if s.open_ = true ∧ s.source_state = SourceState.OPEN ∧ s.allow_play = true
          ∧ s.caught_interrupted = false
        then [Event.Call Fn.InternalPlay] else []))
    ∧ (¬(s.open_ = true ∧ s.source_state = SourceState.OPEN ∧ s.allow_play = true
          ∧ s.caught_interrupted = false) →
        Task_step w s
          = (emit Event.WakeCondWait { s with woken_for_play := false }, Outcome.waited))
    ∧ ((s.open_ = true ∧ s.source_state = SourceState.OPEN ∧ s.allow_play = true
          ∧ s.caught_interrupted = false) →
        ∀ s1, (InternalPlay w.env.now w.env.frame_size w.play s = (s1, some false) →
            Task_step w s
              = (emit Event.WakeCondWait { s1 with woken_for_play := false }, Outcome.waited))
          ∧ (InternalPlay w.env.now w.env.frame_size w.play s = (s1, some true) →
            Task_step w s = (s1, Outcome.looped))
          ∧ (InternalPlay w.env.now w.env.frame_size w.play s = (s1, none) →
            Task_step w s = (s1, Outcome.running))) := by
  rw [Task_step_NONE w s hc]
  have hcond : (s.open_ && decide (s.source_state = SourceState.OPEN) && s.allow_play
      && !s.caught_interrupted) = true ↔
      (s.open_ = true ∧ s.source_state = SourceState.OPEN ∧ s.allow_play = true
        ∧ s.caught_interrupted = false) := by
    simp [and_assoc]
  unfold Task_NONE
  refine ⟨?_, fun hn => ?_, fun hy s1 => ⟨fun h1 => ?_, fun h1 => ?_, fun h1 => ?_⟩⟩
  · by_cases hy : (s.open_ = true ∧ s.source_state = SourceState.OPEN ∧ s.allow_play = true
        ∧ s.caught_interrupted = false)
    · rw [if_pos (hcond.2 hy), if_pos hy]
      have q := Quiet_InternalPlay w.env.now w.env.frame_size w.play s
      generalize InternalPlay w.env.now w.env.frame_size w.play s = r at q ⊢
      obtain ⟨s1, o⟩ := r
      have hm : marks s1.log = marks s.log ++ [Event.Call Fn.InternalPlay] := by
        rw [q.1]; simp [Event.landmark]
      rcases o with _ | _ | _
      · exact hm
      · simpa [Event.landmark] using hm
      · exact hm
    · rw [if_neg (fun h => hy (hcond.1 h)), if_neg hy]
      simp [Event.landmark]
  · rw [if_neg (fun h => hn (hcond.1 h))]
  · rw [if_pos (hcond.2 hy), h1]
  · rw [if_pos (hcond.2 hy), h1]
  · rw [if_pos (hcond.2 hy), h1]

/-- C10, at an open output that may play and whose source has no chunk. -/
theorem C10_Task_NONE_witness :
    openState.command = Command.NONE
    ∧ marks (Task_step (quietScript 1) openState).1.log
        = marks openState.log ++ [Event.Call Fn.InternalPlay]
    ∧ (Task_step (quietScript 1) openState).2 = Outcome.waited
    ∧ (Task_step (quietScript 1) openState).1.woken_for_play = false :=
  ⟨by decide,
    by simpa using (C10_Task_NONE (quietScript 1) openState (by decide)).1,
    by decide, by decide⟩

/-! ### Waiting, short writes and exceptions in the loop of `PlayChunk` -/

/-- The state after one wait of `WaitForDelay`. -/
theorem WaitForDelay_cons (w : WaitStep) (ws : List WaitStep) (s : AudioOutputControl) :
    ∃ t, Quiet s t ∧ t.command = (arrive w.arrival s).command
      ∧ t.log = s.log ++ [if w.delay ≥ DURATION_MAX then Event.WakeCondWait
          else Event.WakeCondWaitFor w.delay]
      ∧ WaitForDelay (w :: ws) s =
        if w.delay ≤ 0 then (s, some true)
        else if t.command ≠ Command.NONE then (t, some false)
        else WaitForDelay ws t := by
  refine ⟨arrive w.arrival (if w.delay ≥ DURATION_MAX then emit Event.WakeCondWait s
      else emit (Event.WakeCondWaitFor w.delay) s), ?_, ?_, ?_, ?_⟩
  · refine Quiet.trans ?_ (Quiet_arrive _ _)
    split
    · exact Quiet_emit _ _ (by rfl)
    · exact Quiet_emit _ _ (by rfl)
  · split <;> rfl
  · split <;> rfl
  · rw [WaitForDelay]

theorem WaitForDelay_false (ws : List WaitStep) (s s' : AudioOutputControl)
    (h : WaitForDelay ws s = (s', some false)) : s'.command ≠ Command.NONE := by
  induction ws generalizing s with
  | nil => simp [WaitForDelay] at h
  | cons w ws ih =>
    obtain ⟨t, -, -, -, e⟩ := WaitForDelay_cons w ws s
    rw [e] at h
    split at h
    · simp at h
    · split at h
      · rename_i hc
        simp only [Prod.mk.injEq, and_true] at h
        rw [← h]; exact hc
      · exact ih _ h

theorem WaitForDelay_true (ws : List WaitStep) (s s' : AudioOutputControl)
    (h : WaitForDelay ws s = (s', some true)) :
    s'.command = s.command
    ∧ ∃ pre w post, ws = pre ++ w :: post ∧ w.delay ≤ 0 ∧ ∀ x ∈ pre, 0 < x.delay := by
  induction ws generalizing s with
  | nil => simp [WaitForDelay] at h
  | cons w ws ih =>
    obtain ⟨t, q, -, -, e⟩ := WaitForDelay_cons w ws s
    rw [e] at h
    split at h
    · rename_i hd
      simp only [Prod.mk.injEq, and_true] at h
      refine ⟨by rw [h], [], w, ws, rfl, hd, by simp⟩
    · rename_i hd
      split at h
      · simp at h
      · rename_i hc
        obtain ⟨e, pre, x, post, hws, hx, hpre⟩ := ih _ h
        have hc' : t.command = Command.NONE := by simpa using hc
        refine ⟨?_, w :: pre, x, post, by rw [hws]; rfl, hx, ?_⟩
        · rw [e, hc']
          by_contra hne
          have := q.2 (fun h0 => hne h0.symm)
          rw [hc'] at this
          exact hne this
        · intro y hy
          rcases List.mem_cons.1 hy with rfl | hy
          · exact not_le.1 hd
          · exact hpre y hy

theorem arrive_command_NONE (a : Option Command) (s : AudioOutputControl)
    (h : (arrive a s).command = Command.NONE) :
    s.command = Command.NONE ∧ (∀ c, a = some c → c = Command.NONE) := by
  unfold arrive at h
  dsimp only at h
  split at h
  · rename_i hs
    refine ⟨hs, fun c hc => ?_⟩
    rw [hc] at h
    exact h
  · rename_i hs
    exact absurd h hs

theorem WaitForDelay_ends (ws : List WaitStep) (s : AudioOutputControl)
    (h : waitEnds ws = true) : (WaitForDelay ws s).2 ≠ none := by
  induction ws generalizing s with
  | nil => simp [waitEnds] at h
  | cons w ws ih =>
    obtain ⟨t, q, ht, -, e⟩ := WaitForDelay_cons w ws s
    rw [e]
    split
    · simp
    · rename_i hd
      split
      · simp
      · rename_i hc
        apply ih
        have hc' : t.command = Command.NONE := by simpa using hc
        rw [ht] at hc'
        obtain ⟨-, ha⟩ := arrive_command_NONE _ _ hc'
        simp only [waitEnds, List.any_cons, Bool.or_eq_true, decide_eq_true_eq] at h
        rcases h with (h | h) | h
        · exact absurd h hd
        · exfalso
          unfold WaitStep.commandArrives at h
          split at h
          · rename_i c hw
            have hcn : c ≠ Command.NONE := by simpa using h
            exact hcn (ha c hw)
          · simp at h
        · exact h

/-- With infinite delays only. -/
theorem WaitForDelay_infinite (ws : List WaitStep) (s : AudioOutputControl)
    (hc : s.command = Command.NONE) (hinf : ∀ w ∈ ws, DURATION_MAX ≤ w.delay) :
    ((WaitForDelay ws s).2 = some false ↔ ∃ w ∈ ws, w.commandArrives = true)
    ∧ ((WaitForDelay ws s).2 = none ↔ ∀ w ∈ ws, w.commandArrives = false)
    ∧ (WaitForDelay ws s).1.log = s.log ++
        List.replicate (min ws.length (ws.findIdx WaitStep.commandArrives + 1))
          Event.WakeCondWait := by
  induction ws generalizing s with
  | nil => simp [WaitForDelay]
  | cons w ws ih =>
    obtain ⟨t, q, ht, hl, e⟩ := WaitForDelay_cons w ws s
    have hw : DURATION_MAX ≤ w.delay := hinf w (List.mem_cons_self _ _)
    have hpos : ¬ w.delay ≤ 0 := by
      have : (0 : Int) < DURATION_MAX := by unfold DURATION_MAX; norm_num
      omega
    rw [if_pos hw] at hl
    rw [e, if_neg hpos]
    have htc : t.command = (w.arrival.getD Command.NONE) := by
      rw [ht]; simp [arrive, hc]
    by_cases ha : w.commandArrives = true
    · have hne : t.command ≠ Command.NONE := by
        rw [htc]
        unfold WaitStep.commandArrives at ha
        split at ha
        · rename_i c hw'
          rw [hw']; simpa using ha
        · simp at ha
      rw [if_pos hne]
      refine ⟨?_, ?_, ?_⟩
      · simp only [true_iff]
        exact ⟨w, List.mem_cons_self _ _, ha⟩
      · simp only [false_iff, reduceCtorEq]
        intro h
        have := h w (List.mem_cons_self _ _)
        rw [ha] at this; cases this
      · dsimp only
        rw [hl, List.findIdx_cons, ha]
        simp
    · have ha' : w.commandArrives = false := by simpa using ha
      have hnone : t.command = Command.NONE := by
        rw [htc]
        unfold WaitStep.commandArrives at ha'
        split at ha'
        · rename_i c hw'
          rw [hw']; simpa using ha'
        · rename_i hw'
          rw [hw']; rfl
      rw [if_neg (by simpa using hnone)]
      obtain ⟨i1, i2, i3⟩ := ih t hnone (fun x hx => hinf x (List.mem_cons_of_mem _ hx))
      refine ⟨?_, ?_, ?_⟩
      · rw [i1]
        simp [ha']
      · rw [i2]
        simp [ha']
      · rw [i3, hl, List.findIdx_cons, ha']
        simp only [cond_false, List.length_cons, List.append_assoc, List.singleton_append]
        congr 1
        rw [Nat.add_min_add_right, ← List.replicate_succ]

theorem arrive_none (s : AudioOutputControl) : arrive none s = s := by
  cases s
  simp only [arrive, Option.getD_none, ite_eq_right_iff, AudioOutputControl.mk.injEq, true_and,
    and_true]
  exact fun h => h.symm

theorem transfers_append (l l' : List Event) :
    transfers (l ++ l') = transfers l ++ transfers l' := by
  simp [transfers]

theorem beats_append (l l' : List Event) : beats (l ++ l') = beats l ++ beats l' := by
  simp [beats]

/-- A wait changes nothing but the log and the mailbox; it adds neither a data
transfer nor a beat to the log. -/
theorem WaitForDelay_frame (ws : List WaitStep) (s : AudioOutputControl) :
    ∃ d, transfers d = [] ∧ beats d = []
      ∧ (WaitForDelay ws s).1
          = { s with log := s.log ++ d, command := (WaitForDelay ws s).1.command } := by
  induction ws generalizing s with
  | nil => exact ⟨[], rfl, rfl, by simp [WaitForDelay]⟩
  | cons w ws ih =>
    have key : ∀ e : Event, transfers [e] = [] → beats [e] = [] →
        ∃ d, transfers d = [] ∧ beats d = []
          ∧ (if (arrive w.arrival (emit e s)).command ≠ Command.NONE then
                (arrive w.arrival (emit e s), some false)
              else WaitForDelay ws (arrive w.arrival (emit e s))).1
            = { s with log := s.log ++ d,
                       command := (if (arrive w.arrival (emit e s)).command ≠ Command.NONE then
                          (arrive w.arrival (emit e s), some false)
                        else WaitForDelay ws (arrive w.arrival (emit e s))).1.command } := by
      intro e he hb
      split
      · exact ⟨[e], he, hb, by simp [arrive, emit]⟩
      · obtain ⟨d, h1, h2, h3⟩ := ih (arrive w.arrival (emit e s))
        refine ⟨e :: d, ?_, ?_, ?_⟩
        · have := transfers_append [e] d
          rw [he, h1] at this
          simpa using this
        · have := beats_append [e] d
          rw [hb, h2] at this
          simpa using this
        · generalize WaitForDelay ws (arrive w.arrival (emit e s)) = r at h3 ⊢
          rw [h3]
          simp [arrive, emit]
    rw [WaitForDelay]
    split
    · exact ⟨[], rfl, rfl, by simp⟩
    · dsimp only
      split
      · exact key _ rfl rfl
      · exact key _ rfl rfl

theorem check_eq (c : Bool) (a : Assertion) (s : AudioOutputControl) :
    check c a s = { s with log := s.log ++ (if c then [] else [Event.AssertionFailed a]) } := by
  cases c <;> simp [check]

/-- One round of the loop of `PlayChunk`, entered with data to play and no
pending command: after the wait, which changes only `skip_delay`, the log and
the mailbox, the loop is still waiting, or it is left because a command has
arrived, or `Play` is called on the data and throws or returns a length. -/
theorem PlayChunk_loop_cons (now : Nat) (fs : AudioFormat → Nat) (it : PlayIter)
    (rest : List PlayIter) (s : AudioOutputControl)
    (hc : s.command = Command.NONE) (hp : s.source.pending ≠ []) :
    ∃ sk cmd dw, transfers dw = [] ∧ beats dw = [] ∧
      (PlayChunk_loop now fs (it :: rest) s
          = ({ s with skip_delay := sk, log := s.log ++ dw, command := cmd }, none)
      ∨ (cmd ≠ Command.NONE ∧ PlayChunk_loop now fs (it :: rest) s
          = ({ s with skip_delay := sk, log := s.log ++ dw, command := cmd }, some true))
      ∨ (it.play = Except.error Exception.AudioOutputInterrupted
          ∧ PlayChunk_loop now fs (it :: rest) s
            = ({ arrive it.arrival
                   { s with skip_delay := sk, command := cmd,
                            log := s.log ++ dw ++ [Event.Play s.source.pending] } with
                 caught_interrupted := true }, some false))
      ∨ (∃ e, it.play = Except.error e ∧ e ≠ Exception.AudioOutputInterrupted
          ∧ PlayChunk_loop now fs (it :: rest) s
            = (InternalCloseError e now (arrive it.arrival
                 { s with skip_delay := sk, command := cmd,
                          log := s.log ++ dw ++ [Event.Play s.source.pending] }),
               some false))
      ∨ (∃ n a, it.play = Except.ok n ∧ transfers a = [] ∧ beats a = []
          ∧ PlayChunk_loop now fs (it :: rest) s
            = PlayChunk_loop now fs rest
                { arrive it.arrival { s with skip_delay := sk, command := cmd } with
                  log := s.log ++ dw ++ Event.Play s.source.pending
                           :: (a ++ [Event.SourceConsumeData n]),
                  source := { s.source with pending := s.source.pending.drop n },
                  playing := true })) := by
  have hW : ∃ sk cmd dw o, transfers dw = [] ∧ beats dw = []
      ∧ (o = some false → cmd ≠ Command.NONE)
      ∧ (if s.skip_delay = true then
          (({ s with skip_delay := false }, some true) : AudioOutputControl × Option Bool)
          else WaitForDelay it.wait s)
        = ({ s with skip_delay := sk, log := s.log ++ dw, command := cmd }, o) := by
    by_cases hs : s.skip_delay = true
    · rw [if_pos hs]
      exact ⟨false, s.command, [], some true, rfl, rfl, by simp, by simp⟩
    · rw [if_neg hs]
      obtain ⟨d, h1, h2, h3⟩ := WaitForDelay_frame it.wait s
      have hf := WaitForDelay_false it.wait s
      generalize WaitForDelay it.wait s = r at h3 hf
      obtain ⟨s1, o⟩ := r
      refine ⟨s.skip_delay, s1.command, d, o, h1, h2, ?_, ?_⟩
      · intro ho
        rw [ho] at hf
        exact hf s1 rfl
      · dsimp only at h3
        rw [h3]
  obtain ⟨sk, cmd, dw, o, hdw, hbw, hcmd, hW⟩ := hW
  refine ⟨sk, cmd, dw, hdw, hbw, ?_⟩
  rw [PlayChunk_loop]
  rw [if_neg (by simp [hc]), if_neg (by simpa using hp)]
  dsimp only
  rw [hW]
  rcases o with _ | _ | _
  · exact Or.inl rfl
  · exact Or.inr (Or.inl ⟨hcmd rfl, rfl⟩)
  · dsimp only
    cases hplay : it.play with
    | error e =>
      by_cases he : e = Exception.AudioOutputInterrupted
      · subst he
        refine Or.inr (Or.inr (Or.inl ⟨rfl, ?_⟩))
        simp [emit, arrive]
      · refine Or.inr (Or.inr (Or.inr (Or.inl ⟨e, rfl, he, ?_⟩)))
        cases e with
        | AudioOutputInterrupted => exact absurd rfl he
        | failure code => simp [emit, arrive]
        | nested inner => simp [emit, arrive]
    | ok n =>
      refine Or.inr (Or.inr (Or.inr (Or.inr ⟨n,
        (if decide (n > 0) then [] else
            [Event.AssertionFailed Assertion.PlayChunk_nbytes_positive])
          ++ (if decide (n ≤ s.source.pending.length) then [] else
            [Event.AssertionFailed Assertion.PlayChunk_nbytes_le_size])
          ++ (if decide (n % fs s.device.out_audio_format = 0) then [] else
            [Event.AssertionFailed Assertion.PlayChunk_frame_aligned]), rfl, ?_, ?_, ?_⟩)))
      · split <;> split <;> split <;> rfl
      · split <;> split <;> split <;> rfl
      · dsimp only
        congr 1
        simp only [check_eq]
        simp [emit, arrive, AudioOutputControl.device]

/-- When the loop of `PlayChunk` is left with `false`, a call of `Play` has
thrown: either `AudioOutputInterrupted`, and then `caught_interrupted` is set and
neither `open` nor the stored error has changed, or another exception, and then
the output is closed and the exception is the stored error. -/
theorem PlayChunk_loop_false (now : Nat) (fs : AudioFormat → Nat) (iters : List PlayIter)
    (s s' : AudioOutputControl) (h : PlayChunk_loop now fs iters s = (s', some false)) :
    ((∃ it ∈ iters, it.play = Except.error Exception.AudioOutputInterrupted)
        ∧ s'.caught_interrupted = true ∧ s'.open_ = s.open_
        ∧ s'.last_error = s.last_error ∧ s'.fail_timer = s.fail_timer)
    ∨ (∃ e, e ≠ Exception.AudioOutputInterrupted
        ∧ (∃ it ∈ iters, it.play = Except.error e)
        ∧ s'.open_ = false ∧ s'.last_error = some e
        ∧ s'.fail_timer = { last := some now }
        ∧ s'.source_state = SourceState.CLOSED
        ∧ s'.caught_interrupted = s.caught_interrupted) := by
  induction iters generalizing s with
  | nil =>
    rw [PlayChunk_loop] at h
    split at h
    · simp at h
    · dsimp only at h
      split at h <;> simp at h
  | cons it rest ih =>
    by_cases hc : s.command = Command.NONE
    swap
    · rw [PlayChunk_loop, if_pos hc] at h
      simp at h
    by_cases hp : s.source.pending = []
    · rw [PlayChunk_loop, if_neg (by simp [hc]), if_pos (by simp [hp])] at h
      simp at h
    obtain ⟨sk, cmd, dw, -, -, hstep⟩ := PlayChunk_loop_cons now fs it rest s hc hp
    rcases hstep with e | ⟨-, e⟩ | ⟨hplay, e⟩ | ⟨x, hplay, hx, e⟩ | ⟨n, a, hplay, -, -, e⟩
    · rw [e] at h; simp at h
    · rw [e] at h; simp at h
    · rw [e] at h
      simp only [Prod.mk.injEq, and_true] at h
      subst h
      refine Or.inl ⟨⟨it, List.mem_cons_self _ _, hplay⟩, rfl, ?_, ?_, ?_⟩ <;> simp [arrive]
    · rw [e] at h
      simp only [Prod.mk.injEq, and_true] at h
      subst h
      refine Or.inr ⟨x, hx, ⟨it, List.mem_cons_self _ _, hplay⟩, ?_, ?_, ?_, ?_, ?_⟩ <;>
        simp [InternalCloseError, InternalClose, Failure, check, emit, arrive, PeriodClock.Update]
    · rw [e] at h
      rcases ih _ h with ⟨⟨it', hm, hi⟩, h1, h2, h3, h4⟩ | ⟨x, hx, ⟨it', hm, hi⟩, h1, h2, h3, h4, h5⟩
      · exact Or.inl ⟨⟨it', List.mem_cons_of_mem _ hm, hi⟩, h1, by simpa [arrive] using h2,
          by simpa [arrive] using h3, by simpa [arrive] using h4⟩
      · exact Or.inr ⟨x, hx, ⟨it', List.mem_cons_of_mem _ hm, hi⟩, h1, h2, h3, h4,
          by simpa [arrive] using h5⟩

/-- The head of `PlayChunk`: the state `s0` in which the loop is entered differs
from the state at the call in the log, in the tag of the source (which is read)
and in the mailbox (which may take a command while the tag is sent); the loop is
entered unless `SendTag` is called and throws `AudioOutputInterrupted`. -/
theorem PlayChunk_entry (now : Nat) (fs : AudioFormat → Nat) (c : ChunkScript)
    (s : AudioOutputControl) :
    ∃ d0 cmd, transfers d0 = [] ∧ beats d0 = []
      ∧ (s.command ≠ Command.NONE → cmd = s.command)
      ∧ (c.tag_arrival = none → cmd = s.command)
      ∧ ((s.tags = true ∧ s.source.tag.isSome = true
            ∧ c.send_tag = some Exception.AudioOutputInterrupted
          ∧ PlayChunk now fs c s
            = ({ s with log := s.log ++ Event.PlayChunk :: d0, command := cmd,
                        source := { s.source with tag := none },
                        caught_interrupted := true }, some false))
        ∨ (¬(s.tags = true ∧ s.source.tag.isSome = true
            ∧ c.send_tag = some Exception.AudioOutputInterrupted)
          ∧ PlayChunk now fs c s
            = PlayChunk_loop now fs c.iters
                { s with log := s.log ++ Event.PlayChunk :: d0, command := cmd,
                         source := { s.source with tag := none } })) := by
  unfold PlayChunk
  dsimp only
  simp only [check_eq]
  split
  · rename_i t ht
    have htags : s.tags = true ∧ s.source.tag = some t := by
      simp only [emit] at ht
      by_cases h1 : s.tags = true
      · rw [if_pos h1] at ht
        exact ⟨h1, ht⟩
      · rw [if_neg h1] at ht
        cases ht
    refine ⟨(if decide (s.source_state = SourceState.OPEN) then [] else
        [Event.AssertionFailed Assertion.PlayChunk_source_OPEN]) ++ [Event.SendTag t],
      (arrive c.tag_arrival s).command, ?_, ?_, ?_, ?_, ?_⟩
    · split <;> rfl
    · split <;> rfl
    · intro h; simp [arrive, h]
    · intro h; rw [h, arrive_none]
    · split
      · rename_i hs
        refine Or.inl ⟨htags.1, by simp [htags.2], hs, ?_⟩
        simp [emit, arrive]
      · rename_i hs
        refine Or.inr ⟨fun h => ?_, ?_⟩
        · exact hs h.2.2
        · congr 1
          simp [emit, arrive]
  · rename_i ht
    refine ⟨(if decide (s.source_state = SourceState.OPEN) then [] else
        [Event.AssertionFailed Assertion.PlayChunk_source_OPEN]), s.command, ?_, ?_,
      fun _ => rfl, fun _ => rfl, Or.inr ⟨fun h => ?_, ?_⟩⟩
    · split <;> rfl
    · split <;> rfl
    · simp only [emit] at ht
      rw [if_pos h.1] at ht
      rw [ht] at h
      simp at h
    · congr 1
      simp [emit]

theorem check_true (a : Assertion) (s : AudioOutputControl) : check true a s = s := by
  simp [check]

/-- A wait without a command ends with `true`; it changes nothing but the log, to
which it adds no data transfer. -/
theorem WaitForDelay_calm (ws : List WaitStep) (s : AudioOutputControl)
    (hc : s.command = Command.NONE) (h : calmWait ws = true) :
    ∃ d, WaitForDelay ws s = ({ s with log := s.log ++ d }, some true) ∧ transfers d = [] := by
  induction ws generalizing s with
  | nil => simp [calmWait] at h
  | cons w ws ih =>
    rw [WaitForDelay]
    split
    · exact ⟨[], by simp, rfl⟩
    · rename_i hd
      simp only [calmWait, Bool.or_eq_true, decide_eq_true_eq, Bool.and_eq_true,
        Option.isNone_iff_eq_none] at h
      rcases h with h | ⟨ha, hw⟩
      · exact absurd h hd
      · dsimp only
        rw [ha, arrive_none]
        have key : ∀ e : Event, transfers [e] = [] →
            ∃ d, (if (emit e s).command ≠ Command.NONE then (emit e s, some false)
                else WaitForDelay ws (emit e s))
              = ({ s with log := s.log ++ d }, some true) ∧ transfers d = [] := by
          intro e he
          rw [if_neg (by simpa [emit] using hc)]
          obtain ⟨d, h1, h2⟩ := ih (emit e s) hc hw
          refine ⟨e :: d, ?_, ?_⟩
          · rw [h1]; simp [emit]
          · have := transfers_append [e] d
            rw [he, h2] at this
            simpa using this
        split
        · exact key _ rfl
        · exact key _ rfl

theorem PlayChunk_loop_calm_step (now : Nat) (fs : AudioFormat → Nat) (it : PlayIter)
    (rest : List PlayIter) (s : AudioOutputControl) (n : Nat)
    (hc : s.command = Command.NONE) (hp : s.source.pending ≠ [])
    (hw : s.skip_delay = true ∨ calmWait it.wait = true) (ha : it.arrival = none)
    (hplay : it.play = Except.ok n) (hn : 0 < n) (hle : n ≤ s.source.pending.length) :
    ∃ dw a, transfers dw = [] ∧ transfers a = []
      ∧ PlayChunk_loop now fs (it :: rest) s = PlayChunk_loop now fs rest
          { s with skip_delay := false,
                   log := s.log ++ dw ++ Event.Play s.source.pending
                            :: (a ++ [Event.SourceConsumeData n]),
                   source := { s.source with pending := s.source.pending.drop n },
                   playing := true } := by
  have hW : ∃ dw, transfers dw = [] ∧
      (if s.skip_delay = true then
        (({ s with skip_delay := false }, some true) : AudioOutputControl × Option Bool)
        else WaitForDelay it.wait s)
      = ({ s with skip_delay := false, log := s.log ++ dw }, some true) := by
    by_cases hs : s.skip_delay = true
    · rw [if_pos hs]
      exact ⟨[], rfl, by simp⟩
    · rw [if_neg hs]
      obtain ⟨d, h1, h2⟩ := WaitForDelay_calm it.wait s hc (hw.resolve_left hs)
      refine ⟨d, h2, ?_⟩
      rw [h1]
      have : s.skip_delay = false := by simpa using hs
      cases s
      simp only at this
      simp [this]
  obtain ⟨dw, hdw, hW⟩ := hW
  rw [PlayChunk_loop]
  rw [if_neg (by simp [hc]), if_neg (by simpa using hp)]
  dsimp only
  rw [hW]
  dsimp only
  rw [ha, arrive_none, hplay]
  dsimp only
  rw [show decide (n > 0) = true by simpa using hn, check_true,
    show decide (n ≤ s.source.pending.length) = true by simpa using hle, check_true]
  refine ⟨dw, (if n % fs s.device.out_audio_format = 0 then []
      else [Event.AssertionFailed Assertion.PlayChunk_frame_aligned]), hdw, ?_, ?_⟩
  · split <;> rfl
  · congr 1
    by_cases hal : n % fs s.device.out_audio_format = 0
    · have hal' := hal
      simp only [AudioOutputControl.device] at hal'
      simp [check, emit, AudioOutputControl.device, hal']
    · have hal' := hal
      simp only [AudioOutputControl.device] at hal'
      simp [check, emit, AudioOutputControl.device, hal']

theorem pending_nil_unchanged (s : AudioOutputControl) (hp : s.source.pending = []) :
    { s with skip_delay := (if ([] : List Nat) = [] then s.skip_delay else false),
             log := s.log ++ [],
             source := { s.source with pending := [] },
             playing := (if ([] : List Nat) = [] then s.playing else true) } = s := by
  cases s with
  | mk _ _ _ _ _ _ _ _ _ _ _ _ _ _ _ _ _ _ _ _ _ _ _ source _ =>
    cases source
    simp only at hp
    simp [hp]

theorem calmIters_cons {skip : Bool} {it : PlayIter} {rest : List PlayIter} {len : Nat}
    (hlen : 0 < len) (h : calmIters skip (it :: rest) len = true) :
    (skip = true ∨ calmWait it.wait = true) ∧ it.arrival = none
      ∧ ∃ n, it.play = Except.ok n ∧ 0 < n ∧ n ≤ len ∧ calmIters false rest (len - n) = true := by
  obtain ⟨k, rfl⟩ : ∃ k, len = k + 1 := ⟨len - 1, by omega⟩
  unfold calmIters at h
  simp only [Bool.and_eq_true, Bool.or_eq_true, Option.isNone_iff_eq_none] at h
  obtain ⟨⟨h1, h2⟩, h3⟩ := h
  refine ⟨h1, h2, ?_⟩
  split at h3
  · rename_i n hn
    simp only [Bool.and_eq_true, decide_eq_true_eq] at h3
    exact ⟨n, hn, h3.1.1, h3.1.2, h3.2⟩
  · cases h3

theorem PlayChunk_loop_calm (now : Nat) (fs : AudioFormat → Nat) (iters : List PlayIter)
    (s : AudioOutputControl) (hc : s.command = Command.NONE)
    (h : calmIters s.skip_delay iters s.source.pending.length = true) :
    ∃ ns d, (iters.take ns.length).map (fun it => it.play) = ns.map Except.ok
      ∧ (∀ n ∈ ns, 0 < n) ∧ ns.sum = s.source.pending.length
      ∧ transfers d = shortWrites ns s.source.pending
      ∧ PlayChunk_loop now fs iters s
          = ({ s with skip_delay := (if ns = [] then s.skip_delay else false),
                      log := s.log ++ d,
                      source := { s.source with pending := [] },
                      playing := (if ns = [] then s.playing else true) }, some true) := by
  induction iters generalizing s with
  | nil =>
    have hp : s.source.pending = [] := by
      cases hpd : s.source.pending with
      | nil => rfl
      | cons b bs => rw [hpd] at h; simp [calmIters] at h
    refine ⟨[], [], rfl, by simp, by simp [hp], rfl, ?_⟩
    rw [PlayChunk_loop, if_neg (by simp [hc]), if_pos (by simp [hp])]
    exact congrArg (fun x => (x, some true)) (pending_nil_unchanged s hp).symm
  | cons it rest ih =>
    by_cases hp : s.source.pending = []
    · refine ⟨[], [], rfl, by simp, by simp [hp], rfl, ?_⟩
      rw [PlayChunk_loop, if_neg (by simp [hc]), if_pos (by simp [hp])]
      exact congrArg (fun x => (x, some true)) (pending_nil_unchanged s hp).symm
    · have hlen : 0 < s.source.pending.length := List.length_pos.2 hp
      obtain ⟨hw, ha, n, hplay, hn, hle, hrest⟩ := calmIters_cons hlen h
      obtain ⟨dw, a, hdw, hda, hstep⟩ :=
        PlayChunk_loop_calm_step now fs it rest s n hc hp hw ha hplay hn hle
      obtain ⟨ns, d, h1, h2, h3, h4, h5⟩ := ih
        { s with skip_delay := false,
                 log := s.log ++ dw ++ Event.Play s.source.pending
                          :: (a ++ [Event.SourceConsumeData n]),
                 source := { s.source with pending := s.source.pending.drop n },
                 playing := true } hc
        (by simpa only [List.length_drop] using hrest)
      simp only [List.length_drop] at h3
      refine ⟨n :: ns, dw ++ Event.Play s.source.pending :: (a ++ [Event.SourceConsumeData n]) ++ d,
        ?_, ?_, ?_, ?_, ?_⟩
      · simp [hplay, h1]
      · intro x hx
        rcases List.mem_cons.1 hx with rfl | hx
        · exact hn
        · exact h2 x hx
      · rw [List.sum_cons, h3]
        omega
      · rw [transfers_append, transfers_append, hdw, h4]
        have : transfers (Event.Play s.source.pending :: (a ++ [Event.SourceConsumeData n]))
            = [Event.Play s.source.pending, Event.SourceConsumeData n] := by
          have e1 := transfers_append [Event.Play s.source.pending]
            (a ++ [Event.SourceConsumeData n])
          have e2 := transfers_append a [Event.SourceConsumeData n]
          rw [List.singleton_append] at e1
          rw [e1, e2, hda]
          rfl
        rw [this]
        simp [shortWrites]
      · rw [hstep, h5]
        simp

theorem pieces_flatten (ns : List Nat) (data : List Nat) (h : data.length ≤ ns.sum) :
    (pieces ns data).flatten = data := by
  induction ns generalizing data with
  | nil =>
    have : data = [] := List.length_eq_zero.1 (by simpa using h)
    rw [this]; rfl
  | cons n ns ih =>
    unfold pieces
    rw [List.flatten_cons, ih (data.drop n) (by simp only [List.length_drop, List.sum_cons] at h ⊢; omega)]
    exact List.take_append_drop n data

theorem playsWithin_cons {r : Except Exception Nat} {rest : List (Except Exception Nat)}
    {len : Nat} (hlen : 0 < len) (h : playsWithin (r :: rest) len = true) :
    ∃ n, r = Except.ok n ∧ 0 < n ∧ n ≤ len ∧ playsWithin rest (len - n) = true := by
  obtain ⟨k, rfl⟩ : ∃ k, len = k + 1 := ⟨len - 1, by omega⟩
  cases r with
  | error e => simp [playsWithin] at h
  | ok n =>
    simp only [playsWithin, Bool.and_eq_true, decide_eq_true_eq] at h
    exact ⟨n, rfl, h.1.1, h.1.2, h.2⟩

theorem PlayFull_writes (plays : List (Except Exception Nat)) (buffer : List Nat)
    (s : AudioOutputControl) (h : playsWithin plays buffer.length = true) :
    ∃ ns, plays.take ns.length = ns.map Except.ok
      ∧ (∀ n ∈ ns, 0 < n)
      ∧ ns.sum = buffer.length
      ∧ PlayFull plays buffer s
          = ({ s with log := s.log ++ fullWrites ns buffer }, Progress.completed) := by
  induction plays generalizing buffer s with
  | nil =>
    have hb : buffer = [] := by
      cases buffer with
      | nil => rfl
      | cons b bs => simp [playsWithin] at h
    refine ⟨[], rfl, by simp, by simp [hb], ?_⟩
    rw [hb]
    simp [PlayFull, fullWrites]
  | cons r rest ih =>
    cases buffer with
    | nil =>
      refine ⟨[], rfl, by simp, by simp, ?_⟩
      simp [PlayFull, fullWrites]
    | cons b bs =>
      obtain ⟨n, rfl, hn, hle, hrest⟩ := playsWithin_cons (by simp) h
      have hlen : ((b :: bs).drop n).length = (b :: bs).length - n := List.length_drop _ _
      obtain ⟨ns, h1, h2, h3, h4⟩ := ih ((b :: bs).drop n)
        (check (decide (n > 0)) Assertion.PlayFull_nbytes_positive
          (emit (Event.Play (b :: bs)) s)) (by rw [hlen]; exact hrest)
      refine ⟨n :: ns, ?_, ?_, ?_, ?_⟩
      · simp [h1]
      · intro x hx
        rcases List.mem_cons.1 hx with rfl | hx
        · exact hn
        · exact h2 x hx
      · rw [List.sum_cons, h3, hlen]; omega
      · rw [PlayFull]
        simp only [List.isEmpty_cons, Bool.false_eq_true, if_false]
        rw [h4]
        have : decide (n > 0) = true := by simpa using hn
        rw [this, check_true]
        simp [emit, fullWrites]

/-- C11: `WaitForDelay` returns false only with a command pending at that moment,
and true only when the delay reported last was not positive (all delays reported
before were positive, and the mailbox is as at the call); it returns whenever the
device reports such a delay or a client posts a command. When every delay
reported is infinite and no command is pending at the call, it returns false
exactly when a command arrives, it never returns true, it is still waiting
exactly when no command arrives, and it has waited untimed on `wake_cond` once for
each wake-up without a command and once more for the command. -/
theorem C11_WaitForDelay (ws : List WaitStep) (s : AudioOutputControl) :
    (∀ s', WaitForDelay ws s = (s', some false) → s'.command ≠ Command.NONE)
    ∧ (∀ s', WaitForDelay ws s = (s', some true) →
        s'.command = s.command
        ∧ ∃ pre w post, ws = pre ++ w :: post ∧ w.delay ≤ 0 ∧ ∀ x ∈ pre, 0 < x.delay)
    ∧ (waitEnds ws = true → (WaitForDelay ws s).2 ≠ none)
    ∧ (s.command = Command.NONE → (∀ w ∈ ws, DURATION_MAX ≤ w.delay) →
        ((WaitForDelay ws s).2 = some false ↔ ∃ w ∈ ws, w.commandArrives = true)
        ∧ (WaitForDelay ws s).2 ≠ some true
        ∧ ((WaitForDelay ws s).2 = none ↔ ∀ w ∈ ws, w.commandArrives = false)
        ∧ (WaitForDelay ws s).1.log = s.log ++
            List.replicate (min ws.length (ws.findIdx WaitStep.commandArrives + 1))
              Event.WakeCondWait) := by
  refine ⟨fun s' h => WaitForDelay_false ws s s' h, fun s' h => WaitForDelay_true ws s s' h,
    fun h => WaitForDelay_ends ws s h, fun hc hinf => ?_⟩
  obtain ⟨h1, h2, h3⟩ := WaitForDelay_infinite ws s hc hinf
  refine ⟨h1, fun ht => ?_, h2, h3⟩
  obtain ⟨-, pre, w, post, hws, hw, -⟩ :=
    WaitForDelay_true ws s (WaitForDelay ws s).1 (Prod.ext rfl ht)
  have hmem : w ∈ ws := by rw [hws]; simp
  have hpos : (0 : Int) < DURATION_MAX := by unfold DURATION_MAX; norm_num
  have := hinf w hmem
  omega

/-- C11, at an open output whose device reports an infinite delay twice; a client
posts PAUSE during the second wait. -/
theorem C11_WaitForDelay_witness :
    openState.command = Command.NONE
    ∧ (∀ w ∈ untimedWaits, DURATION_MAX ≤ w.delay)
    ∧ (WaitForDelay untimedWaits openState).2 = some false
    ∧ (WaitForDelay untimedWaits openState).1.log
        = openState.log ++ [Event.WakeCondWait, Event.WakeCondWait] :=
  ⟨by decide, by decide,
    ((C11_WaitForDelay untimedWaits openState).2.2.2 (by decide) (by decide)).1.2
      ⟨⟨DURATION_MAX, some Command.PAUSE⟩, by simp [untimedWaits], rfl⟩,
    ((C11_WaitForDelay untimedWaits openState).2.2.2 (by decide) (by decide)).2.2.2⟩

set_option maxHeartbeats 1000000 in
/-- C13 (counterexample): the source holds a tag and data, `output->SendTag` throws
an exception other than `AudioOutputInterrupted`: `PlayChunk` goes on to play the
data and returns true, the output stays open and no error is recorded. -/
theorem C13_SendTag_exception_only_logged :
    taggedState.open_ = true ∧ taggedState.tags = true ∧ taggedState.source.tag = some 7
    ∧ sendTagFails.send_tag = some (Exception.failure 5)
    ∧ (PlayChunk 2 (fun _ => 1) sendTagFails taggedState).2 = some true
    ∧ (PlayChunk 2 (fun _ => 1) sendTagFails taggedState).1.open_ = true
    ∧ (PlayChunk 2 (fun _ => 1) sendTagFails taggedState).1.last_error = none
    ∧ (PlayChunk 2 (fun _ => 1) sendTagFails taggedState).1.fail_timer.IsDefined = false
    ∧ (PlayChunk 2 (fun _ => 1) sendTagFails taggedState).1.log.drop taggedState.log.length
        = [Event.PlayChunk, Event.SendTag 7, Event.Play [1, 2, 3, 4, 5, 6],
           Event.SourceConsumeData 6] :=
  ⟨by decide, by decide, by decide, rfl, by decide, by decide, by decide, by decide, by rfl⟩

/-- C13 (amended): if `output->SendTag` throws `AudioOutputInterrupted`,
`PlayChunk` sets `caught_interrupted`, returns false and changes neither `open`
nor the stored error nor the fail timer; any other exception of `SendTag` is only
logged, `PlayChunk` goes on as if the call had returned. `PlayChunk` returns false
only after `AudioOutputInterrupted` (from `SendTag` or `Play`), with that outcome,
or after another exception of `Play`, and then the output is closed, the exception
is the stored error and the fail timer is armed. A round of the loop in which
`Play` throws ends in these outcomes, unless the wait before `Play` is still going
on or was ended by a command. -/
theorem C13_PlayChunk_exceptions (now : Nat) (fs : AudioFormat → Nat) (c : ChunkScript)
    (s : AudioOutputControl) :
    (s.tags = true → s.source.tag.isSome = true →
      c.send_tag = some Exception.AudioOutputInterrupted →
        (PlayChunk now fs c s).2 = some false
        ∧ (PlayChunk now fs c s).1.caught_interrupted = true
        ∧ (PlayChunk now fs c s).1.open_ = s.open_
        ∧ (PlayChunk now fs c s).1.last_error = s.last_error
        ∧ (PlayChunk now fs c s).1.fail_timer = s.fail_timer)
    ∧ (∀ e, c.send_tag = some e → e ≠ Exception.AudioOutputInterrupted →
        PlayChunk now fs c s = PlayChunk now fs { c with send_tag := none } s)
    ∧ (∀ s', PlayChunk now fs c s = (s', some false) →
        (((s.tags = true ∧ s.source.tag.isSome = true
              ∧ c.send_tag = some Exception.AudioOutputInterrupted)
            ∨ ∃ it ∈ c.iters, it.play = Except.error Exception.AudioOutputInterrupted)
          ∧ s'.caught_interrupted = true ∧ s'.open_ = s.open_
          ∧ s'.last_error = s.last_error ∧ s'.fail_timer = s.fail_timer)
        ∨ (∃ e, e ≠ Exception.AudioOutputInterrupted
          ∧ (∃ it ∈ c.iters, it.play = Except.error e)
          ∧ s'.open_ = false ∧ s'.last_error = some e
          ∧ s'.fail_timer = { last := some now }
          ∧ s'.source_state = SourceState.CLOSED))
    ∧ (∀ it rest t e, t.command = Command.NONE → t.source.pending ≠ [] →
        it.play = Except.error e →
          (PlayChunk_loop now fs (it :: rest) t).2 = none
          ∨ ((PlayChunk_loop now fs (it :: rest) t).2 = some true
            ∧ (PlayChunk_loop now fs (it :: rest) t).1.command ≠ Command.NONE)
          ∨ ((PlayChunk_loop now fs (it :: rest) t).2 = some false
            ∧ (e = Exception.AudioOutputInterrupted →
                (PlayChunk_loop now fs (it :: rest) t).1.caught_interrupted = true
                ∧ (PlayChunk_loop now fs (it :: rest) t).1.open_ = t.open_
                ∧ (PlayChunk_loop now fs (it :: rest) t).1.last_error = t.last_error
                ∧ (PlayChunk_loop now fs (it :: rest) t).1.fail_timer = t.fail_timer)
            ∧ (e ≠ Exception.AudioOutputInterrupted →
                (PlayChunk_loop now fs (it :: rest) t).1.open_ = false
                ∧ (PlayChunk_loop now fs (it :: rest) t).1.last_error = some e
                ∧ (PlayChunk_loop now fs (it :: rest) t).1.fail_timer = { last := some now }
                ∧ (PlayChunk_loop now fs (it :: rest) t).1.source_state
                    = SourceState.CLOSED))) := by
  refine ⟨fun h1 h2 h3 => ?_, fun e he hne => ?_, fun s' h => ?_, fun it rest t e hc hp hplay => ?_⟩
  · obtain ⟨d0, cmd, -, -, -, -, hent⟩ := PlayChunk_entry now fs c s
    rcases hent with ⟨-, -, -, e⟩ | ⟨hn, -⟩
    · rw [e]
      exact ⟨rfl, rfl, rfl, rfl, rfl⟩
    · exact absurd ⟨h1, h2, h3⟩ hn
  · unfold PlayChunk
    dsimp only
    rw [he]
    cases e with
    | AudioOutputInterrupted => exact absurd rfl hne
    | failure code => rfl
    | nested inner => rfl
  · obtain ⟨d0, cmd, -, -, -, -, hent⟩ := PlayChunk_entry now fs c s
    rcases hent with ⟨h1, h2, h3, e⟩ | ⟨-, e⟩
    · rw [e] at h
      simp only [Prod.mk.injEq, and_true] at h
      subst h
      exact Or.inl ⟨Or.inl ⟨h1, h2, h3⟩, rfl, rfl, rfl, rfl⟩
    · rw [e] at h
      rcases PlayChunk_loop_false now fs c.iters _ s' h with
        ⟨hi, q1, q2, q3, q4⟩ | ⟨x, hx, hi, q1, q2, q3, q4, -⟩
      · exact Or.inl ⟨Or.inr hi, q1, q2, q3, q4⟩
      · exact Or.inr ⟨x, hx, hi, q1, q2, q3, q4⟩
  · obtain ⟨sk, cmd, dw, -, -, hstep⟩ := PlayChunk_loop_cons now fs it rest t hc hp
    rcases hstep with h | ⟨hcmd, h⟩ | ⟨hi, h⟩ | ⟨x, hx, hne, h⟩ | ⟨n, a, hn, -, -, -⟩
    · exact Or.inl (by rw [h])
    · exact Or.inr (Or.inl (by rw [h]; exact ⟨rfl, hcmd⟩))
    · refine Or.inr (Or.inr ?_)
      rw [h]
      refine ⟨rfl, fun _ => ⟨rfl, ?_, ?_, ?_⟩, fun hne => ?_⟩
      · simp [arrive]
      · simp [arrive]
      · simp [arrive]
      · rw [hplay] at hi
        cases hi
        exact absurd rfl hne
    · refine Or.inr (Or.inr ?_)
      rw [h]
      rw [hplay] at hx
      cases hx
      refine ⟨rfl, fun he => absurd he hne, fun _ => ⟨?_, ?_, ?_, ?_⟩⟩ <;>
        simp [InternalCloseError, InternalClose, Failure, check, emit, arrive, PeriodClock.Update]
    · rw [hplay] at hn
      cases hn

/-- C13 (amended), at an open output whose source holds a tag, when `SendTag`
throws `AudioOutputInterrupted`. -/
theorem C13_PlayChunk_exceptions_witness :
    taggedState.tags = true ∧ taggedState.source.tag.isSome = true
    ∧ sendTagInterrupted.send_tag = some Exception.AudioOutputInterrupted
    ∧ (PlayChunk 2 (fun _ => 1) sendTagInterrupted taggedState).2 = some false
    ∧ (PlayChunk 2 (fun _ => 1) sendTagInterrupted taggedState).1.caught_interrupted = true
    ∧ (PlayChunk 2 (fun _ => 1) sendTagInterrupted taggedState).1.open_ = taggedState.open_
    ∧ (PlayChunk 2 (fun _ => 1) sendTagInterrupted taggedState).1.last_error
        = taggedState.last_error
    ∧ (PlayChunk 2 (fun _ => 1) sendTagInterrupted taggedState).1.fail_timer
        = taggedState.fail_timer :=
  ⟨by decide, by decide, rfl,
    (C13_PlayChunk_exceptions 2 (fun _ => 1) sendTagInterrupted taggedState).1
      (by decide) (by decide) rfl⟩

/-! ### The player control -/

theorem issued_append (l l' : List PlayerEvent) : issued (l ++ l') = issued l ++ issued l' := by
  simp [issued, List.filterMap_append]

/-- An action of the player thread adds no command to the log and leaves the
mailbox and `thread` as they are. -/
theorem PlayerThreadAction_apply_log (a : PlayerThreadAction) (s : PlayerControl) :
    ∃ d, (a.apply s).log = s.log ++ d ∧ issued d = []
      ∧ (a.apply s).command = s.command ∧ (a.apply s).thread = s.thread := by
  cases a with
  | SetState st => exact ⟨[], by simp [PlayerThreadAction.apply], rfl, rfl, rfl⟩
  | SetSeeking b => exact ⟨[], by simp [PlayerThreadAction.apply], rfl, rfl, rfl⟩
  | TakeNextSong => exact ⟨[], by simp [PlayerThreadAction.apply], rfl, rfl, rfl⟩
  | SetError type e =>
    refine ⟨(if decide (type ≠ PlayerError.NONE) then [] else
        [PlayerEvent.AssertionFailed PlayerAssertion.SetError_type_not_NONE])
        ++ [PlayerEvent.OnPlayerError], ?_, ?_, rfl, rfl⟩
    · simp only [PlayerThreadAction.apply, PlayerControl.SetError, PlayerControl.check,
        PlayerControl.emit]
      split <;> simp
    · split <;> rfl
  | ClearError => exact ⟨[], by simp [PlayerThreadAction.apply, PlayerControl.ClearError], rfl,
      rfl, rfl⟩

theorem playerThread_log (acts : List PlayerThreadAction) (s : PlayerControl) :
    ∃ d, (playerThread acts s).log = s.log ++ d ∧ issued d = []
      ∧ (playerThread acts s).command = s.command
      ∧ (playerThread acts s).thread = s.thread := by
  induction acts generalizing s with
  | nil => exact ⟨[], by simp [playerThread], rfl, rfl, rfl⟩
  | cons a acts ih =>
    obtain ⟨d1, h1, h2, h3, h4⟩ := PlayerThreadAction_apply_log a s
    obtain ⟨d2, i1, i2, i3, i4⟩ := ih (a.apply s)
    refine ⟨d1 ++ d2, ?_, ?_, ?_, ?_⟩
    · show (playerThread acts (a.apply s)).log = _
      rw [i1, h1, List.append_assoc]
    · rw [issued_append, h2, i2]; rfl
    · show (playerThread acts (a.apply s)).command = _
      rw [i3, h3]
    · show (playerThread acts (a.apply s)).thread = _
      rw [i4, h4]

/-- A synchronous command stores the command in the mailbox once; when the
player thread replies, the call returns with the mailbox free. -/
theorem SynchronousCommand_issued (reply : Option (List PlayerThreadAction))
    (cmd : PlayerCommand) (s : PlayerControl) :
    ∃ d, (s.SynchronousCommand reply cmd).1.log = s.log ++ d ∧ issued d = [cmd]
      ∧ ((s.SynchronousCommand reply cmd).2 = true ↔ reply.isSome = true)
      ∧ ((s.SynchronousCommand reply cmd).2 = true →
          (s.SynchronousCommand reply cmd).1.command = PlayerCommand.NONE)
      ∧ ((s.SynchronousCommand reply cmd).2 = false →
          (s.SynchronousCommand reply cmd).1.command = cmd) := by
  unfold PlayerControl.SynchronousCommand
  dsimp only
  cases reply with
  | none =>
    exact ⟨[PlayerEvent.Issued cmd, PlayerEvent.ClientWait], by simp [PlayerControl.emit], rfl,
      by simp, by simp, fun _ => rfl⟩
  | some acts =>
    obtain ⟨d, h1, h2, -, -⟩ := playerThread_log acts
      (PlayerControl.emit PlayerEvent.ClientWait
        (PlayerControl.emit (PlayerEvent.Issued cmd) { s with command := cmd }))
    refine ⟨[PlayerEvent.Issued cmd, PlayerEvent.ClientWait] ++ d, ?_, ?_, by simp,
      fun _ => rfl, by simp⟩
    · dsimp only
      rw [h1]
      simp [PlayerControl.emit]
    · rw [issued_append, h2]; rfl

theorem PauseLocked_issued (reply : Option (List PlayerThreadAction)) (s : PlayerControl)
    (h : s.state ≠ PlayerState.STOP) :
    (∃ d, (s.PauseLocked reply).1.log = s.log ++ d ∧ issued d = [PlayerCommand.PAUSE])
    ∧ (∀ acts, reply = some acts →
        s.PauseLocked reply
          = (PlayerControl.emit PlayerEvent.OnPlayerStateChanged
              (s.SynchronousCommand reply PlayerCommand.PAUSE).1, true))
    ∧ (reply = none → (s.PauseLocked reply).2 = false
        ∧ (s.PauseLocked reply).1.command = PlayerCommand.PAUSE) := by
  obtain ⟨d, h1, h2, h3, h4, h5⟩ := SynchronousCommand_issued reply PlayerCommand.PAUSE s
  unfold PlayerControl.PauseLocked
  rw [if_pos h]
  generalize s.SynchronousCommand reply PlayerCommand.PAUSE = r at h1 h3 h4 h5 ⊢
  obtain ⟨s1, b⟩ := r
  cases b
  · refine ⟨⟨d, h1, h2⟩, fun acts ha => ?_, fun _ => ⟨rfl, h5 rfl⟩⟩
    rw [ha] at h3
    simp at h3
  · refine ⟨⟨d ++ [PlayerEvent.OnPlayerStateChanged], ?_, ?_⟩, fun _ _ => rfl, fun hn => ?_⟩
    · dsimp only at h1 ⊢
      simp [PlayerControl.emit, h1]
    · rw [issued_append, h2]; rfl
    · rw [hn] at h3
      simp at h3

theorem lastCheckPipe_append_singleton (l : List PlayerEvent) (n : Nat) :
    lastCheckPipe (l ++ [PlayerEvent.CheckPipe n]) = some n := by
  simp [lastCheckPipe, List.filterMap_append]

/-- C14: `WaitOutputConsumed` returns true without waiting if the first
`outputs.CheckPipe()` is below the threshold; otherwise it returns false without
waiting if a command is pending; otherwise it waits once and returns whether the
second `outputs.CheckPipe()`, made after the wake-up, is below the threshold
(while the thread is not woken, the call is still waiting). In all cases the
result is the comparison of the last `CheckPipe()` with the threshold, and the
thread has waited at most once. -/
theorem C14_WaitOutputConsumed (p : PipeScript) (threshold : Nat) (s : PlayerControl) :
    (p.first < threshold →
      s.WaitOutputConsumed p threshold = (s.emit (PlayerEvent.CheckPipe p.first), some true))
    ∧ (¬ p.first < threshold → s.command ≠ PlayerCommand.NONE →
      s.WaitOutputConsumed p threshold = (s.emit (PlayerEvent.CheckPipe p.first), some false))
    ∧ (¬ p.first < threshold → s.command = PlayerCommand.NONE →
      (∀ a second, p.wake = some (a, second) →
        s.WaitOutputConsumed p threshold
          = ((((s.emit (PlayerEvent.CheckPipe p.first)).emit PlayerEvent.Wait).arrive a).emit
              (PlayerEvent.CheckPipe second), some (decide (second < threshold))))
      ∧ (p.wake = none →
        s.WaitOutputConsumed p threshold
          = ((s.emit (PlayerEvent.CheckPipe p.first)).emit PlayerEvent.Wait, none)))
    ∧ (∀ b, (s.WaitOutputConsumed p threshold).2 = some b →
        ∃ n, lastCheckPipe (s.WaitOutputConsumed p threshold).1.log = some n
          ∧ b = decide (n < threshold))
    ∧ ((s.WaitOutputConsumed p threshold).1.log.drop s.log.length).count PlayerEvent.Wait
        ≤ 1 := by
  have e1 : p.first < threshold →
      s.WaitOutputConsumed p threshold = (s.emit (PlayerEvent.CheckPipe p.first), some true) := by
    intro h
    unfold PlayerControl.WaitOutputConsumed
    simp [h]
  have e2 : ¬ p.first < threshold → s.command ≠ PlayerCommand.NONE →
      s.WaitOutputConsumed p threshold
        = (s.emit (PlayerEvent.CheckPipe p.first), some false) := by
    intro h hc
    unfold PlayerControl.WaitOutputConsumed
    simp [h, hc, PlayerControl.emit]
  have e3 : ¬ p.first < threshold → s.command = PlayerCommand.NONE →
      ∀ a second, p.wake = some (a, second) →
        s.WaitOutputConsumed p threshold
          = ((((s.emit (PlayerEvent.CheckPipe p.first)).emit PlayerEvent.Wait).arrive a).emit
              (PlayerEvent.CheckPipe second), some (decide (second < threshold))) := by
    intro h hc a second hw
    unfold PlayerControl.WaitOutputConsumed
    simp [h, hc, hw, PlayerControl.emit]
  have e4 : ¬ p.first < threshold → s.command = PlayerCommand.NONE → p.wake = none →
      s.WaitOutputConsumed p threshold
        = ((s.emit (PlayerEvent.CheckPipe p.first)).emit PlayerEvent.Wait, none) := by
    intro h hc hw
    unfold PlayerControl.WaitOutputConsumed
    simp [h, hc, hw, PlayerControl.emit]
  refine ⟨e1, e2, fun h hc => ⟨e3 h hc, e4 h hc⟩, ?_, ?_⟩
  · intro b hb
    by_cases h : p.first < threshold
    · rw [e1 h] at hb ⊢
      cases hb
      exact ⟨p.first, lastCheckPipe_append_singleton _ _, by simp [h]⟩
    · by_cases hc : s.command = PlayerCommand.NONE
      · cases hw : p.wake with
        | none => rw [e4 h hc hw] at hb; cases hb
        | some w =>
          obtain ⟨a, second⟩ := w
          rw [e3 h hc a second hw] at hb ⊢
          cases hb
          exact ⟨second, lastCheckPipe_append_singleton _ _, rfl⟩
      · rw [e2 h hc] at hb ⊢
        cases hb
        exact ⟨p.first, lastCheckPipe_append_singleton _ _, by simp [h]⟩
  · by_cases h : p.first < threshold
    · rw [e1 h]
      simp [PlayerControl.emit]
    · by_cases hc : s.command = PlayerCommand.NONE
      · cases hw : p.wake with
        | none =>
          rw [e4 h hc hw]
          simp [PlayerControl.emit]
        | some w =>
          obtain ⟨a, second⟩ := w
          rw [e3 h hc a second hw]
          simp [PlayerControl.emit, PlayerControl.arrive]
      · rw [e2 h hc]
        simp [PlayerControl.emit]

/-- C14, when the pipe holds 5 chunks at first, the threshold is 4, and the pipe
holds 3 chunks after the wake-up. -/
theorem C14_WaitOutputConsumed_witness :
    ¬ (5 < 4) ∧ playingPlayer.command = PlayerCommand.NONE
    ∧ playingPlayer.WaitOutputConsumed { first := 5, wake := some (none, 3) } 4
        = ((((playingPlayer.emit (PlayerEvent.CheckPipe 5)).emit PlayerEvent.Wait).arrive
              none).emit (PlayerEvent.CheckPipe 3), some (decide (3 < 4))) :=
  ⟨by decide, by decide,
    ((C14_WaitOutputConsumed { first := 5, wake := some (none, 3) } 4 playingPlayer).2.2.1
      (by decide) (by decide)).1 none 3 rfl⟩

/-- C15: `LockSetPause(p)` stores the PAUSE command in the mailbox of the player
thread (once) if and only if the thread is running and either the state is PLAY
and `p` is true or the state is PAUSE and `p` is false. In that case it returns,
after the reply of the player thread, with a notification of the listener; while
there is no reply the caller waits with PAUSE in the mailbox. In every other case
it returns at once and nothing changes: no command is sent and no listener is
notified; so it is for `LockSetPause(true)` in state PAUSE, and for either value
in state STOP. -/
theorem C15_LockSetPause (reply : Option (List PlayerThreadAction)) (p : Bool)
    (s : PlayerControl) :
    ((s.thread = true ∧ ((s.state = PlayerState.PLAY ∧ p = true)
          ∨ (s.state = PlayerState.PAUSE ∧ p = false))) →
      (∃ d, (s.LockSetPause reply p).1.log = s.log ++ d ∧ issued d = [PlayerCommand.PAUSE])
      ∧ (∀ acts, reply = some acts →
          s.LockSetPause reply p
            = (PlayerControl.emit PlayerEvent.OnPlayerStateChanged
                (s.SynchronousCommand reply PlayerCommand.PAUSE).1, true))
      ∧ (reply = none → (s.LockSetPause reply p).2 = false
          ∧ (s.LockSetPause reply p).1.command = PlayerCommand.PAUSE))
    ∧ (¬(s.thread = true ∧ ((s.state = PlayerState.PLAY ∧ p = true)
          ∨ (s.state = PlayerState.PAUSE ∧ p = false))) →
      s.LockSetPause reply p = (s, true))
    ∧ (s.state = PlayerState.PAUSE → s.LockSetPause reply true = (s, true))
    ∧ (s.state = PlayerState.STOP → s.LockSetPause reply p = (s, true)) := by
  refine ⟨fun h => ?_, fun h => ?_, fun h => ?_, fun h => ?_⟩
  · obtain ⟨ht, h | h⟩ := h
    · have e : s.LockSetPause reply p = s.PauseLocked reply := by
        unfold PlayerControl.LockSetPause
        rw [if_neg (by simp [ht]), h.1, h.2]
        rfl
      rw [e]
      exact PauseLocked_issued reply s (by rw [h.1]; decide)
    · have e : s.LockSetPause reply p = s.PauseLocked reply := by
        unfold PlayerControl.LockSetPause
        rw [if_neg (by simp [ht]), h.1, h.2]
        rfl
      rw [e]
      exact PauseLocked_issued reply s (by rw [h.1]; decide)
  · unfold PlayerControl.LockSetPause
    by_cases ht : s.thread = true
    · rw [if_neg (by simp [ht])]
      cases hs : s.state with
      | STOP => rfl
      | PLAY =>
        cases p with
        | false => rfl
        | true => exact absurd ⟨ht, Or.inl ⟨hs, rfl⟩⟩ h
      | PAUSE =>
        cases p with
        | true => rfl
        | false => exact absurd ⟨ht, Or.inr ⟨hs, rfl⟩⟩ h
    · rw [if_pos (by simpa using ht)]
  · unfold PlayerControl.LockSetPause
    split
    · rfl
    · rw [h]; rfl
  · unfold PlayerControl.LockSetPause
    split
    · rfl
    · rw [h]

/-- C15, for `LockSetPause(false)` on a paused player whose thread replies. -/
theorem C15_LockSetPause_witness :
    (pausedPlayer.thread = true ∧ ((pausedPlayer.state = PlayerState.PLAY ∧ false = true)
          ∨ (pausedPlayer.state = PlayerState.PAUSE ∧ false = false)))
    ∧ (∃ d, (pausedPlayer.LockSetPause (some [PlayerThreadAction.SetState PlayerState.PLAY])
          false).1.log = pausedPlayer.log ++ d ∧ issued d = [PlayerCommand.PAUSE])
    ∧ pausedPlayer.LockSetPause none true = (pausedPlayer, true) :=
  ⟨by decide,
    ((C15_LockSetPause (some [PlayerThreadAction.SetState PlayerState.PLAY]) false
      pausedPlayer).1 (by decide)).1,
    (C15_LockSetPause none true pausedPlayer).2.2.1 rfl⟩

/-- On a controller with `always_off` that is not really enabled, not open and has
no thread, a call changes nothing but `enabled`, and `LockUpdate` returns false. -/
theorem ClientCall_run_always_off (c : ClientCall) (s : AudioOutputControl)
    (hoff : s.always_off = true) (hre : s.really_enabled = false) (hopen : s.open_ = false) :
    ∃ en r, c.run s = some ({ s with enabled := en }, r) ∧ (r = none ∨ r = some false) := by
  cases c with
  | LockSetEnabled b =>
    refine ⟨b, none, ?_, Or.inl rfl⟩
    unfold ClientCall.run LockSetEnabled
    dsimp only
    split
    · rename_i h
      rw [h]
    · rfl
  | LockToggleEnabled => exact ⟨!s.enabled, none, rfl, Or.inl rfl⟩
  | EnableDisableAsync env =>
    refine ⟨s.enabled, none, ?_, Or.inl rfl⟩
    unfold ClientCall.run EnableDisableAsync
    dsimp only
    split
    · rfl
    · split
      · unfold EnableAsync
        split
        · rfl
        · rfl
      · rename_i h1 h2
        rw [hre] at h1
        exact absurd (by simpa using h2) h1
  | LockUpdate w f mp force =>
    refine ⟨s.enabled, some false, ?_, Or.inr rfl⟩
    unfold ClientCall.run LockUpdate
    dsimp only
    rw [if_neg (by simp [hre]), if_neg (by simp [IsOpen, hopen])]

/-! ### The rhythm of the notifications in `InternalPlay` -/

theorem rhythm_zero (m : Nat) : rhythm m 0 = [] := rfl

theorem rhythm_succ (m k : Nat) : rhythm m (k + 1) = beat (m + 1) ++ rhythm (m + 1) k := by
  unfold rhythm
  rw [List.range_succ_eq_map, List.flatMap_cons, List.flatMap_map]
  congr 1
  apply List.flatMap_congr
  intro i _
  congr 1
  omega

theorem InternalCloseError_log (e : Exception) (now : Nat) (s : AudioOutputControl) :
    ∃ d, (InternalCloseError e now s).log = s.log ++ d ∧ beats d = [] := by
  refine ⟨(if IsOpen (Failure e now s) then [] else
      [Event.AssertionFailed Assertion.InternalClose_IsOpen])
      ++ [Event.Close false, Event.SourceClose], ?_, ?_⟩
  · simp [InternalCloseError, InternalClose, check_eq, emit, Failure]
  · split <;> rfl

theorem PlayChunk_loop_beats (now : Nat) (fs : AudioFormat → Nat) (iters : List PlayIter)
    (s : AudioOutputControl) :
    ∃ d, (PlayChunk_loop now fs iters s).1.log = s.log ++ d ∧ beats d = [] := by
  induction iters generalizing s with
  | nil =>
    refine ⟨[], ?_, rfl⟩
    rw [PlayChunk_loop]
    split
    · simp
    · dsimp only
      split <;> simp
  | cons it rest ih =>
    by_cases hc : s.command = Command.NONE
    swap
    · rw [PlayChunk_loop, if_pos hc]
      exact ⟨[], by simp, rfl⟩
    by_cases hp : s.source.pending = []
    · rw [PlayChunk_loop, if_neg (by simp [hc]), if_pos (by simp [hp])]
      exact ⟨[], by simp, rfl⟩
    obtain ⟨sk, cmd, dw, -, hdw, hstep⟩ := PlayChunk_loop_cons now fs it rest s hc hp
    have hplay : beats (dw ++ [Event.Play s.source.pending]) = [] := by
      rw [beats_append, hdw]; rfl
    rcases hstep with e | ⟨-, e⟩ | ⟨-, e⟩ | ⟨x, -, -, e⟩ | ⟨n, a, -, -, ha, e⟩
    · rw [e]; exact ⟨dw, rfl, hdw⟩
    · rw [e]; exact ⟨dw, rfl, hdw⟩
    · rw [e]
      exact ⟨dw ++ [Event.Play s.source.pending], by simp [arrive], hplay⟩
    · rw [e]
      obtain ⟨d, h1, h2⟩ := InternalCloseError_log x now (arrive it.arrival
        { s with skip_delay := sk, command := cmd,
                 log := s.log ++ dw ++ [Event.Play s.source.pending] })
      refine ⟨dw ++ [Event.Play s.source.pending] ++ d, ?_, ?_⟩
      · rw [h1]; simp [arrive]
      · rw [beats_append, hplay, h2]; rfl
    · rw [e]
      obtain ⟨d, h1, h2⟩ := ih
        { arrive it.arrival { s with skip_delay := sk, command := cmd } with
          log := s.log ++ dw ++ Event.Play s.source.pending
                   :: (a ++ [Event.SourceConsumeData n]),
          source := { s.source with pending := s.source.pending.drop n },
          playing := true }
      refine ⟨dw ++ Event.Play s.source.pending :: (a ++ [Event.SourceConsumeData n]) ++ d,
        by rw [h1]; simp, ?_⟩
      rw [beats_append, beats_append, hdw, h2]
      have e1 := beats_append [Event.Play s.source.pending] (a ++ [Event.SourceConsumeData n])
      have e2 := beats_append a [Event.SourceConsumeData n]
      rw [List.singleton_append] at e1
      rw [e1, e2, ha]
      rfl

/-- A call of `PlayChunk` adds one beat to the log: its own entry. -/
theorem PlayChunk_beats (now : Nat) (fs : AudioFormat → Nat) (c : ChunkScript)
    (s : AudioOutputControl) :
    ∃ d, (PlayChunk now fs c s).1.log = s.log ++ d ∧ beats d = [Event.PlayChunk] := by
  obtain ⟨d0, cmd, -, hd0, -, -, hent⟩ := PlayChunk_entry now fs c s
  have hb : ∀ d, beats d = [] → beats (Event.PlayChunk :: d0 ++ d) = [Event.PlayChunk] := by
    intro d hd
    have e1 := beats_append (Event.PlayChunk :: d0) d
    have e2 := beats_append [Event.PlayChunk] d0
    rw [List.singleton_append] at e2
    rw [e1, e2, hd0, hd]
    rfl
  rcases hent with ⟨-, -, -, e⟩ | ⟨-, e⟩
  · rw [e]
    exact ⟨Event.PlayChunk :: d0, rfl, by simpa using hb [] rfl⟩
  · rw [e]
    obtain ⟨d, h1, h2⟩ := PlayChunk_loop_beats now fs c.iters
      { s with log := s.log ++ Event.PlayChunk :: d0, command := cmd,
               source := { s.source with tag := none } }
    exact ⟨Event.PlayChunk :: d0 ++ d, by rw [h1]; simp, hb d h2⟩

theorem FillSourceOrClose_beats (now : Nat) (o : FillOutcome) (s : AudioOutputControl) :
    ∃ d, (FillSourceOrClose now o s).2.log = s.log ++ d ∧ beats d = [] := by
  unfold FillSourceOrClose
  dsimp only
  have h0 : beats ((if decide (s.source_state = SourceState.OPEN) then [] else
      [Event.AssertionFailed Assertion.FillSourceOrClose_source_OPEN]) ++ [Event.SourceFill])
      = [] := by
    split <;> rfl
  split
  · exact ⟨(if decide (s.source_state = SourceState.OPEN) then [] else
      [Event.AssertionFailed Assertion.FillSourceOrClose_source_OPEN]) ++ [Event.SourceFill],
      by simp [check_eq, emit, arrive], h0⟩
  · rename_i e _
    obtain ⟨d, h1, h2⟩ := InternalCloseError_log e now
      (arrive o.arrival (emit Event.SourceFill
        (check (decide (s.source_state = SourceState.OPEN))
          Assertion.FillSourceOrClose_source_OPEN s)))
    refine ⟨(if decide (s.source_state = SourceState.OPEN) then [] else
      [Event.AssertionFailed Assertion.FillSourceOrClose_source_OPEN]) ++ [Event.SourceFill]
      ++ d, ?_, ?_⟩
    · dsimp only
      rw [h1]
      simp [check_eq, emit, arrive]
    · rw [beats_append, h2, h0]
      rfl

theorem InternalPlay_finish_beats (a : Option Command) (s : AudioOutputControl) :
    (InternalPlay_finish a s).2 = some true
    ∧ ∃ d, (InternalPlay_finish a s).1.log = s.log ++ d ∧ beats d = [Event.ChunksConsumed] := by
  refine ⟨rfl, Event.ChunksConsumed :: (if (arrive a (emit Event.ChunksConsumed s)).in_playback_loop
      then [] else [Event.AssertionFailed Assertion.InternalPlay_in_playback_loop]), ?_, ?_⟩
  · simp [InternalPlay_finish, check_eq, emit, arrive]
  · split <;> rfl

/-- One round of the drive loop of `InternalPlay` that is entered without a
pending command, when `m` rounds have gone before. -/
theorem InternalPlay_loop_cons (now : Nat) (fs : AudioFormat → Nat) (fa : Option Command)
    (st : PlayStep) (rest : List PlayStep) (m : Nat) (s : AudioOutputControl)
    (hc : s.command = Command.NONE) :
    InternalPlay_loop now fs fa (st :: rest) (m % 64) s =
      match PlayChunk now fs st.chunk
          (if (m + 1) % 64 = 0 then arrive st.consumed_arrival (emit Event.ChunksConsumed s)
            else s) with
      | (s2, none) => (s2, none)
      | (s2, some false) => InternalPlay_finish fa s2
      | (s2, some true) =>
        match FillSourceOrClose now st.fill s2 with
        | (true, s3) => InternalPlay_loop now fs fa rest ((m + 1) % 64) s3
        | (false, s3) => InternalPlay_finish fa s3 := by
  rw [InternalPlay_loop, if_neg (by simp [hc])]
  dsimp only
  by_cases h : (m + 1) % 64 = 0
  · have h' : m % 64 + 1 ≥ 64 := by omega
    rw [if_pos h', if_pos h, h]
  · have h' : ¬ m % 64 + 1 ≥ 64 := by omega
    have h2 : m % 64 + 1 = (m + 1) % 64 := by omega
    rw [if_neg h', if_neg h, h2]

/-- In every run of the drive loop of `InternalPlay` that starts when `m` rounds
have gone before, the beats added to the log are those of `k` rounds, followed by
the final notification unless the loop is still running or was left because a
command was pending at the top of a round. -/
theorem InternalPlay_loop_beats (now : Nat) (fs : AudioFormat → Nat) (fa : Option Command)
    (steps : List PlayStep) (m : Nat) (s : AudioOutputControl) :
    ∃ k d, ∃ final : Bool, k ≤ steps.length
      ∧ (InternalPlay_loop now fs fa steps (m % 64) s).1.log = s.log ++ d
      ∧ beats d = rhythm m k ++ (if final = true then [Event.ChunksConsumed] else [])
      ∧ (final = true → (InternalPlay_loop now fs fa steps (m % 64) s).2 = some true ∧ 1 ≤ k)
      ∧ (final = false → (InternalPlay_loop now fs fa steps (m % 64) s).2 = some true →
          (InternalPlay_loop now fs fa steps (m % 64) s).1.command ≠ Command.NONE) := by
  induction steps generalizing m s with
  | nil =>
    rw [InternalPlay_loop]
    split
    · rename_i hc
      refine ⟨0, (if s.in_playback_loop then [] else
          [Event.AssertionFailed Assertion.InternalPlay_in_playback_loop]), false, le_refl _,
        by simp [check_eq], ?_, by simp, fun _ _ => ?_⟩
      · split <;> rfl
      · simpa [check_eq] using hc
    · exact ⟨0, [], false, le_refl _, by simp, rfl, by simp, by simp⟩
  | cons st rest ih =>
    by_cases hc : s.command = Command.NONE
    swap
    · rw [InternalPlay_loop, if_pos hc]
      refine ⟨0, (if s.in_playback_loop then [] else
          [Event.AssertionFailed Assertion.InternalPlay_in_playback_loop]), false,
        Nat.zero_le _, by simp [check_eq], ?_, by simp, fun _ _ => ?_⟩
      · split <;> rfl
      · simpa [check_eq] using hc
    rw [InternalPlay_loop_cons now fs fa st rest m s hc]
    have h1 : ∃ c1, (if (m + 1) % 64 = 0 then
          arrive st.consumed_arrival (emit Event.ChunksConsumed s) else s).log = s.log ++ c1
        ∧ beats c1 = (if (m + 1) % 64 = 0 then [Event.ChunksConsumed] else []) := by
      split
      · exact ⟨[Event.ChunksConsumed], rfl, rfl⟩
      · exact ⟨[], by simp, rfl⟩
    obtain ⟨c1, hl1, hb1⟩ := h1
    generalize (if (m + 1) % 64 = 0 then
      arrive st.consumed_arrival (emit Event.ChunksConsumed s) else s) = s1 at hl1 ⊢
    obtain ⟨d2, hl2, hb2⟩ := PlayChunk_beats now fs st.chunk s1
    generalize PlayChunk now fs st.chunk s1 = r at hl2 ⊢
    obtain ⟨s2, o⟩ := r
    replace hl2 : s2.log = s.log ++ (c1 ++ d2) := by
      rw [show s2.log = s1.log ++ d2 from hl2, hl1, List.append_assoc]
    have hbeat : beats (c1 ++ d2) = beat (m + 1) := by
      rw [beats_append, hb1, hb2]; rfl
    have hr1 : rhythm m 1 = beat (m + 1) := by
      rw [rhythm_succ, rhythm_zero, List.append_nil]
    have hfin : ∀ t : AudioOutputControl, ∀ dt, t.log = s.log ++ (c1 ++ d2 ++ dt) → beats dt = [] →
        ∃ k d, ∃ final : Bool, k ≤ (st :: rest).length
          ∧ (InternalPlay_finish fa t).1.log = s.log ++ d
          ∧ beats d = rhythm m k ++ (if final = true then [Event.ChunksConsumed] else [])
          ∧ (final = true → (InternalPlay_finish fa t).2 = some true ∧ 1 ≤ k)
          ∧ (final = false → (InternalPlay_finish fa t).2 = some true →
              (InternalPlay_finish fa t).1.command ≠ Command.NONE) := by
      intro t dt ht hdt
      obtain ⟨hf1, df, hf2, hf3⟩ := InternalPlay_finish_beats fa t
      refine ⟨1, c1 ++ d2 ++ dt ++ df, true, by simp, ?_, ?_, fun _ => ⟨hf1, le_refl _⟩,
        by simp⟩
      · rw [hf2, ht]; simp
      · rw [beats_append, beats_append, hbeat, hdt, hf3, hr1]; simp
    rcases o with _ | _ | _
    · exact ⟨1, c1 ++ d2, false, by simp, hl2, by rw [hbeat, hr1]; simp, by simp, by simp⟩
    · exact hfin s2 [] (by simpa using hl2) rfl
    · dsimp only
      obtain ⟨d3, hl3, hb3⟩ := FillSourceOrClose_beats now st.fill s2
      generalize FillSourceOrClose now st.fill s2 = r at hl3 ⊢
      obtain ⟨b, s3⟩ := r
      replace hl3 : s3.log = s.log ++ (c1 ++ d2 ++ d3) := by
        rw [show s3.log = s2.log ++ d3 from hl3, hl2]; simp
      cases b
      · exact hfin s3 d3 hl3 hb3
      · dsimp only
        obtain ⟨k, d, final, hk, hl, hb, hf1, hf2⟩ := ih (m + 1) s3
        refine ⟨k + 1, c1 ++ d2 ++ d3 ++ d, final, by simpa using hk, ?_, ?_,
          fun h => ⟨(hf1 h).1, by omega⟩, hf2⟩
        · rw [hl, hl3]; simp
        · rw [beats_append, beats_append, hbeat, hb3, hb, rhythm_succ]; simp

/-- A call of `PlayChunk` without a command and without an exception returns true
and leaves the mailbox free. -/
theorem PlayChunk_calm (now : Nat) (fs : AudioFormat → Nat) (c : ChunkScript)
    (s : AudioOutputControl) (hc : s.command = Command.NONE)
    (hcalm : c.calm s.skip_delay s.source.pending.length = true) :
    ∃ s', PlayChunk now fs c s = (s', some true) ∧ s'.command = Command.NONE
      ∧ s'.skip_delay = (s.skip_delay && decide (s.source.pending.length = 0)) := by
  obtain ⟨d0, cmd, -, -, -, hcmd, hent⟩ := PlayChunk_entry now fs c s
  simp only [ChunkScript.calm, Bool.and_eq_true, Option.isNone_iff_eq_none] at hcalm
  obtain ⟨⟨hst, hta⟩, hit⟩ := hcalm
  rcases hent with ⟨-, -, hs, -⟩ | ⟨-, e⟩
  · rw [hst] at hs; cases hs
  · have hcmd' : cmd = Command.NONE := (hcmd hta).trans hc
    obtain ⟨ns, d, h1, h2, h3, h4, h5⟩ := PlayChunk_loop_calm now fs c.iters
      { s with log := s.log ++ Event.PlayChunk :: d0, command := cmd,
               source := { s.source with tag := none } } hcmd' hit
    dsimp only at h3 h5
    rw [e, h5]
    refine ⟨_, rfl, hcmd', ?_⟩
    dsimp only
    by_cases hn : ns = []
    · subst hn
      simp only [List.sum_nil] at h3
      simp [← h3]
    · have : s.source.pending.length ≠ 0 := by
        intro h0
        rw [h0] at h3
        cases ns with
        | nil => exact hn rfl
        | cons n ns =>
          have := h2 n (List.mem_cons_self _ _)
          simp only [List.sum_cons] at h3
          omega
      simp [hn, this]

/-- A run of the drive loop of `InternalPlay` without a command and without a
failure, after `m` rounds that have gone before: the loop returns true, and the
beats it adds to the log are those of one round for each step of the script and
the final notification. -/
theorem InternalPlay_loop_calm (now : Nat) (fs : AudioFormat → Nat) (fa : Option Command)
    (steps : List PlayStep) (m : Nat) (s : AudioOutputControl)
    (hc : s.command = Command.NONE)
    (hcalm : calmSteps s.skip_delay s.source.pending.length steps = true) :
    (InternalPlay_loop now fs fa steps (m % 64) s).2 = some true
    ∧ ∃ d, (InternalPlay_loop now fs fa steps (m % 64) s).1.log = s.log ++ d
      ∧ beats d = rhythm m steps.length ++ [Event.ChunksConsumed] := by
  induction steps generalizing m s with
  | nil => simp [calmSteps] at hcalm
  | cons st rest ih =>
    rw [InternalPlay_loop_cons now fs fa st rest m s hc]
    simp only [calmSteps, Bool.and_eq_true, Option.isNone_iff_eq_none] at hcalm
    obtain ⟨⟨⟨hca, hch⟩, hfa⟩, hfill⟩ := hcalm
    have h1 : ∃ c1 s1, (if (m + 1) % 64 = 0 then
          arrive st.consumed_arrival (emit Event.ChunksConsumed s) else s) = s1
        ∧ s1.log = s.log ++ c1
        ∧ beats c1 = (if (m + 1) % 64 = 0 then [Event.ChunksConsumed] else [])
        ∧ s1.command = Command.NONE ∧ s1.skip_delay = s.skip_delay
        ∧ s1.source = s.source := by
      split
      · rw [hca, arrive_none]
        exact ⟨[Event.ChunksConsumed], _, rfl, rfl, rfl, hc, rfl, rfl⟩
      · exact ⟨[], _, rfl, by simp, rfl, hc, rfl, rfl⟩
    obtain ⟨c1, s1, hs1, hl1, hb1, hc1, hk1, hsrc1⟩ := h1
    rw [hs1]
    obtain ⟨s2, hpc, hc2, hk2⟩ := PlayChunk_calm now fs st.chunk s1 hc1
      (by rw [hk1, hsrc1]; exact hch)
    obtain ⟨d2, hl2, hb2⟩ := PlayChunk_beats now fs st.chunk s1
    rw [hpc] at hl2 ⊢
    replace hl2 : s2.log = s.log ++ (c1 ++ d2) := by
      rw [show s2.log = s1.log ++ d2 from hl2, hl1, List.append_assoc]
    have hbeat : beats (c1 ++ d2) = beat (m + 1) := by
      rw [beats_append, hb1, hb2]; rfl
    dsimp only
    obtain ⟨d3, hl3, hb3⟩ := FillSourceOrClose_beats now st.fill s2
    have hF : ∀ b src, st.fill.result = Except.ok (b, src) →
        ∃ s3, FillSourceOrClose now st.fill s2 = (b, s3) ∧ s3.command = Command.NONE
          ∧ s3.skip_delay = s2.skip_delay ∧ s3.source = src := by
      intro b src hres
      unfold FillSourceOrClose
      dsimp only
      rw [hres, hfa, arrive_none]
      exact ⟨_, rfl, by simpa [check_eq, emit] using hc2, by simp [check_eq, emit], rfl⟩
    cases hres : st.fill.result with
    | error e => rw [hres] at hfill; simp at hfill
    | ok r =>
      obtain ⟨b, src⟩ := r
      rw [hres] at hfill
      obtain ⟨s3, hf, hc3, hk3, hsrc3⟩ := hF b src hres
      rw [hf] at hl3 ⊢
      replace hl3 : s3.log = s.log ++ (c1 ++ d2 ++ d3) := by
        rw [show s3.log = s2.log ++ d3 from hl3, hl2]; simp
      cases b
      · dsimp only at hfill ⊢
        have hrest : rest = [] := by simpa using hfill
        subst hrest
        obtain ⟨hf1, df, hf2, hf3⟩ := InternalPlay_finish_beats fa s3
        refine ⟨hf1, c1 ++ d2 ++ d3 ++ df, ?_, ?_⟩
        · rw [hf2, hl3]; simp
        · rw [beats_append, beats_append, hbeat, hb3, hf3]
          simp [rhythm_succ, rhythm_zero]
      · dsimp only at hfill ⊢
        obtain ⟨i1, d, i2, i3⟩ := ih (m + 1) s3 hc3
          (by rw [hk3, hk2, hk1, hsrc3, hsrc1]; exact hfill)
        refine ⟨i1, c1 ++ d2 ++ d3 ++ d, ?_, ?_⟩
        · rw [i2, hl3]; simp
        · rw [beats_append, beats_append, hbeat, hb3, i3]
          simp [rhythm_succ]

/-- The head of `InternalPlay`: when the first `source.Fill` delivers a chunk, the
drive loop is entered in a state that differs from the state after the `Fill` in
the log and in `in_playback_loop`. -/
theorem InternalPlay_entry (now : Nat) (fs : AudioFormat → Nat) (p : PlayScript)
    (s : AudioOutputControl) :
    ∃ d0 b s1, beats d0 = [] ∧ s1.log = s.log ++ d0
      ∧ FillSourceOrClose now p.first_fill
          (check (decide ((emit (Event.Call Fn.InternalPlay) s).source_state = SourceState.OPEN))
            Assertion.InternalPlay_source_OPEN (emit (Event.Call Fn.InternalPlay) s))
        = (b, s1)
      ∧ (b = false → InternalPlay now fs p s = (s1, some false))
      ∧ (b = true → ∃ d1, beats d1 = []
          ∧ InternalPlay now fs p s
            = InternalPlay_loop now fs p.final_arrival p.steps 0
                { s1 with log := s1.log ++ d1, in_playback_loop := true }) := by
  obtain ⟨d, h1, h2⟩ := FillSourceOrClose_beats now p.first_fill
    (check (decide ((emit (Event.Call Fn.InternalPlay) s).source_state = SourceState.OPEN))
      Assertion.InternalPlay_source_OPEN (emit (Event.Call Fn.InternalPlay) s))
  unfold InternalPlay
  dsimp only
  generalize FillSourceOrClose now p.first_fill
    (check (decide ((emit (Event.Call Fn.InternalPlay) s).source_state = SourceState.OPEN))
      Assertion.InternalPlay_source_OPEN (emit (Event.Call Fn.InternalPlay) s)) = r at h1 ⊢
  obtain ⟨b, s1⟩ := r
  refine ⟨Event.Call Fn.InternalPlay :: (if decide (s.source_state = SourceState.OPEN) then []
      else [Event.AssertionFailed Assertion.InternalPlay_source_OPEN]) ++ d, b, s1, ?_, ?_, rfl,
    ?_, ?_⟩
  · rw [beats_append, h2]
    split <;> rfl
  · rw [show s1.log = _ from h1]
    simp [check_eq, emit]
  · rintro rfl; rfl
  · rintro rfl
    refine ⟨(if (!s1.in_playback_loop) = true then [] else
      [Event.AssertionFailed Assertion.InternalPlay_not_in_playback_loop]), ?_, ?_⟩
    · split <;> rfl
    · dsimp only
      congr 1
      simp [check_eq]

/-- In every run of `InternalPlay` the beats added to the log are those of `k`
rounds of the drive loop, counted from the first, followed by the final
notification unless the function has not returned, has returned false, or has
returned because a command was pending at the top of a round. -/
theorem InternalPlay_beats (now : Nat) (fs : AudioFormat → Nat) (p : PlayScript)
    (s : AudioOutputControl) :
    ∃ k d, ∃ final : Bool, k ≤ p.steps.length
      ∧ (InternalPlay now fs p s).1.log = s.log ++ d
      ∧ beats d = rhythm 0 k ++ (if final = true then [Event.ChunksConsumed] else [])
      ∧ (final = true → (InternalPlay now fs p s).2 = some true ∧ 1 ≤ k)
      ∧ (final = false → (InternalPlay now fs p s).2 = some true →
          (InternalPlay now fs p s).1.command ≠ Command.NONE) := by
  obtain ⟨d0, b, s1, hd0, hl0, -, hf, ht⟩ := InternalPlay_entry now fs p s
  cases b
  · rw [hf rfl]
    exact ⟨0, d0, false, Nat.zero_le _, hl0, by rw [hd0]; rfl, by simp, by simp⟩
  · obtain ⟨d1, hd1, e⟩ := ht rfl
    rw [e]
    obtain ⟨k, d, final, hk, hl, hb, h1, h2⟩ := InternalPlay_loop_beats now fs p.final_arrival
      p.steps 0 { s1 with log := s1.log ++ d1, in_playback_loop := true }
    simp only [Nat.zero_mod] at hl hb h1 h2
    refine ⟨k, d0 ++ d1 ++ d, final, hk, ?_, ?_, h1, h2⟩
    · rw [hl, hl0]; simp
    · rw [beats_append, beats_append, hd0, hd1, hb]; rfl

/-- A run of `InternalPlay` without a command and without a failure returns
true, and the beats it adds to the log are those of one round of the drive loop
for each step of the script, and the final notification. -/
theorem InternalPlay_calm (now : Nat) (fs : AudioFormat → Nat) (p : PlayScript)
    (s : AudioOutputControl) (hc : s.command = Command.NONE)
    (hcalm : p.calm s.skip_delay = true) :
    (InternalPlay now fs p s).2 = some true
    ∧ ∃ d, (InternalPlay now fs p s).1.log = s.log ++ d
      ∧ beats d = rhythm 0 p.steps.length ++ [Event.ChunksConsumed] := by
  obtain ⟨d0, b, s1, hd0, hl0, hfill, hf, ht⟩ := InternalPlay_entry now fs p s
  simp only [PlayScript.calm, Bool.and_eq_true, Option.isNone_iff_eq_none] at hcalm
  obtain ⟨hfa, hres⟩ := hcalm
  cases hr : p.first_fill.result with
  | error e => rw [hr] at hres; simp at hres
  | ok r =>
    obtain ⟨b', src⟩ := r
    rw [hr] at hres
    cases b'
    · simp at hres
    · dsimp only at hres
      unfold FillSourceOrClose at hfill
      dsimp only at hfill
      rw [hr, hfa, arrive_none] at hfill
      simp only [Prod.mk.injEq] at hfill
      obtain ⟨hb, hs1⟩ := hfill
      subst hb
      obtain ⟨d1, hd1, e⟩ := ht rfl
      have hc1 : s1.command = Command.NONE := by
        rw [← hs1]; simpa [check_eq, emit] using hc
      have hk1 : s1.skip_delay = s.skip_delay := by
        rw [← hs1]; simp [check_eq, emit]
      have hsrc : s1.source = src := by rw [← hs1]
      rw [e]
      obtain ⟨i1, d, i2, i3⟩ := InternalPlay_loop_calm now fs p.final_arrival p.steps 0
        { s1 with log := s1.log ++ d1, in_playback_loop := true } hc1
        (by dsimp only; rw [hk1, hsrc]; exact hres)
      simp only [Nat.zero_mod] at i1 i2 i3
      refine ⟨i1, d0 ++ d1 ++ d, ?_, ?_⟩
      · rw [i2, hl0]; simp
      · rw [beats_append, beats_append, hd0, hd1, i3]; rfl

theorem rhythm_succ_right (m k : Nat) : rhythm m (k + 1) = rhythm m k ++ beat (m + k + 1) := by
  unfold rhythm
  rw [List.range_succ, List.flatMap_append]
  simp

set_option maxRecDepth 4000 in
theorem rhythm_64 :
    rhythm 0 64 = List.replicate 63 Event.PlayChunk ++ [Event.ChunksConsumed, Event.PlayChunk] := by
  decide

/-- C17: on a controller configured with `always_off` that is in its construction
state (not really enabled, not open, no thread, no pending command), every
sequence of `LockSetEnabled`, `LockToggleEnabled`, `EnableDisableAsync` and
`LockUpdate` calls returns, every `LockUpdate` in it returns false, and no field
but `enabled` changes: the controller is not really enabled and not open, it has
no thread, no command is posted, and nothing is added to the log (neither the
thread is started nor a collaborator called). -/
theorem C17_always_off_never_enabled (calls : List ClientCall) (s : AudioOutputControl)
    (hoff : s.always_off = true) (hre : s.really_enabled = false) (hopen : s.open_ = false)
    (hth : s.thread = false) (hc : s.command = Command.NONE) :
    ∃ s' rs, runCalls calls s = some (s', rs)
      ∧ (∀ r ∈ rs, r = false)
      ∧ s' = { s with enabled := s'.enabled }
      ∧ s'.really_enabled = false ∧ s'.open_ = false ∧ s'.thread = false
      ∧ s'.command = Command.NONE ∧ s'.log = s.log := by
  induction calls generalizing s with
  | nil => exact ⟨s, [], rfl, by simp, rfl, hre, hopen, hth, hc, rfl⟩
  | cons c cs ih =>
    obtain ⟨en, r, hrun, hr⟩ := ClientCall_run_always_off c s hoff hre hopen
    obtain ⟨s', rs, h1, h2, h3, h4, h5, h6, h7, h8⟩ :=
      ih { s with enabled := en } hoff hre hopen hth hc
    refine ⟨s', r.toList ++ rs, ?_, ?_, ?_, h4, h5, h6, h7, h8⟩
    · rw [runCalls, hrun]
      dsimp only
      rw [h1]
    · intro x hx
      rcases List.mem_append.1 hx with hx | hx
      · rcases hr with rfl | rfl
        · simp at hx
        · simpa using hx
      · exact h2 x hx
    · rw [h3]

/-- C17, on a sequence of six calls. -/
theorem C17_always_off_never_enabled_witness :
    alwaysOffController.always_off = true
    ∧ ∃ s' rs, runCalls reconcileCalls alwaysOffController = some (s', rs)
      ∧ (∀ r ∈ rs, r = false)
      ∧ s' = { alwaysOffController with enabled := s'.enabled }
      ∧ s'.really_enabled = false ∧ s'.open_ = false ∧ s'.thread = false
      ∧ s'.command = Command.NONE ∧ s'.log = alwaysOffController.log :=
  ⟨by decide,
    C17_always_off_never_enabled reconcileCalls alwaysOffController (by decide) (by decide)
      (by decide) (by decide) (by decide)⟩

/-- C18: `LockSetEnabled(b)` leaves `enabled == b` and changes no other field; it
returns true exactly when `enabled` was different from `b`; a second
`LockSetEnabled(b)` returns false and changes nothing. -/
theorem C18_LockSetEnabled (b : Bool) (s : AudioOutputControl) :
    (LockSetEnabled b s).2 = { s with enabled := b }
    ∧ ((LockSetEnabled b s).1 = true ↔ s.enabled ≠ b)
    ∧ LockSetEnabled b (LockSetEnabled b s).2 = (false, (LockSetEnabled b s).2) := by
  unfold LockSetEnabled
  by_cases h : b = s.enabled
  · subst h
    simp
  · rw [if_neg h]
    dsimp only
    rw [if_pos rfl]
    exact ⟨rfl, by simpa using fun h' => h h'.symm, rfl⟩

/-- C19 (counterexample): in a run of `InternalPlay` with 64 rounds of the drive
loop, without a command and without a failure, `PlayChunk` is called 63 times
before the first notification inside the loop. -/
theorem C19_first_notification_after_63_chunks :
    openState.command = Command.NONE
    ∧ longPlay.steps.length = 64
    ∧ longPlay.calm openState.skip_delay = true
    ∧ (InternalPlay 1 (fun _ => 1) longPlay openState).2 = some true
    ∧ beats ((InternalPlay 1 (fun _ => 1) longPlay openState).1.log.drop openState.log.length)
        = List.replicate 63 Event.PlayChunk
            ++ [Event.ChunksConsumed, Event.PlayChunk, Event.ChunksConsumed] := by
  have hlen : longPlay.steps.length = 64 := by decide
  obtain ⟨h1, d, h2, h3⟩ := InternalPlay_calm 1 (fun _ => 1) longPlay openState (by decide)
    (by decide)
  refine ⟨by decide, hlen, by decide, h1, ?_⟩
  rw [h2, List.drop_left, h3, hlen, rhythm_64]
  simp

/-- C19 (amended): in every run of `InternalPlay`, `client.ChunksConsumed()` is
called inside the drive loop at the start of every 64th round, before the
`PlayChunk` of that round: 63 calls of `PlayChunk` come before the first
notification inside the loop and 64 between two consecutive ones (`rhythm`). It is
called once more when the loop ends, unless the function has not returned, has
returned false, or was left because a command was pending at the top of a round.
A run without a command and without a failure returns true after one round for
each step of the script and ends with the final notification; a round that is
entered with a command pending leaves the function at once without a
notification. -/
theorem C19_ChunksConsumed_rhythm (now : Nat) (fs : AudioFormat → Nat) (p : PlayScript)
    (s : AudioOutputControl) :
    (∃ k d, ∃ final : Bool, k ≤ p.steps.length
      ∧ (InternalPlay now fs p s).1.log = s.log ++ d
      ∧ beats d = rhythm 0 k ++ (if final = true then [Event.ChunksConsumed] else [])
      ∧ (final = true → (InternalPlay now fs p s).2 = some true ∧ 1 ≤ k)
      ∧ (final = false → (InternalPlay now fs p s).2 = some true →
          (InternalPlay now fs p s).1.command ≠ Command.NONE))
    ∧ (s.command = Command.NONE → p.calm s.skip_delay = true →
        (InternalPlay now fs p s).2 = some true
        ∧ ∃ d, (InternalPlay now fs p s).1.log = s.log ++ d
          ∧ beats d = rhythm 0 p.steps.length ++ [Event.ChunksConsumed])
    ∧ (∀ steps n t, t.command ≠ Command.NONE →
        (InternalPlay_loop now fs p.final_arrival steps n t).2 = some true
        ∧ beats (InternalPlay_loop now fs p.final_arrival steps n t).1.log = beats t.log)
    ∧ (∀ k, rhythm 0 (k + 1) = rhythm 0 k
        ++ (if (k + 1) % 64 = 0 then [Event.ChunksConsumed] else []) ++ [Event.PlayChunk])
    ∧ rhythm 0 64
        = List.replicate 63 Event.PlayChunk ++ [Event.ChunksConsumed, Event.PlayChunk] := by
  refine ⟨InternalPlay_beats now fs p s, fun hc hcalm => InternalPlay_calm now fs p s hc hcalm,
    fun steps n t ht => ?_, fun k => ?_, rhythm_64⟩
  · have key : InternalPlay_loop now fs p.final_arrival steps n t
        = ({ check t.in_playback_loop Assertion.InternalPlay_in_playback_loop t with
             in_playback_loop := false }, some true) := by
      cases steps <;> rw [InternalPlay_loop, if_pos ht]
    rw [key]
    refine ⟨rfl, ?_⟩
    dsimp only
    rw [check_eq, beats_append]
    split <;> simp [beats]
  · rw [rhythm_succ_right, Nat.zero_add, List.append_assoc]
    rfl

/-- C19 (amended), on a run with two rounds of the drive loop. -/
theorem C19_ChunksConsumed_rhythm_witness :
    openState.command = Command.NONE
    ∧ shortPlay.calm openState.skip_delay = true
    ∧ (InternalPlay 1 (fun _ => 1) shortPlay openState).2 = some true
    ∧ ∃ d, (InternalPlay 1 (fun _ => 1) shortPlay openState).1.log = openState.log ++ d
      ∧ beats d = rhythm 0 shortPlay.steps.length ++ [Event.ChunksConsumed] :=
  ⟨by decide, by decide,
    (C19_ChunksConsumed_rhythm 1 (fun _ => 1) shortPlay openState).2.1 (by decide) (by decide)⟩

/-- C20: `PlayFull` gets to its end when each call of `output.Play` returns a
positive length (or throws) and there are as many results as bytes. When each
call returns a length that is positive and at most the length of the buffer it
was given, `PlayFull` completes, the calls of `Play` are exactly its additions to
the log, each call receives the suffix not yet accepted, the lengths returned
sum to the size of the buffer, and the bytes accepted are the buffer, in order. -/
theorem C20_PlayFull_submits_every_byte (plays : List (Except Exception Nat))
    (buffer : List Nat) (s : AudioOutputControl) :
    (playsSuffice plays buffer = true → (PlayFull plays buffer s).2 ≠ Progress.running)
    ∧ (playsWithin plays buffer.length = true →
      ∃ ns, plays.take ns.length = ns.map Except.ok
        ∧ (∀ n ∈ ns, 0 < n)
        ∧ ns.sum = buffer.length
        ∧ PlayFull plays buffer s
            = ({ s with log := s.log ++ fullWrites ns buffer }, Progress.completed)
        ∧ (pieces ns buffer).flatten = buffer) := by
  refine ⟨fun h => PlayFull_not_running plays buffer s h, fun h => ?_⟩
  obtain ⟨ns, h1, h2, h3, h4⟩ := PlayFull_writes plays buffer s h
  exact ⟨ns, h1, h2, h3, h4, pieces_flatten ns buffer (by rw [h3])⟩

/-- C20, on a buffer of six bytes that the device accepts in three writes. -/
theorem C20_PlayFull_submits_every_byte_witness :
    playsWithin threeWrites sixBytes.length = true
    ∧ ∃ ns, threeWrites.take ns.length = ns.map Except.ok
        ∧ (∀ n ∈ ns, 0 < n)
        ∧ ns.sum = sixBytes.length
        ∧ PlayFull threeWrites sixBytes openState
            = ({ openState with log := openState.log ++ fullWrites ns sixBytes },
                Progress.completed)
        ∧ (pieces ns sixBytes).flatten = sixBytes :=
  ⟨by decide,
    (C20_PlayFull_submits_every_byte threeWrites sixBytes openState).2 (by decide)⟩

/-! ### The configuration parser -/

/-- A digit has a character code from 48 to 57. -/
theorem isdigit_bounds (c : Char) (h : isdigit c = true) : 48 ≤ c.toNat ∧ c.toNat ≤ 57 := by
  simpa [isdigit] using h

/-- The end of a string is not a digit. -/
theorem isdigit_peek_nil : isdigit (peek []) = false := by decide

/-- The subject sequence of a string that starts with the digits `ds`, followed
by something that is not a digit: no sign, the digits `ds`, and the rest. -/
theorem subjectSequence_digits (ds rest : List Char) (hne : ds ≠ [])
    (hd : ∀ c ∈ ds, isdigit c = true) (hr : isdigit (peek rest) = false) :
    subjectSequence (ds ++ rest) = (false, ds, rest) := by
  obtain ⟨d, ds', rfl⟩ := List.exists_cons_of_ne_nil hne
  have hdb := isdigit_bounds d (hd d (List.mem_cons_self _ _))
  have hsp : isspace d = false := by
    simp only [isspace, Bool.or_eq_false_iff, decide_eq_false_iff_not, Bool.and_eq_false_iff]
    omega
  have hminus : d ≠ '-' := by
    intro h; rw [h] at hdb; revert hdb; decide
  have hplus : d ≠ '+' := by
    intro h; rw [h] at hdb; revert hdb; decide
  have htake : List.takeWhile isdigit rest = [] := by
    cases rest with
    | nil => rfl
    | cons r rs => exact List.takeWhile_cons_of_neg (by simpa [peek] using hr)
  have hdrop : List.dropWhile isdigit rest = rest := by
    cases rest with
    | nil => rfl
    | cons r rs => exact List.dropWhile_cons_of_neg (by simpa [peek] using hr)
  have h1 : List.dropWhile isspace (d :: ds' ++ rest) = d :: ds' ++ rest :=
    List.dropWhile_cons_of_neg (by simp [hsp])
  unfold subjectSequence
  simp only [h1]
  have hp : peek (d :: ds' ++ rest) = d := rfl
  simp only [hp, hminus, hplus, or_self, if_false, decide_False]
  rw [List.takeWhile_append_of_pos hd, List.dropWhile_append_of_pos hd, htake, hdrop,
    List.append_nil]

/-- On the digits `ds` of a number in the range of `unsigned long`, `strtoul`
converts the number and leaves `endptr` behind the digits. -/
theorem strtoul_digits (ds rest : List Char) (hne : ds ≠ [])
    (hd : ∀ c ∈ ds, isdigit c = true) (hr : isdigit (peek rest) = false)
    (hv : digitsValue ds ≤ SIZE_MAX) :
    strtoul (ds ++ rest) = some (digitsValue ds, rest) := by
  unfold strtoul
  rw [subjectSequence_digits ds rest hne hd hr]
  have : ds.isEmpty = false := by cases ds <;> simp_all
  simp [this, Nat.not_lt.mpr hv]

/-- On the digits `ds` of a number in the range of `long`, `strtol` converts the
number and leaves `endptr` behind the digits. -/
theorem strtol_digits (ds rest : List Char) (hne : ds ≠ [])
    (hd : ∀ c ∈ ds, isdigit c = true) (hr : isdigit (peek rest) = false)
    (hv : (digitsValue ds : Int) ≤ LONG_MAX) :
    strtol (ds ++ rest) = some ((digitsValue ds : Int), rest) := by
  unfold strtol
  rw [subjectSequence_digits ds rest hne hd hr]
  have : ds.isEmpty = false := by cases ds <;> simp_all
  have h2 : ¬ ((digitsValue ds : Int) < LONG_MIN) := by
    have : LONG_MIN < 0 := by decide
    omega
  simp [this, not_lt.mpr hv, h2]

/-- The function `StripLeft` removes leading spaces. -/
theorem StripLeft_spaces (sp rest : List Char) (hsp : ∀ c ∈ sp, c = Char.ofNat 32)
    (hr : 32 < (peek rest).toNat ∨ (peek rest).toNat = 0) :
    StripLeft (sp ++ rest) = rest := by
  unfold StripLeft
  rw [List.dropWhile_append_of_pos]
  · cases rest with
    | nil => rfl
    | cons r rs =>
      apply List.dropWhile_cons_of_neg
      have hr' : 32 < r.toNat ∨ r.toNat = 0 := hr
      simp only [Bool.and_eq_true, decide_eq_true_eq, not_and, not_le]
      omega
  · intro c hc
    rw [hsp c hc]
    decide


/-- What stands behind the digits of a number, spaces followed by a suffix, does
not start with a digit. -/
theorem isdigit_peek_spaces (sp suffix : List Char) (hsp : ∀ c ∈ sp, c = Char.ofNat 32)
    (hs : isdigit (peek suffix) = false) : isdigit (peek (sp ++ suffix)) = false := by
  cases sp with
  | nil => exact hs
  | cons c cs =>
    have hc : c = Char.ofNat 32 := hsp c (List.mem_cons_self _ _)
    show isdigit c = false
    rw [hc]
    decide

/-- The function `ParseSize` on digits, spaces and a suffix: the number is
converted, the spaces are skipped, and the suffix decides. -/
theorem ParseSize_digits (ds sp suffix : List Char) (default_factor : Nat) (hne : ds ≠ [])
    (hd : ∀ c ∈ ds, isdigit c = true) (hsp : ∀ c ∈ sp, c = Char.ofNat 32)
    (hv : digitsValue ds ≤ SIZE_MAX)
    (hs : 32 < (peek suffix).toNat ∨ (peek suffix).toNat = 0)
    (hsd : isdigit (peek suffix) = false) :
    ParseSize (ds ++ sp ++ suffix) default_factor
      = match ParseSize_suffix (digitsValue ds) suffix with
        | Except.error e => Except.error e
        | Except.ok (value, s, apply_factor) =>
          ParseSize_finish default_factor value s apply_factor := by
  unfold ParseSize
  rw [List.append_assoc,
    strtoul_digits ds (sp ++ suffix) hne hd (isdigit_peek_spaces sp suffix hsp hsd) hv]
  simp only [StripLeft_spaces sp suffix hsp hs]

/-- The function `ParseSize` on digits and spaces with nothing behind them. -/
theorem ParseSize_bare (ds sp : List Char) (default_factor : Nat) (hne : ds ≠ [])
    (hd : ∀ c ∈ ds, isdigit c = true) (hsp : ∀ c ∈ sp, c = Char.ofNat 32)
    (hv : digitsValue ds ≤ SIZE_MAX) :
    ParseSize (ds ++ sp) default_factor
      = Except.ok ((digitsValue ds * default_factor) % 2 ^ 64) := by
  have h := ParseSize_digits ds sp [] default_factor hne hd hsp hv (Or.inr (by decide))
    (by decide)
  rw [List.append_nil] at h
  rw [h]
  rfl

/-- The function `ParseSize` on digits, spaces and a suffix that starts with a
character other than `k`, `M`, `G`: the exception "Unknown size suffix". -/
theorem ParseSize_other (ds sp rest : List Char) (c : Char) (default_factor : Nat)
    (hne : ds ≠ []) (hd : ∀ c ∈ ds, isdigit c = true) (hsp : ∀ c ∈ sp, c = Char.ofNat 32)
    (hv : digitsValue ds ≤ SIZE_MAX) (hc : 32 < c.toNat) (hcd : isdigit c = false)
    (hk : c ≠ 'k') (hM : c ≠ 'M') (hG : c ≠ 'G') :
    ParseSize (ds ++ sp ++ c :: rest) default_factor = Except.error "Unknown size suffix" := by
  rw [ParseSize_digits ds sp (c :: rest) default_factor hne hd hsp hv (Or.inl hc) hcd]
  have h0 : c ≠ Char.ofNat 0 := by
    intro h; rw [h] at hc; revert hc; decide
  have hp : peek (c :: rest) = c := rfl
  simp only [ParseSize_suffix, hp, if_neg hk, if_neg hM, if_neg hG, if_neg h0]

/-- The suffixes `k`, `M`, `G` with the factor `m`, alone or followed by `B`:
the switch and the end of `ParseSize` give the result of `Multiply`. -/
theorem ParseSize_suffix_unit (value default_factor m : Nat) (c : Char) (tail : List Char)
    (hc : (c = 'k' ∧ m = KILO) ∨ (c = 'M' ∧ m = MEGA) ∨ (c = 'G' ∧ m = GIGA))
    (ht : tail = [] ∨ tail = ['B']) :
    (match ParseSize_suffix value (c :: tail) with
      | Except.error e => Except.error e
      | Except.ok (value, s, apply_factor) =>
        ParseSize_finish default_factor value s apply_factor) = Multiply m value := by
  have h : ParseSize_suffix value (c :: tail)
      = match Multiply m value with
        | Except.error e => Except.error e
        | Except.ok v => Except.ok (v, tail, false) := by
    rcases hc with ⟨h, hm⟩ | ⟨h, hm⟩ | ⟨h, hm⟩ <;> subst h <;> subst hm <;> rfl
  rw [h]
  generalize Multiply m value = r
  cases r with
  | error e => rfl
  | ok v => rcases ht with ht | ht <;> subst ht <;> rfl

/-- The function `ParseSize` on digits, spaces and one of the suffixes `k`, `M`,
`G` with the factor `m`, alone or followed by `B`: the result of `Multiply`. -/
theorem ParseSize_unit (ds sp : List Char) (c : Char) (m default_factor : Nat)
    (hne : ds ≠ []) (hd : ∀ c ∈ ds, isdigit c = true) (hsp : ∀ c ∈ sp, c = Char.ofNat 32)
    (hv : digitsValue ds ≤ SIZE_MAX)
    (hc : (c = 'k' ∧ m = KILO) ∨ (c = 'M' ∧ m = MEGA) ∨ (c = 'G' ∧ m = GIGA)) :
    ParseSize (ds ++ sp ++ [c]) default_factor = Multiply m (digitsValue ds)
    ∧ ParseSize (ds ++ sp ++ [c, 'B']) default_factor = Multiply m (digitsValue ds) := by
  have hc32 : 32 < c.toNat := by
    rcases hc with ⟨h, -⟩ | ⟨h, -⟩ | ⟨h, -⟩ <;> subst h <;> decide
  have hcd : isdigit c = false := by
    rcases hc with ⟨h, -⟩ | ⟨h, -⟩ | ⟨h, -⟩ <;> subst h <;> decide
  rw [ParseSize_digits ds sp [c] default_factor hne hd hsp hv (Or.inl hc32) hcd,
    ParseSize_digits ds sp [c, 'B'] default_factor hne hd hsp hv (Or.inl hc32) hcd]
  exact ⟨ParseSize_suffix_unit _ default_factor m c [] hc (Or.inl rfl),
    ParseSize_suffix_unit _ default_factor m c ['B'] hc (Or.inr rfl)⟩

/-- C21: the function `ParseSize` on digits `ds` (a number in the range of
`unsigned long`) and spaces `sp`, followed by a suffix. A number followed only by
`B` is not accepted: `ParseSize` throws "Unknown size suffix". For the rest the
grammar is the one of the claim: the bare number is multiplied by
`default_factor` (modulo 2^64); the suffixes `k`, `M`, `G` give the result of
`Multiply` by 1024, 1024^2, 1024^3, also when `B` follows; every other character
behind the number throws "Unknown size suffix". -/
theorem C21_ParseSize_number_with_B_is_rejected (ds sp : List Char) (default_factor : Nat)
    (hne : ds ≠ []) (hd : ∀ c ∈ ds, isdigit c = true) (hsp : ∀ c ∈ sp, c = Char.ofNat 32)
    (hv : digitsValue ds ≤ SIZE_MAX) :
    ParseSize (ds ++ sp ++ ['B']) default_factor = Except.error "Unknown size suffix"
    ∧ ParseSize (ds ++ sp) default_factor
        = Except.ok ((digitsValue ds * default_factor) % 2 ^ 64)
    ∧ ParseSize (ds ++ sp ++ ['k']) default_factor = Multiply 1024 (digitsValue ds)
    ∧ ParseSize (ds ++ sp ++ ['k', 'B']) default_factor = Multiply 1024 (digitsValue ds)
    ∧ ParseSize (ds ++ sp ++ ['M']) default_factor = Multiply (1024 ^ 2) (digitsValue ds)
    ∧ ParseSize (ds ++ sp ++ ['M', 'B']) default_factor
        = Multiply (1024 ^ 2) (digitsValue ds)
    ∧ ParseSize (ds ++ sp ++ ['G']) default_factor = Multiply (1024 ^ 3) (digitsValue ds)
    ∧ ParseSize (ds ++ sp ++ ['G', 'B']) default_factor
        = Multiply (1024 ^ 3) (digitsValue ds)
    ∧ (∀ (c : Char) (rest : List Char), 32 < c.toNat → isdigit c = false →
        c ≠ 'k' → c ≠ 'M' → c ≠ 'G' →
        ParseSize (ds ++ sp ++ c :: rest) default_factor
          = Except.error "Unknown size suffix") :=
  ⟨ParseSize_other ds sp [] 'B' default_factor hne hd hsp hv (by decide) (by decide)
      (by decide) (by decide) (by decide),
    ParseSize_bare ds sp default_factor hne hd hsp hv,
    (ParseSize_unit ds sp 'k' 1024 default_factor hne hd hsp hv (Or.inl ⟨rfl, rfl⟩)).1,
    (ParseSize_unit ds sp 'k' 1024 default_factor hne hd hsp hv (Or.inl ⟨rfl, rfl⟩)).2,
    (ParseSize_unit ds sp 'M' (1024 ^ 2) default_factor hne hd hsp hv
      (Or.inr (Or.inl ⟨rfl, by decide⟩))).1,
    (ParseSize_unit ds sp 'M' (1024 ^ 2) default_factor hne hd hsp hv
      (Or.inr (Or.inl ⟨rfl, by decide⟩))).2,
    (ParseSize_unit ds sp 'G' (1024 ^ 3) default_factor hne hd hsp hv
      (Or.inr (Or.inr ⟨rfl, by decide⟩))).1,
    (ParseSize_unit ds sp 'G' (1024 ^ 3) default_factor hne hd hsp hv
      (Or.inr (Or.inr ⟨rfl, by decide⟩))).2,
    fun c rest hc hcd hk hM hG =>
      ParseSize_other ds sp rest c default_factor hne hd hsp hv hc hcd hk hM hG⟩

/-- C21, at the strings "16B" and "16 B" with the default factor 1024: both throw
"Unknown size suffix", while "16" gives 16384 and "16kB" gives 16384. -/
theorem C21_ParseSize_number_with_B_is_rejected_witness :
    "16".toList ≠ []
    ∧ (∀ c ∈ "16".toList, isdigit c = true)
    ∧ digitsValue "16".toList ≤ SIZE_MAX
    ∧ ParseSize "16B".toList 1024 = Except.error "Unknown size suffix"
    ∧ ParseSize ("16".toList ++ [Char.ofNat 32] ++ ['B']) 1024
        = Except.error "Unknown size suffix"
    ∧ ParseSize "16".toList 1024 = Except.ok 16384
    ∧ ParseSize "16kB".toList 1024 = Except.ok 16384 :=
  ⟨by decide, by decide, by decide,
    (C21_ParseSize_number_with_B_is_rejected "16".toList [] 1024 (by decide) (by decide)
      (by simp) (by decide)).1,
    (C21_ParseSize_number_with_B_is_rejected "16".toList [Char.ofNat 32] 1024 (by decide)
      (by decide) (by simp) (by decide)).1,
    (C21_ParseSize_number_with_B_is_rejected "16".toList [] 1024 (by decide) (by decide)
      (by simp) (by decide)).2.1,
    (C21_ParseSize_number_with_B_is_rejected "16".toList [] 1024 (by decide) (by decide)
      (by simp) (by decide)).2.2.2.1⟩

/-! ### The assertion of `InternalDrain` -/

/-- C22: the assertion at the top of `InternalDrain` fails in a state that the
public operations reach. From the open controller `openState`, `LockDrainAsync`
posts DRAIN and the worker dispatches it; nothing throws, so the output stays open,
the source state is FLUSHED and no assertion has failed in this round. A second
`LockDrainAsync` posts DRAIN again, since the output is open; the worker calls
`InternalDrain` again, since `open` is true, and the assertion
`source_state == SourceState::OPEN` fails. -/
theorem C22_second_drain_fails_assertion :
    openState.open_ = true
    ∧ openState.source_state = SourceState.OPEN
    ∧ (LockDrainAsync openState).command = Command.DRAIN
    ∧ (Task_step (quietScript 1) (LockDrainAsync openState)).2 = Outcome.looped
    ∧ drainedOnce.open_ = true
    ∧ drainedOnce.source_state = SourceState.FLUSHED
    ∧ drainedOnce.command = Command.NONE
    ∧ drainedOnce.allow_play = true
    ∧ drainedOnce.log
        = openState.log ++ [Event.Call Fn.InternalDrain, Event.SourceFlush, Event.Drain,
            Event.CommandFinished Command.DRAIN]
    ∧ (LockDrainAsync drainedOnce).command = Command.DRAIN
    ∧ (Task_step (quietScript 2) (LockDrainAsync drainedOnce)).2 = Outcome.looped
    ∧ drainedTwice.log
        = drainedOnce.log ++ [Event.Call Fn.InternalDrain,
            Event.AssertionFailed Assertion.InternalDrain_source_OPEN, Event.SourceFlush,
            Event.Drain, Event.CommandFinished Command.DRAIN] := by
  decide

/-! ### The conversions of `ParseUnsigned` and `ParsePositive` -/

/-- The conversion to `unsigned` of a number that is not negative is the number
modulo 2^32. -/
theorem toUnsigned_natCast (n : Nat) : toUnsigned (n : Int) = n % 2 ^ 32 := by
  unfold toUnsigned
  have h : ((n : Int) % 2 ^ 32) = ((n % 2 ^ 32 : Nat) : Int) := by norm_cast
  rw [h, Int.toNat_ofNat]

/-- The function `ParseLong` on the digits of a number in the range of `long`. -/
theorem ParseLong_digits (ds : List Char) (hne : ds ≠ [])
    (hd : ∀ c ∈ ds, isdigit c = true) (hv : (digitsValue ds : Int) ≤ LONG_MAX) :
    ParseLong ds = Except.ok (digitsValue ds : Int) := by
  have h := strtol_digits ds [] hne hd (by decide) hv
  rw [List.append_nil] at h
  unfold ParseLong
  rw [h]
  rfl

/-- C23: on the digits `ds` of a number in the range of `long`, `ParseLong`
returns the number, and `ParseUnsigned` and `ParsePositive` (when the number is
positive) return the number modulo 2^32: the conversion `(unsigned)value`
truncates without an exception. `ParsePositive` throws when the number is 0. -/
theorem C23_conversion_to_unsigned_truncates (ds : List Char) (hne : ds ≠ [])
    (hd : ∀ c ∈ ds, isdigit c = true) (hv : (digitsValue ds : Int) ≤ LONG_MAX) :
    ParseLong ds = Except.ok (digitsValue ds : Int)
    ∧ ParseUnsigned ds = Except.ok (digitsValue ds % 2 ^ 32)
    ∧ (0 < digitsValue ds → ParsePositive ds = Except.ok (digitsValue ds % 2 ^ 32))
    ∧ (digitsValue ds = 0 → ParsePositive ds = Except.error "Value must be positive") := by
  have h := ParseLong_digits ds hne hd hv
  refine ⟨h, ?_, ?_, ?_⟩
  · unfold ParseUnsigned
    rw [h]
    simp only [toUnsigned_natCast]
    rw [if_neg (by omega)]
  · intro hpos
    unfold ParsePositive
    rw [h]
    simp only [toUnsigned_natCast]
    rw [if_neg (by omega)]
  · intro h0
    unfold ParsePositive
    rw [h]
    simp only [h0]
    rfl

/-- C23, at the string "4294967296", the number 2^32: `ParseLong` returns 2^32,
while `ParseUnsigned` and `ParsePositive` return 0. -/
theorem C23_conversion_to_unsigned_truncates_witness :
    "4294967296".toList ≠ []
    ∧ (∀ c ∈ "4294967296".toList, isdigit c = true)
    ∧ (digitsValue "4294967296".toList : Int) ≤ LONG_MAX
    ∧ digitsValue "4294967296".toList = 2 ^ 32
    ∧ ParseLong "4294967296".toList = Except.ok (2 ^ 32)
    ∧ ParseUnsigned "4294967296".toList = Except.ok 0
    ∧ ParsePositive "4294967296".toList = Except.ok 0 :=
  ⟨by decide, by decide, by decide, by decide,
    (C23_conversion_to_unsigned_truncates "4294967296".toList (by decide) (by decide)
      (by decide)).1,
    (C23_conversion_to_unsigned_truncates "4294967296".toList (by decide) (by decide)
      (by decide)).2.1,
    (C23_conversion_to_unsigned_truncates "4294967296".toList (by decide) (by decide)
      (by decide)).2.2.1 (by decide)⟩

/-! ### Overflow in `ParseSize` -/

/-- The function `Multiply` returns the exact product when it is at most
`SIZE_MAX`, and throws "Value too large" otherwise. -/
theorem Multiply_exact (m value : Nat) (hm : 0 < m) :
    Multiply m value
      = if value * m ≤ SIZE_MAX then Except.ok (value * m)
        else Except.error "Value too large" := by
  unfold Multiply
  have h : value > SIZE_MAX / m ↔ ¬ value * m ≤ SIZE_MAX := by
    rw [not_le, gt_iff_lt, Nat.div_lt_iff_lt_mul hm]
  by_cases hc : value * m ≤ SIZE_MAX
  · rw [if_pos hc]
    simp only []
    rw [if_neg (fun hgt => (h.mp hgt) hc)]
  · rw [if_neg hc]
    simp only []
    rw [if_pos (h.mpr hc)]

/-- C24: on the digits `ds` of a number in the range of `unsigned long`, with
spaces `sp` behind them. With a suffix `k`, `M` or `G`, `ParseSize` returns the
exact product when it is at most `SIZE_MAX` and throws "Value too large"
otherwise. The bare number is multiplied by `default_factor` modulo 2^64: when
the product exceeds `SIZE_MAX`, `ParseSize` throws nothing and returns a value
smaller than the product. -/
theorem C24_ParseSize_default_factor_wraps (ds sp : List Char) (default_factor : Nat)
    (hne : ds ≠ []) (hd : ∀ c ∈ ds, isdigit c = true) (hsp : ∀ c ∈ sp, c = Char.ofNat 32)
    (hv : digitsValue ds ≤ SIZE_MAX) :
    (SIZE_MAX < digitsValue ds * default_factor →
      ParseSize (ds ++ sp) default_factor
          = Except.ok ((digitsValue ds * default_factor) % 2 ^ 64)
        ∧ (digitsValue ds * default_factor) % 2 ^ 64 < digitsValue ds * default_factor)
    ∧ (digitsValue ds * default_factor ≤ SIZE_MAX →
      ParseSize (ds ++ sp) default_factor = Except.ok (digitsValue ds * default_factor))
    ∧ ParseSize (ds ++ sp ++ ['k']) default_factor
        = (if digitsValue ds * 1024 ≤ SIZE_MAX then Except.ok (digitsValue ds * 1024)
           else Except.error "Value too large")
    ∧ ParseSize (ds ++ sp ++ ['M']) default_factor
        = (if digitsValue ds * 1024 ^ 2 ≤ SIZE_MAX then Except.ok (digitsValue ds * 1024 ^ 2)
           else Except.error "Value too large")
    ∧ ParseSize (ds ++ sp ++ ['G']) default_factor
        = (if digitsValue ds * 1024 ^ 3 ≤ SIZE_MAX then Except.ok (digitsValue ds * 1024 ^ 3)
           else Except.error "Value too large") := by
  have hb := ParseSize_bare ds sp default_factor hne hd hsp hv
  refine ⟨fun hover => ⟨hb, ?_⟩, fun hle => ?_, ?_, ?_, ?_⟩
  · have : SIZE_MAX = 2 ^ 64 - 1 := rfl
    have := Nat.mod_lt (digitsValue ds * default_factor) (show 0 < 2 ^ 64 by decide)
    omega
  · rw [hb, Nat.mod_eq_of_lt]
    have : SIZE_MAX = 2 ^ 64 - 1 := rfl
    omega
  · rw [(ParseSize_unit ds sp 'k' 1024 default_factor hne hd hsp hv (Or.inl ⟨rfl, rfl⟩)).1]
    exact Multiply_exact 1024 _ (by decide)
  · rw [(ParseSize_unit ds sp 'M' (1024 ^ 2) default_factor hne hd hsp hv
      (Or.inr (Or.inl ⟨rfl, by decide⟩))).1]
    exact Multiply_exact (1024 ^ 2) _ (by decide)
  · rw [(ParseSize_unit ds sp 'G' (1024 ^ 3) default_factor hne hd hsp hv
      (Or.inr (Or.inr ⟨rfl, by decide⟩))).1]
    exact Multiply_exact (1024 ^ 3) _ (by decide)

/-- C24, at the string "18014398509481984", the number 2^54, with the default
factor 1024: the product is 2^64, and `ParseSize` returns 0. -/
theorem C24_ParseSize_default_factor_wraps_witness :
    "18014398509481984".toList ≠ []
    ∧ (∀ c ∈ "18014398509481984".toList, isdigit c = true)
    ∧ digitsValue "18014398509481984".toList = 2 ^ 54
    ∧ SIZE_MAX < digitsValue "18014398509481984".toList * 1024
    ∧ ParseSize "18014398509481984".toList 1024 = Except.ok 0 :=
  ⟨by decide, by decide, by decide, by decide,
    ((C24_ParseSize_default_factor_wraps "18014398509481984".toList [] 1024 (by decide)
      (by decide) (by simp) (by decide)).1 (by decide)).1⟩

/-! ### The database statistics -/

/-- C25: when `GetStats` fails, `stats_update` logs the error, sets
`stats_validity` to FAILED and returns true, not false; the next call finds FAILED
and returns false. So `db_stats_print` prints the lines of the statistics although
they are not valid. On success `stats_update` stores the statistics, sets VALID
and returns true after one query; from VALID it returns true and from FAILED
false, without a query. -/
theorem C25_stats_update_true_on_failure (stats st : DatabaseStats) (log : List StatsEvent)
    (get_stats : Option DatabaseStats) (simple : Bool) (update_stamp : Int) :
    stats_update none { stats := stats, stats_validity := StatsValidity.INVALID, log := log }
      = (true, { stats := stats, stats_validity := StatsValidity.FAILED,
                 log := log ++ [StatsEvent.GetStats, StatsEvent.LogError] })
    ∧ stats_update get_stats
        (stats_update none
          { stats := stats, stats_validity := StatsValidity.INVALID, log := log }).2
      = (false, { stats := stats, stats_validity := StatsValidity.FAILED,
                  log := log ++ [StatsEvent.GetStats, StatsEvent.LogError] })
    ∧ StatsEvent.PrintStats stats ∈
        (db_stats_print simple none update_stamp
          { stats := stats, stats_validity := StatsValidity.INVALID, log := log }).log
    ∧ (db_stats_print simple none update_stamp
          { stats := stats, stats_validity := StatsValidity.INVALID, log := log }).stats_validity
        = StatsValidity.FAILED
    ∧ stats_update (some st)
        { stats := stats, stats_validity := StatsValidity.INVALID, log := log }
      = (true, { stats := st, stats_validity := StatsValidity.VALID,
                 log := log ++ [StatsEvent.GetStats] })
    ∧ stats_update get_stats
        { stats := stats, stats_validity := StatsValidity.VALID, log := log }
      = (true, { stats := stats, stats_validity := StatsValidity.VALID, log := log })
    ∧ stats_update get_stats
        { stats := stats, stats_validity := StatsValidity.FAILED, log := log }
      = (false, { stats := stats, stats_validity := StatsValidity.FAILED, log := log }) := by
  refine ⟨?_, ?_, ?_, ?_, rfl, rfl, rfl⟩
  · simp [stats_update]
  · simp [stats_update]
  · cases simple <;> by_cases h : update_stamp > 0 <;>
      simp [db_stats_print, stats_update, stats_invalidate, h]
  · cases simple <;> by_cases h : update_stamp > 0 <;>
      simp [db_stats_print, stats_update, stats_invalidate, h]

end MPD
